import Mathlib

/-!
Verification of the token program's core engine (a from-scratch SPL-token
style program): binary record codecs (Mint, Account, Multisig), the
instruction codec, the authority-validation subroutines, and the twelve
instruction handlers, shallowly embedded from the Rust sources under
`programs/token/src`.  Machine integers are modelled as `Nat` with explicit
bounds (`u64` fields are values `< 2^64`); byte strings are `List Nat` with
every element `< 256`; fallible Rust functions return `Except Err`.
-/

set_option maxHeartbeats 1000000

/-! ## Little-endian encoding primitives -/

/-- `w`-byte little-endian encoding of `n` (the model of `to_le_bytes`,
truncating at `2^(8*w)` exactly as the fixed-width Rust integer does). -/
def leBytes : Nat → Nat → List Nat
  | 0, _ => []
  | w + 1, n => n % 256 :: leBytes w (n / 256)

/-- Value of a little-endian byte list (the model of `from_le_bytes`). -/
def leVal : List Nat → Nat
  | [] => 0
  | b :: bs => b + 256 * leVal bs

/-- Every element of the list is a byte value. -/
def ValidBytes (xs : List Nat) : Prop := ∀ b ∈ xs, b < 256

theorem leBytes_length (w n : Nat) : (leBytes w n).length = w := by
  induction w generalizing n with
  | zero => rfl
  | succ w ih => simp [leBytes, ih]

theorem leVal_leBytes (w n : Nat) : leVal (leBytes w n) = n % 256 ^ w := by
  induction w generalizing n with
  | zero => simp [leBytes, leVal, Nat.mod_one]
  | succ w ih =>
    simp only [leBytes, leVal, ih]
    rw [Nat.pow_succ, Nat.mul_comm (256 ^ w) 256, Nat.mod_mul]

theorem leBytes_leVal (xs : List Nat) (w : Nat) (hl : xs.length = w)
    (hv : ValidBytes xs) : leBytes w (leVal xs) = xs := by
  induction xs generalizing w with
  | nil => subst hl; rfl
  | cons b bs ih =>
    subst hl
    have hb : b < 256 := hv b (by simp)
    have hbs : ValidBytes bs := fun x hx => hv x (by simp [hx])
    simp only [leBytes, leVal, List.length_cons]
    have h1 : (b + 256 * leVal bs) % 256 = b := by
      rw [Nat.add_mul_mod_self_left]
      exact Nat.mod_eq_of_lt hb
    have h2 : (b + 256 * leVal bs) / 256 = leVal bs := by omega
    rw [h1, h2, ih bs.length rfl hbs]

theorem leBytes_validBytes (w n : Nat) : ValidBytes (leBytes w n) := by
  induction w generalizing n with
  | zero => intro b hb; simp [leBytes] at hb
  | succ w ih =>
    intro b hb
    simp only [leBytes, List.mem_cons] at hb
    rcases hb with h | h
    · omega
    · exact ih _ b h

theorem leVal_lt (xs : List Nat) (hv : ValidBytes xs) : leVal xs < 256 ^ xs.length := by
  induction xs with
  | nil => simp [leVal]
  | cons b bs ih =>
    have hb : b < 256 := hv b (by simp)
    have hbs : ValidBytes bs := fun x hx => hv x (by simp [hx])
    have := ih hbs
    simp only [leVal, List.length_cons, Nat.pow_succ]
    calc b + 256 * leVal bs < 256 + 256 * leVal bs := by omega
    _ = 256 * (leVal bs + 1) := by ring
    _ ≤ 256 * 256 ^ bs.length := by
        have : leVal bs + 1 ≤ 256 ^ bs.length := this
        exact Nat.mul_le_mul_left 256 this
    _ = 256 ^ bs.length * 256 := by ring

/-! ## List surgery helpers used by the codec proofs -/

theorem take_len_append {α : Type} (xs ys : List α) : (xs ++ ys).take xs.length = xs := by
  induction xs with
  | nil => simp
  | cons a as ih => simp [ih]

theorem drop_len_append {α : Type} (xs ys : List α) : (xs ++ ys).drop xs.length = ys := by
  induction xs with
  | nil => simp
  | cons a as ih => simp [ih]

theorem take_of_len_le {α : Type} (xs : List α) (n : Nat) (h : xs.length ≤ n) :
    xs.take n = xs := List.take_of_length_le h

/-! ## Pubkeys and the error enumeration -/

/-- A public key: 32 raw bytes (`Pubkey` in `solana_program`).  Keys are
compared byte-for-byte, which is all the engine ever does with them. -/
structure Pubkey where
  bytes : List Nat
deriving DecidableEq

/-- A well-formed key holds exactly 32 byte values. -/
def Pubkey.wf (p : Pubkey) : Prop := p.bytes.length = 32 ∧ ValidBytes p.bytes

/-- The all-zero key (`Pubkey::default()`). -/
def zeroPubkey : Pubkey := ⟨List.replicate 32 0⟩

theorem zeroPubkey_wf : zeroPubkey.wf := by
  constructor
  · simp [zeroPubkey]
  · intro b hb
    simp only [zeroPubkey, List.mem_replicate] at hb
    omega

/-- The error surface of the engine: every `TokenError` variant
(`error.rs`) plus the host-level `ProgramError` kinds the code returns
directly (`MissingRequiredSignature`, `InvalidAccountData`,
`NotEnoughAccountKeys`, `InvalidArgument`). -/
inductive Err
  | InvalidAccountOwner
  | InvalidAccountDataLength
  | NotRentExempt
  | AlreadyInitialized
  | UninitializedAccount
  | InvalidAuthority
  | OwnerMismatch
  | MintAuthorityRequired
  | AccountFrozen
  | FreezeAuthorityRequired
  | InsufficientFunds
  | Overflow
  | MintMismatch
  | NonZeroBalance
  | InvalidInstruction
  | NoDelegate
  | InsufficientDelegatedAmount
  | NotEnoughSigners
  | InvalidMultisigConfig
  | InvalidMultisigSigner
  | CloseAuthorityMismatch
  | NativeAccountHasBalance
  | SelfTransfer
  | MissingRequiredSignature
  | InvalidAccountData
  | NotEnoughAccountKeys
  | InvalidArgument
deriving DecidableEq

/-! ## Record types (`state/mint.rs`, `state/account.rs`, `state/multisig.rs`).
Optional fields (`COption<T>`) are modelled as `Option`, which is exactly the
content of the Rust wrapper struct. -/

/-- `AccountState` from `state/account.rs`. -/
inductive AccountState
  | Uninitialized
  | Initialized
  | Frozen
deriving DecidableEq

/-- `AccountState::from_u8`. -/
def AccountState.from_u8 (value : Nat) : Except Err AccountState :=
  if value = 0 then .ok .Uninitialized
  else if value = 1 then .ok .Initialized
  else if value = 2 then .ok .Frozen
  else .error .InvalidInstruction

/-- `AccountState::to_u8`. -/
def AccountState.to_u8 : AccountState → Nat
  | .Uninitialized => 0
  | .Initialized => 1
  | .Frozen => 2

/-- The `Mint` record (82 bytes packed). -/
structure Mint where
  mint_authority : Option Pubkey
  supply : Nat
  decimals : Nat
  is_initialized : Bool
  freeze_authority : Option Pubkey
deriving DecidableEq

/-- The token `Account` record (165 bytes packed). -/
structure Account where
  mint : Pubkey
  owner : Pubkey
  amount : Nat
  delegate : Option Pubkey
  state : AccountState
  is_native : Option Nat
  delegated_amount : Nat
  close_authority : Option Pubkey
deriving DecidableEq

/-- `Account::is_frozen`. -/
def Account.is_frozen (a : Account) : Bool := a.state = AccountState.Frozen

/-- `Account::is_initialized`. -/
def Account.is_initialized (a : Account) : Bool := a.state ≠ AccountState.Uninitialized

/-- The `Multisig` record (355 bytes packed); `signers` always holds the
full 11 slots (`MAX_SIGNERS`). -/
structure Multisig where
  m : Nat
  n : Nat
  is_initialized : Bool
  signers : List Pubkey
deriving DecidableEq

/-- `MAX_SIGNERS` from `state/multisig.rs`. -/
def MAX_SIGNERS : Nat := 11

/-! ## Tagged-optional codecs (the `COption` wire layout: 4-byte LE tag then
a fixed body; `pack_coption_pubkey` / `unpack_coption_pubkey` and the `u64`
variants from `state/account.rs` and `state/mint.rs`). -/

/-- `pack_coption_pubkey`: tag `1` then the key bytes, or tag `0` and a
zeroed 32-byte body. -/
def pack_coption_pubkey : Option Pubkey → List Nat
  | some p => leBytes 4 1 ++ p.bytes
  | none => leBytes 4 0 ++ List.replicate 32 0

/-- `unpack_coption_pubkey` on a 36-byte slice. -/
def unpack_coption_pubkey (src : List Nat) : Except Err (Option Pubkey) :=
  if leVal (src.take 4) = 0 then .ok none
  else if leVal (src.take 4) = 1 then .ok (some ⟨(src.drop 4).take 32⟩)
  else .error .InvalidInstruction

/-- `pack_coption_u64`: tag then the 8-byte LE body (zeroed for `None`). -/
def pack_coption_u64 : Option Nat → List Nat
  | some v => leBytes 4 1 ++ leBytes 8 v
  | none => leBytes 4 0 ++ List.replicate 8 0

/-- `unpack_coption_u64` on a 12-byte slice. -/
def unpack_coption_u64 (src : List Nat) : Except Err (Option Nat) :=
  if leVal (src.take 4) = 0 then .ok none
  else if leVal (src.take 4) = 1 then .ok (some (leVal ((src.drop 4).take 8)))
  else .error .InvalidInstruction

theorem pack_coption_pubkey_length (o : Option Pubkey)
    (h : ∀ p, o = some p → p.bytes.length = 32) :
    (pack_coption_pubkey o).length = 36 := by
  cases o with
  | none => simp [pack_coption_pubkey, leBytes_length]
  | some p => simp [pack_coption_pubkey, leBytes_length, h p rfl]

theorem pack_coption_u64_length (o : Option Nat) : (pack_coption_u64 o).length = 12 := by
  cases o <;> simp [pack_coption_u64, leBytes_length]

theorem unpack_pack_coption_pubkey (o : Option Pubkey)
    (h : ∀ p, o = some p → p.bytes.length = 32) (rest : List Nat) :
    unpack_coption_pubkey (pack_coption_pubkey o ++ rest) = .ok o := by
  cases o with
  | none =>
    simp [pack_coption_pubkey, unpack_coption_pubkey, leBytes, leVal]
  | some p =>
    have hlen := h p rfl
    simp only [pack_coption_pubkey, unpack_coption_pubkey]
    have h4 : ((leBytes 4 1 ++ p.bytes) ++ rest).take 4 = leBytes 4 1 := by
      rw [List.append_assoc]
      have := take_len_append (leBytes 4 1) (p.bytes ++ rest)
      rwa [leBytes_length] at this
    have hdrop : ((leBytes 4 1 ++ p.bytes) ++ rest).drop 4 = p.bytes ++ rest := by
      rw [List.append_assoc]
      have := drop_len_append (leBytes 4 1) (p.bytes ++ rest)
      rwa [leBytes_length] at this
    rw [h4, hdrop]
    have htake : (p.bytes ++ rest).take 32 = p.bytes := by
      have := take_len_append p.bytes rest
      rwa [hlen] at this
    simp [leBytes, leVal, htake]

theorem unpack_pack_coption_u64 (o : Option Nat)
    (h : ∀ v, o = some v → v < 2 ^ 64) (rest : List Nat) :
    unpack_coption_u64 (pack_coption_u64 o ++ rest) = .ok o := by
  cases o with
  | none =>
    simp [pack_coption_u64, unpack_coption_u64, leBytes, leVal]
  | some v =>
    have hv := h v rfl
    simp only [pack_coption_u64, unpack_coption_u64, List.append_assoc]
    have h4 : (leBytes 4 1 ++ (leBytes 8 v ++ rest)).take 4 = leBytes 4 1 := by
      have := take_len_append (leBytes 4 1) (leBytes 8 v ++ rest)
      rwa [leBytes_length] at this
    have hdrop : (leBytes 4 1 ++ (leBytes 8 v ++ rest)).drop 4 = leBytes 8 v ++ rest := by
      have := drop_len_append (leBytes 4 1) (leBytes 8 v ++ rest)
      rwa [leBytes_length] at this
    have htake : (leBytes 8 v ++ rest).take 8 = leBytes 8 v := by
      have := take_len_append (leBytes 8 v) rest
      rwa [leBytes_length] at this
    have hval : leVal (leBytes 8 v) = v := by
      rw [leVal_leBytes]
      have h8 : (256 : Nat) ^ 8 = 2 ^ 64 := by norm_num
      rw [h8]
      exact Nat.mod_eq_of_lt hv
    rw [h4, hdrop, htake, hval]
    norm_num [leBytes, leVal]

/-! ## Record codecs (`impl Pack for Mint/Account/Multisig`) -/

/-- `Mint::LEN`. -/
def Mint.LEN : Nat := 82

/-- `Account::LEN`. -/
def Account.LEN : Nat := 165

/-- `Multisig::LEN`. -/
def Multisig.LEN : Nat := 355

/-- `Mint::pack`: the 82-byte layout 36+8+1+1+36. -/
def Mint.pack (mt : Mint) : List Nat :=
  pack_coption_pubkey mt.mint_authority ++
    (leBytes 8 mt.supply ++
      ([mt.decimals] ++
        ([if mt.is_initialized then 1 else 0] ++
          pack_coption_pubkey mt.freeze_authority)))

/-- `Mint::unpack`: fields read at the fixed offsets 0, 36, 44, 45, 46. -/
def Mint.unpack (input : List Nat) : Except Err Mint := do
  let mint_authority ← unpack_coption_pubkey (input.take 36)
  let freeze_authority ← unpack_coption_pubkey ((input.drop 46).take 36)
  .ok { mint_authority := mint_authority,
        supply := leVal ((input.drop 36).take 8),
        decimals := (input.drop 44).headD 0,
        is_initialized := (input.drop 45).headD 0 != 0,
        freeze_authority := freeze_authority }

/-- `Pack::unpack_from_slice` for `Mint` (exact-length guard). -/
def Mint.unpack_from_slice (src : List Nat) : Except Err Mint :=
  if src.length ≠ Mint.LEN then .error .InvalidAccountData else Mint.unpack src

/-- `Account::pack`: the 165-byte layout 32+32+8+36+1+12+8+36. -/
def Account.pack (a : Account) : List Nat :=
  a.mint.bytes ++
    (a.owner.bytes ++
      (leBytes 8 a.amount ++
        (pack_coption_pubkey a.delegate ++
          ([a.state.to_u8] ++
            (pack_coption_u64 a.is_native ++
              (leBytes 8 a.delegated_amount ++
                pack_coption_pubkey a.close_authority))))))

/-- `Account::unpack`: fields read at offsets 0, 32, 64, 72, 108, 109, 121, 129. -/
def Account.unpack (input : List Nat) : Except Err Account := do
  let delegate ← unpack_coption_pubkey ((input.drop 72).take 36)
  let state ← AccountState.from_u8 ((input.drop 108).headD 0)
  let is_native ← unpack_coption_u64 ((input.drop 109).take 12)
  let close_authority ← unpack_coption_pubkey ((input.drop 129).take 36)
  .ok { mint := ⟨input.take 32⟩,
        owner := ⟨(input.drop 32).take 32⟩,
        amount := leVal ((input.drop 64).take 8),
        delegate := delegate,
        state := state,
        is_native := is_native,
        delegated_amount := leVal ((input.drop 121).take 8),
        close_authority := close_authority }

/-- `Pack::unpack_from_slice` for `Account`. -/
def Account.unpack_from_slice (src : List Nat) : Except Err Account :=
  if src.length ≠ Account.LEN then .error .InvalidAccountData else Account.unpack src

/-- The signer-slot serialisation loop of `Multisig::pack`. -/
def packSigners : List Pubkey → List Nat
  | [] => []
  | p :: ps => p.bytes ++ packSigners ps

/-- The signer-slot parsing loop of `Multisig::unpack`: `k` chunks of 32. -/
def unpackSigners : Nat → List Nat → List Pubkey
  | 0, _ => []
  | k + 1, bs => ⟨bs.take 32⟩ :: unpackSigners k (bs.drop 32)

/-- `Multisig::pack`: header `m, n, is_initialized` then the 11 signer slots. -/
def Multisig.pack (ms : Multisig) : List Nat :=
  ms.m :: ms.n :: (if ms.is_initialized then 1 else 0) :: packSigners ms.signers

/-- `Multisig::unpack`, including its `InvalidMultisigConfig` validation
(`n ≤ MAX_SIGNERS`, `m ≤ n`, and `m ≥ 1` when initialized). -/
def Multisig.unpack (input : List Nat) : Except Err Multisig :=
  if (input.drop 1).headD 0 > MAX_SIGNERS then .error .InvalidMultisigConfig
  else if input.headD 0 > (input.drop 1).headD 0 then .error .InvalidMultisigConfig
  else if ((input.drop 2).headD 0 != 0) && (input.headD 0 == 0) then .error .InvalidMultisigConfig
  else .ok { m := input.headD 0,
             n := (input.drop 1).headD 0,
             is_initialized := (input.drop 2).headD 0 != 0,
             signers := unpackSigners MAX_SIGNERS (input.drop 3) }

/-- `Pack::unpack_from_slice` for `Multisig`. -/
def Multisig.unpack_from_slice (src : List Nat) : Except Err Multisig :=
  if src.length ≠ Multisig.LEN then .error .InvalidAccountData else Multisig.unpack src

/-! ## Record well-formedness: the value range each packed field can carry. -/

/-- Option-of-key well-formedness. -/
def OptKeyWf (o : Option Pubkey) : Prop := ∀ p, o = some p → p.wf

/-- Well-formed `Mint` values: those representable in the 82-byte layout. -/
def Mint.wf (mt : Mint) : Prop :=
  OptKeyWf mt.mint_authority ∧ mt.supply < 2 ^ 64 ∧ mt.decimals < 256 ∧
    OptKeyWf mt.freeze_authority

/-- Well-formed `Account` values. -/
def Account.wf (a : Account) : Prop :=
  a.mint.wf ∧ a.owner.wf ∧ a.amount < 2 ^ 64 ∧ OptKeyWf a.delegate ∧
    (∀ v, a.is_native = some v → v < 2 ^ 64) ∧ a.delegated_amount < 2 ^ 64 ∧
    OptKeyWf a.close_authority

/-- Well-formed `Multisig` values (the configuration the codec validates,
plus full 11-slot signer storage). -/
def Multisig.wf (ms : Multisig) : Prop :=
  ms.n ≤ MAX_SIGNERS ∧ ms.m ≤ ms.n ∧ (ms.is_initialized = true → 1 ≤ ms.m) ∧
    ms.signers.length = MAX_SIGNERS ∧ ∀ p ∈ ms.signers, p.wf

/-! ## Record codec round trips -/

theorem take_append_len {α : Type} (xs ys : List α) (n : Nat) (h : xs.length = n) :
    (xs ++ ys).take n = xs := by subst h; exact take_len_append xs ys

theorem drop_append_len {α : Type} (xs ys : List α) (n : Nat) (h : xs.length = n) :
    (xs ++ ys).drop n = ys := by subst h; exact drop_len_append xs ys

theorem AccountState.from_u8_to_u8 (s : AccountState) :
    AccountState.from_u8 s.to_u8 = .ok s := by cases s <;> rfl

theorem OptKeyWf.len {o : Option Pubkey} (h : OptKeyWf o) :
    ∀ p, o = some p → p.bytes.length = 32 := fun p hp => (h p hp).1

theorem leVal_leBytes_u64 (v : Nat) (hv : v < 2 ^ 64) : leVal (leBytes 8 v) = v := by
  rw [leVal_leBytes]
  have h8 : (256 : Nat) ^ 8 = 2 ^ 64 := by norm_num
  rw [h8]
  exact Nat.mod_eq_of_lt hv

/-- Deserialisation inverts serialisation for `Mint`, assembled from the
per-chunk facts at each fixed offset. -/
theorem Mint.unpack_mint_of_chunks (input : List Nat) (mt : Mint)
    (h36 : unpack_coption_pubkey (input.take 36) = .ok mt.mint_authority)
    (hsup : leVal ((input.drop 36).take 8) = mt.supply)
    (hdec : (input.drop 44).headD 0 = mt.decimals)
    (hinit : (((input.drop 45).headD 0) != 0) = mt.is_initialized)
    (h46 : unpack_coption_pubkey ((input.drop 46).take 36) = .ok mt.freeze_authority) :
    Mint.unpack input = .ok mt := by
  cases mt
  simp_all [Mint.unpack, bind, Except.bind]

theorem Mint.unpack_pack_mint (mt : Mint) (h : mt.wf) : Mint.unpack (Mint.pack mt) = .ok mt := by
  obtain ⟨hma, hsup, hdec, hfa⟩ := h
  have lA : (pack_coption_pubkey mt.mint_authority).length = 36 :=
    pack_coption_pubkey_length _ hma.len
  have lS : (leBytes 8 mt.supply).length = 8 := leBytes_length 8 _
  unfold Mint.pack
  set A := pack_coption_pubkey mt.mint_authority with hA
  set S := leBytes 8 mt.supply with hS
  set D : List Nat := [mt.decimals] with hD
  set I : List Nat := [if mt.is_initialized then 1 else 0] with hI
  set F := pack_coption_pubkey mt.freeze_authority with hF
  have e36 : (A ++ (S ++ (D ++ (I ++ F)))).drop 36 = S ++ (D ++ (I ++ F)) :=
    drop_append_len _ _ _ lA
  have e44 : (A ++ (S ++ (D ++ (I ++ F)))).drop 44 = D ++ (I ++ F) := by
    have : (44 : Nat) = 36 + 8 := by norm_num
    rw [this, ← List.drop_drop, e36, drop_append_len _ _ _ lS]
  have e45 : (A ++ (S ++ (D ++ (I ++ F)))).drop 45 = I ++ F := by
    have : (45 : Nat) = 44 + 1 := by norm_num
    rw [this, ← List.drop_drop, e44]
    rfl
  have e46 : (A ++ (S ++ (D ++ (I ++ F)))).drop 46 = F := by
    have : (46 : Nat) = 45 + 1 := by norm_num
    rw [this, ← List.drop_drop, e45]
    rfl
  apply Mint.unpack_mint_of_chunks
  · rw [take_append_len _ _ _ lA]
    have := unpack_pack_coption_pubkey mt.mint_authority hma.len []
    rwa [List.append_nil] at this
  · rw [e36, take_append_len _ _ _ lS]
    exact leVal_leBytes_u64 _ hsup
  · rw [e44]; rfl
  · rw [e45]
    cases hmi : mt.is_initialized <;> simp [hI, hmi]
  · rw [e46, take_of_len_le _ _ (by rw [hF, pack_coption_pubkey_length _ hfa.len])]
    have := unpack_pack_coption_pubkey mt.freeze_authority hfa.len []
    rwa [List.append_nil] at this

/-- Deserialisation inverts serialisation for `Account`, from the per-chunk
facts at each fixed offset. -/
theorem Account.unpack_of_chunks (input : List Nat) (a : Account)
    (hm : input.take 32 = a.mint.bytes)
    (ho : (input.drop 32).take 32 = a.owner.bytes)
    (ham : leVal ((input.drop 64).take 8) = a.amount)
    (hdg : unpack_coption_pubkey ((input.drop 72).take 36) = .ok a.delegate)
    (hst : AccountState.from_u8 ((input.drop 108).headD 0) = .ok a.state)
    (hnv : unpack_coption_u64 ((input.drop 109).take 12) = .ok a.is_native)
    (hda : leVal ((input.drop 121).take 8) = a.delegated_amount)
    (hca : unpack_coption_pubkey ((input.drop 129).take 36) = .ok a.close_authority) :
    Account.unpack input = .ok a := by
  cases a
  simp_all [Account.unpack, bind, Except.bind]

theorem Account.unpack_pack_account (a : Account) (h : a.wf) :
    Account.unpack (Account.pack a) = .ok a := by
  obtain ⟨hm, ho, ham, hdg, hnv, hda, hca⟩ := h
  have lM : a.mint.bytes.length = 32 := hm.1
  have lO : a.owner.bytes.length = 32 := ho.1
  have lAm : (leBytes 8 a.amount).length = 8 := leBytes_length 8 _
  have lDg : (pack_coption_pubkey a.delegate).length = 36 :=
    pack_coption_pubkey_length _ hdg.len
  have lSt : ([a.state.to_u8] : List Nat).length = 1 := rfl
  have lNv : (pack_coption_u64 a.is_native).length = 12 := pack_coption_u64_length _
  have lDa : (leBytes 8 a.delegated_amount).length = 8 := leBytes_length 8 _
  unfold Account.pack
  set M := a.mint.bytes
  set O := a.owner.bytes
  set Am := leBytes 8 a.amount
  set Dg := pack_coption_pubkey a.delegate
  set St : List Nat := [a.state.to_u8]
  set Nv := pack_coption_u64 a.is_native
  set Da := leBytes 8 a.delegated_amount
  set Ca := pack_coption_pubkey a.close_authority
  set input := M ++ (O ++ (Am ++ (Dg ++ (St ++ (Nv ++ (Da ++ Ca)))))) with hin
  have e32 : input.drop 32 = O ++ (Am ++ (Dg ++ (St ++ (Nv ++ (Da ++ Ca))))) :=
    drop_append_len _ _ _ lM
  have e64 : input.drop 64 = Am ++ (Dg ++ (St ++ (Nv ++ (Da ++ Ca)))) := by
    have : (64 : Nat) = 32 + 32 := by norm_num
    rw [this, ← List.drop_drop, e32, drop_append_len _ _ _ lO]
  have e72 : input.drop 72 = Dg ++ (St ++ (Nv ++ (Da ++ Ca))) := by
    have : (72 : Nat) = 64 + 8 := by norm_num
    rw [this, ← List.drop_drop, e64, drop_append_len _ _ _ lAm]
  have e108 : input.drop 108 = St ++ (Nv ++ (Da ++ Ca)) := by
    have : (108 : Nat) = 72 + 36 := by norm_num
    rw [this, ← List.drop_drop, e72, drop_append_len _ _ _ lDg]
  have e109 : input.drop 109 = Nv ++ (Da ++ Ca) := by
    have : (109 : Nat) = 108 + 1 := by norm_num
    rw [this, ← List.drop_drop, e108]
    rfl
  have e121 : input.drop 121 = Da ++ Ca := by
    have : (121 : Nat) = 109 + 12 := by norm_num
    rw [this, ← List.drop_drop, e109, drop_append_len _ _ _ lNv]
  have e129 : input.drop 129 = Ca := by
    have : (129 : Nat) = 121 + 8 := by norm_num
    rw [this, ← List.drop_drop, e121, drop_append_len _ _ _ lDa]
  apply Account.unpack_of_chunks
  · exact take_append_len _ _ _ lM
  · rw [e32]; exact take_append_len _ _ _ lO
  · rw [e64, take_append_len _ _ _ lAm]; exact leVal_leBytes_u64 _ ham
  · rw [e72, take_append_len _ _ _ lDg]
    have := unpack_pack_coption_pubkey a.delegate hdg.len []
    rwa [List.append_nil] at this
  · rw [e108]; exact AccountState.from_u8_to_u8 a.state
  · rw [e109, take_append_len _ _ _ lNv]
    have := unpack_pack_coption_u64 a.is_native hnv []
    rwa [List.append_nil] at this
  · rw [e121, take_append_len _ _ _ lDa]; exact leVal_leBytes_u64 _ hda
  · rw [e129, take_of_len_le _ _ (by rw [pack_coption_pubkey_length _ hca.len])]
    have := unpack_pack_coption_pubkey a.close_authority hca.len []
    rwa [List.append_nil] at this

theorem packSigners_length (ks : List Pubkey) (h : ∀ p ∈ ks, p.bytes.length = 32) :
    (packSigners ks).length = 32 * ks.length := by
  induction ks with
  | nil => rfl
  | cons p ps ih =>
    simp only [packSigners, List.length_append, List.length_cons,
      h p (by simp), ih (fun q hq => h q (by simp [hq]))]
    ring

theorem unpackSigners_packSigners (ks : List Pubkey)
    (h : ∀ p ∈ ks, p.bytes.length = 32) :
    unpackSigners ks.length (packSigners ks) = ks := by
  induction ks with
  | nil => rfl
  | cons p ps ih =>
    simp only [packSigners, unpackSigners, List.length_cons]
    have hp : p.bytes.length = 32 := h p (by simp)
    rw [take_append_len _ _ _ hp, drop_append_len _ _ _ hp,
      ih (fun q hq => h q (by simp [hq]))]

theorem headD_cons_eq {α : Type} (a : α) (l : List α) (d : α) : (a :: l).headD d = a := rfl

theorem drop_one_cons {α : Type} (a : α) (l : List α) : (a :: l).drop 1 = l := rfl

theorem drop_two_cons {α : Type} (a b : α) (l : List α) : (a :: b :: l).drop 2 = l := rfl

theorem drop_three_cons {α : Type} (a b c : α) (l : List α) :
    (a :: b :: c :: l).drop 3 = l := rfl

theorem Multisig.unpack_pack_multisig (ms : Multisig) (h : ms.wf) :
    Multisig.unpack (Multisig.pack ms) = .ok ms := by
  obtain ⟨hn, hm, hinit, hlen, hkeys⟩ := h
  have hs : unpackSigners MAX_SIGNERS (packSigners ms.signers) = ms.signers := by
    have := unpackSigners_packSigners ms.signers (fun p hp => (hkeys p hp).1)
    rwa [hlen] at this
  obtain ⟨m, n, init, signers⟩ := ms
  simp only at hn hm hinit hs
  unfold Multisig.pack Multisig.unpack
  simp only [headD_cons_eq, drop_one_cons, drop_two_cons, drop_three_cons, hs]
  cases init with
  | false =>
    rw [if_neg (by simp [MAX_SIGNERS] at hn ⊢; omega), if_neg (by omega),
      if_neg (by simp)]
    rfl
  | true =>
    have h1 : 1 ≤ m := hinit rfl
    rw [if_neg (by simp [MAX_SIGNERS] at hn ⊢; omega), if_neg (by omega),
      if_neg (by simp; omega)]
    rfl

/-! ## Instruction codec (`instruction.rs`) -/

/-- `AuthorityType` from `instruction.rs`. -/
inductive AuthorityType
  | MintTokens
  | FreezeAccount
  | AccountOwner
  | CloseAccount
deriving DecidableEq

/-- `AuthorityType::from_u8`. -/
def AuthorityType.from_u8 (value : Nat) : Except Err AuthorityType :=
  if value = 0 then .ok .MintTokens
  else if value = 1 then .ok .FreezeAccount
  else if value = 2 then .ok .AccountOwner
  else if value = 3 then .ok .CloseAccount
  else .error .InvalidInstruction

/-- The `as u8` cast used by `TokenInstruction::pack` for `SetAuthority`. -/
def AuthorityType.to_u8 : AuthorityType → Nat
  | .MintTokens => 0
  | .FreezeAccount => 1
  | .AccountOwner => 2
  | .CloseAccount => 3

/-- `TokenInstruction` from `instruction.rs`: the twelve wire instructions,
discriminants 0..11. -/
inductive TokenInstruction
  | InitializeMint (decimals : Nat) (mint_authority : Pubkey)
      (freeze_authority : Option Pubkey)
  | InitializeAccount
  | InitializeMultisig (m : Nat)
  | Transfer (amount : Nat)
  | Approve (amount : Nat)
  | Revoke
  | SetAuthority (authority_type : AuthorityType) (new_authority : Option Pubkey)
  | MintTo (amount : Nat)
  | Burn (amount : Nat)
  | CloseAccount
  | FreezeAccount
  | ThawAccount
deriving DecidableEq

/-- `TokenInstruction::pack`: discriminant byte then the payload; optional
keys carried as a `0`/`1` prefix byte and, when present, 32 key bytes. -/
def TokenInstruction.pack : TokenInstruction → List Nat
  | .InitializeMint decimals mint_authority freeze_authority =>
      0 :: decimals :: (mint_authority.bytes ++
        (match freeze_authority with
         | some authority => 1 :: authority.bytes
         | none => [0]))
  | .InitializeAccount => [1]
  | .InitializeMultisig m => [2, m]
  | .Transfer amount => 3 :: leBytes 8 amount
  | .Approve amount => 4 :: leBytes 8 amount
  | .Revoke => [5]
  | .SetAuthority authority_type new_authority =>
      6 :: authority_type.to_u8 ::
        (match new_authority with
         | some authority => 1 :: authority.bytes
         | none => [0])
  | .MintTo amount => 7 :: leBytes 8 amount
  | .Burn amount => 8 :: leBytes 8 amount
  | .CloseAccount => [9]
  | .FreezeAccount => [10]
  | .ThawAccount => [11]

/-- `TokenInstruction::unpack`: `split_first` for the discriminant, then
the per-instruction payload parser, with the source's length guards; extra
trailing bytes are ignored, exactly as the slice indexing in the source
ignores them. -/
def TokenInstruction.unpack (input : List Nat) : Except Err TokenInstruction :=
  match input with
  | [] => .error .InvalidInstruction
  | d :: rest =>
    if d = 0 then
      if rest.length < 34 then .error .InvalidInstruction
      else if (rest.drop 33).headD 0 = 1 then
        if rest.length < 66 then .error .InvalidInstruction
        else .ok (.InitializeMint (rest.headD 0) ⟨(rest.drop 1).take 32⟩
          (some ⟨(rest.drop 34).take 32⟩))
      else if (rest.drop 33).headD 0 = 0 then
        .ok (.InitializeMint (rest.headD 0) ⟨(rest.drop 1).take 32⟩ none)
      else .error .InvalidInstruction
    else if d = 1 then .ok .InitializeAccount
    else if d = 2 then
      if rest.isEmpty then .error .InvalidInstruction
      else .ok (.InitializeMultisig (rest.headD 0))
    else if d = 3 then
      if rest.length < 8 then .error .InvalidInstruction
      else .ok (.Transfer (leVal (rest.take 8)))
    else if d = 4 then
      if rest.length < 8 then .error .InvalidInstruction
      else .ok (.Approve (leVal (rest.take 8)))
    else if d = 5 then .ok .Revoke
    else if d = 6 then
      if rest.length < 2 then .error .InvalidInstruction
      else
        match AuthorityType.from_u8 (rest.headD 0) with
        | .error e => .error e
        | .ok authority_type =>
          if (rest.drop 1).headD 0 = 1 then
            if rest.length < 34 then .error .InvalidInstruction
            else .ok (.SetAuthority authority_type (some ⟨(rest.drop 2).take 32⟩))
          else if (rest.drop 1).headD 0 = 0 then
            .ok (.SetAuthority authority_type none)
          else .error .InvalidInstruction
    else if d = 7 then
      if rest.length < 8 then .error .InvalidInstruction
      else .ok (.MintTo (leVal (rest.take 8)))
    else if d = 8 then
      if rest.length < 8 then .error .InvalidInstruction
      else .ok (.Burn (leVal (rest.take 8)))
    else if d = 9 then .ok .CloseAccount
    else if d = 10 then .ok .FreezeAccount
    else if d = 11 then .ok .ThawAccount
    else .error .InvalidInstruction

/-- Well-formed instruction values: embedded keys are 32 bytes and the
`u64`/`u8` payload fields are in range. -/
def TokenInstruction.wf : TokenInstruction → Prop
  | .InitializeMint decimals mint_authority freeze_authority =>
      decimals < 256 ∧ mint_authority.wf ∧ OptKeyWf freeze_authority
  | .InitializeMultisig m => m < 256
  | .Transfer amount => amount < 2 ^ 64
  | .Approve amount => amount < 2 ^ 64
  | .SetAuthority _ new_authority => OptKeyWf new_authority
  | .MintTo amount => amount < 2 ^ 64
  | .Burn amount => amount < 2 ^ 64
  | _ => True

theorem AuthorityType.from_to_u8 (t : AuthorityType) :
    AuthorityType.from_u8 t.to_u8 = .ok t := by cases t <;> rfl

theorem drop_succ_cons_eq {α : Type} (a : α) (l : List α) (n : Nat) :
    (a :: l).drop (n + 1) = l.drop n := rfl

theorem TokenInstruction.unpack_pack (i : TokenInstruction) (h : i.wf) :
    TokenInstruction.unpack (TokenInstruction.pack i) = .ok i := by
  cases i with
  | InitializeMint decimals mint_authority freeze_authority =>
    obtain ⟨hdec, hma, hfa⟩ := h
    have hl : mint_authority.bytes.length = 32 := hma.1
    cases freeze_authority with
    | none =>
      simp only [TokenInstruction.pack, TokenInstruction.unpack]
      have hrl : (decimals :: (mint_authority.bytes ++ [0])).length = 34 := by
        simp [hl]
      have h33 : ((decimals :: (mint_authority.bytes ++ [0])).drop 33).headD 0 = 0 := by
        rw [show (33 : Nat) = 32 + 1 from rfl, drop_succ_cons_eq,
          drop_append_len _ _ _ hl]
        rfl
      have h1t : ((decimals :: (mint_authority.bytes ++ [0])).drop 1).take 32 =
          mint_authority.bytes := by
        rw [show (1 : Nat) = 0 + 1 from rfl, drop_succ_cons_eq]
        exact take_append_len _ _ _ hl
      rw [hrl, h33, h1t]
      norm_num
    | some authority =>
      have hal : authority.bytes.length = 32 := (hfa authority rfl).1
      simp only [TokenInstruction.pack, TokenInstruction.unpack]
      have hrl : (decimals :: (mint_authority.bytes ++ (1 :: authority.bytes))).length
          = 66 := by simp [hl, hal]
      have hd33 : (decimals :: (mint_authority.bytes ++ (1 :: authority.bytes))).drop 33
          = 1 :: authority.bytes := by
        rw [show (33 : Nat) = 32 + 1 from rfl, drop_succ_cons_eq,
          drop_append_len _ _ _ hl]
      have h33 : ((decimals :: (mint_authority.bytes ++ (1 :: authority.bytes))).drop
          33).headD 0 = 1 := by rw [hd33]; rfl
      have h34 : ((decimals :: (mint_authority.bytes ++ (1 :: authority.bytes))).drop
          34).take 32 = authority.bytes := by
        rw [show (34 : Nat) = 33 + 1 from rfl, ← List.drop_drop, hd33,
          show ((1 : Nat) :: authority.bytes).drop 1 = authority.bytes from rfl]
        exact take_of_len_le _ _ (le_of_eq hal)
      have h1t : ((decimals :: (mint_authority.bytes ++ (1 :: authority.bytes))).drop
          1).take 32 = mint_authority.bytes := by
        rw [show (1 : Nat) = 0 + 1 from rfl, drop_succ_cons_eq]
        exact take_append_len _ _ _ hl
      rw [hrl, h33, h34, h1t]
      norm_num
  | InitializeAccount => rfl
  | InitializeMultisig m => rfl
  | Transfer amount =>
    simp only [TokenInstruction.pack, TokenInstruction.unpack]
    have hlen : (leBytes 8 amount).length = 8 := leBytes_length 8 _
    rw [hlen, take_of_len_le _ _ (le_of_eq hlen), leVal_leBytes_u64 _ h]
    norm_num
  | Approve amount =>
    simp only [TokenInstruction.pack, TokenInstruction.unpack]
    have hlen : (leBytes 8 amount).length = 8 := leBytes_length 8 _
    rw [hlen, take_of_len_le _ _ (le_of_eq hlen), leVal_leBytes_u64 _ h]
    norm_num
  | Revoke => rfl
  | SetAuthority authority_type new_authority =>
    cases new_authority with
    | none =>
      simp only [TokenInstruction.pack, TokenInstruction.unpack]
      rw [show (authority_type.to_u8 ::
        ([0] : List Nat)).headD 0 = authority_type.to_u8 from rfl,
        AuthorityType.from_to_u8]
      norm_num
    | some authority =>
      have hal : authority.bytes.length = 32 := (h authority rfl).1
      simp only [TokenInstruction.pack, TokenInstruction.unpack]
      have hrl : (authority_type.to_u8 :: 1 :: authority.bytes).length = 34 := by
        simp [hal]
      have h2t : ((authority_type.to_u8 :: 1 :: authority.bytes).drop 2).take 32 =
          authority.bytes := take_of_len_le _ _ (le_of_eq hal)
      rw [show (authority_type.to_u8 :: 1 ::
        authority.bytes).headD 0 = authority_type.to_u8 from rfl,
        AuthorityType.from_to_u8, hrl, h2t]
      norm_num
  | MintTo amount =>
    simp only [TokenInstruction.pack, TokenInstruction.unpack]
    have hlen : (leBytes 8 amount).length = 8 := leBytes_length 8 _
    rw [hlen, take_of_len_le _ _ (le_of_eq hlen), leVal_leBytes_u64 _ h]
    norm_num
  | Burn amount =>
    simp only [TokenInstruction.pack, TokenInstruction.unpack]
    have hlen : (leBytes 8 amount).length = 8 := leBytes_length 8 _
    rw [hlen, take_of_len_le _ _ (le_of_eq hlen), leVal_leBytes_u64 _ h]
    norm_num
  | CloseAccount => rfl
  | FreezeAccount => rfl
  | ThawAccount => rfl

theorem headD_cons_drop {α : Type} (l : List α) (d : α) (h : 0 < l.length) :
    l.headD d :: l.drop 1 = l := by
  cases l with
  | nil => simp at h
  | cons a t => rfl

theorem length_take_of_ge {α : Type} (l : List α) (n : Nat) (h : n ≤ l.length) :
    (l.take n).length = n := by
  simp [List.length_take]
  omega

theorem AuthorityType.to_of_from_u8 (b : Nat) (t : AuthorityType)
    (h : AuthorityType.from_u8 b = .ok t) : t.to_u8 = b := by
  unfold AuthorityType.from_u8 at h
  by_cases h0 : b = 0
  · rw [if_pos h0] at h; injection h with h; subst h; rw [h0]; rfl
  · rw [if_neg h0] at h
    by_cases h1 : b = 1
    · rw [if_pos h1] at h; injection h with h; subst h; rw [h1]; rfl
    · rw [if_neg h1] at h
      by_cases h2 : b = 2
      · rw [if_pos h2] at h; injection h with h; subst h; rw [h2]; rfl
      · rw [if_neg h2] at h
        by_cases h3 : b = 3
        · rw [if_pos h3] at h; injection h with h; subst h; rw [h3]; rfl
        · rw [if_neg h3] at h; exact absurd h (by simp)

theorem amount_repack (rest : List Nat) (h8 : rest.length = 8) (hv : ValidBytes rest) :
    leBytes 8 (leVal (rest.take 8)) = rest := by
  rw [take_of_len_le _ _ (le_of_eq h8)]
  exact leBytes_leVal rest 8 h8 hv

/-- On a byte string of exactly the canonical payload length, `unpack`
inverted by `pack` reproduces the input.  (With trailing bytes the codec is
not symmetric: `unpack` ignores them, see the counterexample below.) -/
theorem TokenInstruction.pack_unpack_exact (x : List Nat) (hv : ValidBytes x)
    (i : TokenInstruction) (hok : TokenInstruction.unpack x = .ok i)
    (hlen : x.length = (TokenInstruction.pack i).length) :
    TokenInstruction.pack i = x := by
  cases x with
  | nil => simp [TokenInstruction.unpack] at hok
  | cons d rest =>
    have hvrest : ValidBytes rest := fun b hb => hv b (by simp [hb])
    simp only [TokenInstruction.unpack] at hok
    by_cases hd0 : d = 0
    · subst hd0
      rw [if_pos rfl] at hok
      by_cases h34 : rest.length < 34
      · rw [if_pos h34] at hok; exact absurd hok (by simp)
      · rw [if_neg h34] at hok
        by_cases htag : (rest.drop 33).headD 0 = 1
        · rw [if_pos htag] at hok
          by_cases h66 : rest.length < 66
          · rw [if_pos h66] at hok; exact absurd hok (by simp)
          · rw [if_neg h66] at hok
            injection hok with hok
            subst hok
            simp only [TokenInstruction.pack, List.length_cons, List.length_append]
              at hlen ⊢
            have hr : rest.length = 66 := by
              have l1 : ((rest.drop 1).take 32).length = 32 :=
                length_take_of_ge _ _ (by simp [List.length_drop]; omega)
              have l2 : ((rest.drop 34).take 32).length = 32 :=
                length_take_of_ge _ _ (by simp [List.length_drop]; omega)
              simp [l1, l2] at hlen
              omega
            have e4 : (rest.drop 34).take 32 = rest.drop 34 :=
              take_of_len_le _ _ (by simp [List.length_drop]; omega)
            have e3 : (1 : Nat) :: rest.drop 34 = rest.drop 33 := by
              have h0 : 0 < (rest.drop 33).length := by
                simp [List.length_drop]; omega
              have hh := headD_cons_drop (rest.drop 33) 0 h0
              rw [htag] at hh
              have hdd : (rest.drop 33).drop 1 = rest.drop 34 := by
                rw [List.drop_drop]
              rwa [hdd] at hh
            have e2 : (rest.drop 1).take 32 ++ rest.drop 33 = rest.drop 1 := by
              have hdd : (rest.drop 1).drop 32 = rest.drop 33 := by
                rw [List.drop_drop]
              rw [← hdd]
              exact List.take_append_drop 32 (rest.drop 1)
            have e1 : rest.headD 0 :: rest.drop 1 = rest :=
              headD_cons_drop rest 0 (by omega)
            rw [e4, e3, e2, e1]
        · rw [if_neg htag] at hok
          by_cases htag0 : (rest.drop 33).headD 0 = 0
          · rw [if_pos htag0] at hok
            injection hok with hok
            subst hok
            simp only [TokenInstruction.pack, List.length_cons, List.length_append]
              at hlen ⊢
            have hr : rest.length = 34 := by
              have l1 : ((rest.drop 1).take 32).length = 32 :=
                length_take_of_ge _ _ (by simp [List.length_drop]; omega)
              simp [l1] at hlen
              omega
            have e3 : (0 : Nat) :: ([] : List Nat) = rest.drop 33 := by
              have h0 : 0 < (rest.drop 33).length := by
                simp [List.length_drop]; omega
              have hh := headD_cons_drop (rest.drop 33) 0 h0
              rw [htag0] at hh
              have hdd : (rest.drop 33).drop 1 = rest.drop 34 := by
                rw [List.drop_drop]
              have hnil : rest.drop 34 = [] := by
                apply List.eq_nil_of_length_eq_zero
                simp [List.length_drop]
                omega
              rw [hdd, hnil] at hh
              exact hh
            have e2 : (rest.drop 1).take 32 ++ rest.drop 33 = rest.drop 1 := by
              have hdd : (rest.drop 1).drop 32 = rest.drop 33 := by
                rw [List.drop_drop]
              rw [← hdd]
              exact List.take_append_drop 32 (rest.drop 1)
            have e1 : rest.headD 0 :: rest.drop 1 = rest :=
              headD_cons_drop rest 0 (by omega)
            rw [e3, e2, e1]
          · rw [if_neg htag0] at hok; exact absurd hok (by simp)
    · rw [if_neg hd0] at hok
      by_cases hd1 : d = 1
      · subst hd1
        rw [if_pos rfl] at hok
        injection hok with hok
        subst hok
        simp only [TokenInstruction.pack, List.length_cons, List.length_nil] at hlen
        have : rest = [] := List.eq_nil_of_length_eq_zero (by omega)
        rw [this]
        rfl
      · rw [if_neg hd1] at hok
        by_cases hd2 : d = 2
        · subst hd2
          rw [if_pos rfl] at hok
          by_cases hemp : rest.isEmpty
          · rw [if_pos hemp] at hok; exact absurd hok (by simp)
          · rw [if_neg hemp] at hok
            injection hok with hok
            subst hok
            simp only [TokenInstruction.pack, List.length_cons,
              List.length_nil] at hlen
            have hr : rest.length = 1 := by omega
            have e1 : rest.headD 0 :: rest.drop 1 = rest :=
              headD_cons_drop rest 0 (by omega)
            have hnil : rest.drop 1 = [] := by
              apply List.eq_nil_of_length_eq_zero
              simp [List.length_drop]
              omega
            rw [hnil] at e1
            simp only [TokenInstruction.pack]
            rw [show ([2, rest.headD 0] : List Nat) =
              2 :: rest.headD 0 :: [] from rfl, e1]
        · rw [if_neg hd2] at hok
          by_cases hd3 : d = 3
          · subst hd3
            rw [if_pos rfl] at hok
            by_cases h8 : rest.length < 8
            · rw [if_pos h8] at hok; exact absurd hok (by simp)
            · rw [if_neg h8] at hok
              injection hok with hok
              subst hok
              simp only [TokenInstruction.pack, List.length_cons,
                leBytes_length] at hlen ⊢
              have hr : rest.length = 8 := by omega
              rw [amount_repack rest hr hvrest]
          · rw [if_neg hd3] at hok
            by_cases hd4 : d = 4
            · subst hd4
              rw [if_pos rfl] at hok
              by_cases h8 : rest.length < 8
              · rw [if_pos h8] at hok; exact absurd hok (by simp)
              · rw [if_neg h8] at hok
                injection hok with hok
                subst hok
                simp only [TokenInstruction.pack, List.length_cons,
                  leBytes_length] at hlen ⊢
                have hr : rest.length = 8 := by omega
                rw [amount_repack rest hr hvrest]
            · rw [if_neg hd4] at hok
              by_cases hd5 : d = 5
              · subst hd5
                rw [if_pos rfl] at hok
                injection hok with hok
                subst hok
                simp only [TokenInstruction.pack, List.length_cons, List.length_nil] at hlen
                have : rest = [] := List.eq_nil_of_length_eq_zero (by omega)
                rw [this]
                rfl
              · rw [if_neg hd5] at hok
                by_cases hd6 : d = 6
                · subst hd6
                  rw [if_pos rfl] at hok
                  by_cases h2 : rest.length < 2
                  · rw [if_pos h2] at hok; exact absurd hok (by simp)
                  · rw [if_neg h2] at hok
                    split at hok
                    · exact absurd hok (by simp)
                    · rename_i t hauth
                      have hto : t.to_u8 = rest.headD 0 :=
                        AuthorityType.to_of_from_u8 _ _ hauth
                      by_cases htag : (rest.drop 1).headD 0 = 1
                      · rw [if_pos htag] at hok
                        by_cases h34 : rest.length < 34
                        · rw [if_pos h34] at hok; exact absurd hok (by simp)
                        · rw [if_neg h34] at hok
                          injection hok with hok
                          subst hok
                          simp only [TokenInstruction.pack, List.length_cons,
                            List.length_append] at hlen ⊢
                          have hr : rest.length = 34 := by
                            have l1 : ((rest.drop 2).take 32).length = 32 :=
                              length_take_of_ge _ _ (by simp [List.length_drop]; omega)
                            simp [l1] at hlen
                            omega
                          have e3 : (rest.drop 2).take 32 = rest.drop 2 :=
                            take_of_len_le _ _ (by simp [List.length_drop]; omega)
                          have e2 : (1 : Nat) :: rest.drop 2 = rest.drop 1 := by
                            have h0 : 0 < (rest.drop 1).length := by
                              simp [List.length_drop]; omega
                            have hh := headD_cons_drop (rest.drop 1) 0 h0
                            rw [htag] at hh
                            have hdd : (rest.drop 1).drop 1 = rest.drop 2 := by
                              rw [List.drop_drop]
                            rwa [hdd] at hh
                          have e1 : rest.headD 0 :: rest.drop 1 = rest :=
                            headD_cons_drop rest 0 (by omega)
                          rw [hto, e3, e2, e1]
                      · rw [if_neg htag] at hok
                        by_cases htag0 : (rest.drop 1).headD 0 = 0
                        · rw [if_pos htag0] at hok
                          injection hok with hok
                          subst hok
                          simp only [TokenInstruction.pack, List.length_cons]
                            at hlen ⊢
                          have hr : rest.length = 2 := by simp at hlen; omega
                          have e2 : (0 : Nat) :: ([] : List Nat) = rest.drop 1 := by
                            have h0 : 0 < (rest.drop 1).length := by
                              simp [List.length_drop]; omega
                            have hh := headD_cons_drop (rest.drop 1) 0 h0
                            rw [htag0] at hh
                            have hdd : (rest.drop 1).drop 1 = rest.drop 2 := by
                              rw [List.drop_drop]
                            have hnil : rest.drop 2 = [] := by
                              apply List.eq_nil_of_length_eq_zero
                              simp [List.length_drop]
                              omega
                            rw [hdd, hnil] at hh
                            exact hh
                          have e1 : rest.headD 0 :: rest.drop 1 = rest :=
                            headD_cons_drop rest 0 (by omega)
                          rw [hto, e2, e1]
                        · rw [if_neg htag0] at hok; exact absurd hok (by simp)
                · rw [if_neg hd6] at hok
                  by_cases hd7 : d = 7
                  · subst hd7
                    rw [if_pos rfl] at hok
                    by_cases h8 : rest.length < 8
                    · rw [if_pos h8] at hok; exact absurd hok (by simp)
                    · rw [if_neg h8] at hok
                      injection hok with hok
                      subst hok
                      simp only [TokenInstruction.pack, List.length_cons,
                        leBytes_length] at hlen ⊢
                      have hr : rest.length = 8 := by omega
                      rw [amount_repack rest hr hvrest]
                  · rw [if_neg hd7] at hok
                    by_cases hd8 : d = 8
                    · subst hd8
                      rw [if_pos rfl] at hok
                      by_cases h8 : rest.length < 8
                      · rw [if_pos h8] at hok; exact absurd hok (by simp)
                      · rw [if_neg h8] at hok
                        injection hok with hok
                        subst hok
                        simp only [TokenInstruction.pack, List.length_cons,
                          leBytes_length] at hlen ⊢
                        have hr : rest.length = 8 := by omega
                        rw [amount_repack rest hr hvrest]
                    · rw [if_neg hd8] at hok
                      by_cases hd9 : d = 9
                      · subst hd9
                        rw [if_pos rfl] at hok
                        injection hok with hok
                        subst hok
                        simp only [TokenInstruction.pack, List.length_cons, List.length_nil] at hlen
                        have : rest = [] := List.eq_nil_of_length_eq_zero (by omega)
                        rw [this]
                        rfl
                      · rw [if_neg hd9] at hok
                        by_cases hd10 : d = 10
                        · subst hd10
                          rw [if_pos rfl] at hok
                          injection hok with hok
                          subst hok
                          simp only [TokenInstruction.pack, List.length_cons, List.length_nil] at hlen
                          have : rest = [] := List.eq_nil_of_length_eq_zero (by omega)
                          rw [this]
                          rfl
                        · rw [if_neg hd10] at hok
                          by_cases hd11 : d = 11
                          · subst hd11
                            rw [if_pos rfl] at hok
                            injection hok with hok
                            subst hok
                            simp only [TokenInstruction.pack, List.length_cons, List.length_nil] at hlen
                            have : rest = [] := List.eq_nil_of_length_eq_zero (by omega)
                            rw [this]
                            rfl
                          · rw [if_neg hd11] at hok
                            exact absurd hok (by simp)

/-! ## The host record model.

A record's byte buffer is represented by its parsed content: a buffer whose
length is a record length and whose bytes parse as that record is carried as
the parsed value (`mint`/`account`/`multisig`), the rent sysvar as
`sysvarRent`, and any other buffer only by its length (`raw`), which is all
the engine ever reads of it.  `data_len` recovers `data.borrow().len()`. -/
inductive RecData
  | mint (mt : Mint)
  | account (a : Account)
  | multisig (ms : Multisig)
  | sysvarRent
  | raw (len : Nat)
deriving DecidableEq

/-- `AccountInfo::data_len()` for the typed buffer. -/
def RecData.data_len : RecData → Nat
  | .mint _ => Mint.LEN
  | .account _ => Account.LEN
  | .multisig _ => Multisig.LEN
  | .sysvarRent => 17
  | .raw len => len

/-- One `AccountInfo`: key, owning program, host signer/writable marks,
lamport balance and the data buffer. -/
structure RecordRef where
  key : Pubkey
  owner : Pubkey
  is_signer : Bool
  is_writable : Bool
  lamports : Nat
  data : RecData
deriving DecidableEq

/-- The rent oracle (§6 of the spec): `(lamports, data_len) → rent exempt?`.
`Rent::is_exempt` itself is host code outside this repository. -/
def RentOracle : Type := Nat → Nat → Bool

/-! ## Assertions and checked arithmetic (`utils/assertions.rs`) -/

/-- `assert_owned_by`. -/
def assert_owned_by (account : RecordRef) (owner : Pubkey) : Except Err Unit :=
  if account.owner ≠ owner then .error .InvalidAccountOwner else .ok ()

/-- `assert_signer`. -/
def assert_signer (account : RecordRef) : Except Err Unit :=
  if !account.is_signer then .error .MissingRequiredSignature else .ok ()

/-- `assert_writable`. -/
def assert_writable (account : RecordRef) : Except Err Unit :=
  if !account.is_writable then .error .InvalidAccountData else .ok ()

/-- `assert_data_length`. -/
def assert_data_length (account : RecordRef) (expected : Nat) : Except Err Unit :=
  if account.data.data_len ≠ expected then .error .InvalidAccountDataLength
  else .ok ()

/-- `assert_rent_exempt`, with the host's `Rent` supplied as an oracle. -/
def assert_rent_exempt (rent : RentOracle) (account : RecordRef) : Except Err Unit :=
  if !rent account.lamports account.data.data_len then .error .NotRentExempt
  else .ok ()

/-- `u64::MAX`. -/
def U64_MAX : Nat := 2 ^ 64 - 1

/-- `checked_add` over `u64`: the exact sum, or `Overflow` past `u64::MAX`. -/
def checked_add (a b : Nat) : Except Err Nat :=
  if a + b ≤ U64_MAX then .ok (a + b) else .error .Overflow

/-- `checked_sub` over `u64`: the exact difference, or `InsufficientFunds`
on underflow. -/
def checked_sub (a b : Nat) : Except Err Nat :=
  if b ≤ a then .ok (a - b) else .error .InsufficientFunds

/-- `Rent::from_account_info`: fails unless the record is the rent sysvar. -/
def rent_from_account_info (rent_info : RecordRef) : Except Err Unit :=
  match rent_info.data with
  | .sysvarRent => .ok ()
  | _ => .error .InvalidArgument

/-! ## Typed `unpack_from_slice` / `pack_into_slice` on record buffers.
`unpack_from_slice` checks the exact buffer length and then parses; in the
typed model a parse of a right-length buffer yields the carried value, and a
`raw` buffer of the right length is one whose bytes do not parse.
`pack_into_slice` checks the length and overwrites the buffer. -/

/-- `Account::unpack_from_slice` on a buffer. -/
def unpack_account_info (d : RecData) : Except Err Account :=
  if d.data_len ≠ Account.LEN then .error .InvalidAccountData
  else match d with
    | .account a => .ok a
    | _ => .error .InvalidInstruction

/-- `Mint::unpack_from_slice` on a buffer. -/
def unpack_mint_info (d : RecData) : Except Err Mint :=
  if d.data_len ≠ Mint.LEN then .error .InvalidAccountData
  else match d with
    | .mint mt => .ok mt
    | _ => .error .InvalidInstruction

/-- `Multisig::unpack_from_slice` on a buffer, re-running the codec's
configuration validation. -/
def unpack_multisig_info (d : RecData) : Except Err Multisig :=
  if d.data_len ≠ Multisig.LEN then .error .InvalidAccountData
  else match d with
    | .multisig ms =>
      if ms.n > MAX_SIGNERS then .error .InvalidMultisigConfig
      else if ms.m > ms.n then .error .InvalidMultisigConfig
      else if ms.is_initialized && (ms.m == 0) then .error .InvalidMultisigConfig
      else .ok ms
    | _ => .error .InvalidInstruction

/-- `Account::pack_into_slice` on a buffer. -/
def pack_account_info (d : RecData) (a : Account) : Except Err RecData :=
  if d.data_len ≠ Account.LEN then .error .InvalidAccountData
  else .ok (.account a)

/-- `Mint::pack_into_slice` on a buffer. -/
def pack_mint_info (d : RecData) (mt : Mint) : Except Err RecData :=
  if d.data_len ≠ Mint.LEN then .error .InvalidAccountData
  else .ok (.mint mt)

/-- `Multisig::pack_into_slice` on a buffer. -/
def pack_multisig_info (d : RecData) (ms : Multisig) : Except Err RecData :=
  if d.data_len ≠ Multisig.LEN then .error .InvalidAccountData
  else .ok (.multisig ms)

/-! ## Authority validation (`utils/authority.rs`) -/

/-- `validate_single_signer`: key must match and must have signed. -/
def validate_single_signer (expected_authority : Pubkey)
    (authority_info : RecordRef) : Except Err Unit :=
  if authority_info.key ≠ expected_authority then .error .InvalidAuthority
  else if !authority_info.is_signer then .error .MissingRequiredSignature
  else .ok ()

/-- The signer-counting loop body of `validate_multisig`: skip records that
did not sign, count those whose key is among the first `n` enrolled slots,
with the `u8` `checked_add` overflow guard. -/
def count_valid_signers (ms : Multisig) (signer_accounts : List RecordRef) :
    Except Err Nat :=
  signer_accounts.foldlM
    (fun valid_signer_count signer_account =>
      if !signer_account.is_signer then .ok valid_signer_count
      else if (ms.signers.take ms.n).any
          (fun stored_signer => stored_signer = signer_account.key) then
        if valid_signer_count + 1 ≤ 255 then .ok (valid_signer_count + 1)
        else .error .Overflow
      else .ok valid_signer_count)
    0

/-- `validate_multisig`: key, program ownership, decode + initialization,
then at least `m` counted signers (`NotEnoughSigners` otherwise). -/
def validate_multisig (program_id : Pubkey) (expected_authority : Pubkey)
    (multisig_info : RecordRef) (signer_accounts : List RecordRef) :
    Except Err Unit := do
  if multisig_info.key ≠ expected_authority then throw .InvalidAuthority
  if multisig_info.owner ≠ program_id then throw .InvalidAccountOwner
  let multisig ← unpack_multisig_info multisig_info.data
  if !multisig.is_initialized then throw .UninitializedAccount
  let valid_signer_count ← count_valid_signers multisig signer_accounts
  if valid_signer_count < multisig.m then throw .NotEnoughSigners
  .ok ()

/-- `validate_authority`: structural multisig detection (exact `Multisig`
length and program ownership), then the multisig or single-signer path. -/
def validate_authority (program_id : Pubkey) (expected_authority : Pubkey)
    (authority_info : RecordRef) (signer_accounts : List RecordRef) :
    Except Err Unit :=
  if authority_info.data.data_len = Multisig.LEN ∧
      authority_info.owner = program_id then
    validate_multisig program_id expected_authority authority_info signer_accounts
  else
    validate_single_signer expected_authority authority_info

/-- `Except.isOk` as the model of `Result::is_ok`. -/
def exceptIsOk {α : Type} : Except Err α → Bool
  | .ok _ => true
  | .error _ => false

/-- `validate_owner_or_delegate`: owner first, then the delegate if any;
both inner failures are collapsed into `InvalidAuthority`.  `false` means
the owner validated, `true` the delegate. -/
def validate_owner_or_delegate (program_id : Pubkey) (account_owner : Pubkey)
    (account_delegate : Option Pubkey) (authority_info : RecordRef)
    (signer_accounts : List RecordRef) : Except Err Bool :=
  if exceptIsOk
      (validate_authority program_id account_owner authority_info signer_accounts)
  then .ok false
  else
    match account_delegate with
    | some delegate =>
      if exceptIsOk
          (validate_authority program_id delegate authority_info signer_accounts)
      then .ok true
      else .error .InvalidAuthority
    | none => .error .InvalidAuthority

/-! ## Instruction handlers (`processor/*.rs`).

Each handler is split as in the source: a check/compute phase (everything
before "Save states", returning the updated record values) and the final
writes.  A handler returns its result together with the list of buffer and
lamport writes it performed, in program order; a check that fails aborts
with the writes performed so far. -/

/-- One committed mutation: a `pack_into_slice` (or `data.fill(0)`) on a
record's buffer, or an assignment to a record's lamport balance. -/
inductive WriteOp
  | data (key : Pubkey) (d : RecData)
  | lamports (key : Pubkey) (value : Nat)
deriving DecidableEq

/-- The delegate-allowance handling block shared verbatim by
`transfer::process` (lines 95-104) and `burn::process` (lines 87-96):
when the delegate authorized, require sufficient allowance, debit it, and
clear the delegate at zero. -/
def handle_delegate_debit (source : Account) (amount : Nat)
    (used_delegate : Bool) : Except Err Account :=
  if used_delegate then do
    if source.delegated_amount < amount then throw .InsufficientDelegatedAmount
    let da ← checked_sub source.delegated_amount amount
    if da = 0 then
      pure { source with delegated_amount := da, delegate := none }
    else
      pure { source with delegated_amount := da }
  else pure source

/-- The check/compute phase of `transfer::process`. -/
def transfer_compute (program_id : Pubkey)
    (source_info dest_info authority_info : RecordRef)
    (signer_accounts : List RecordRef) (amount : Nat) :
    Except Err (Account × Account) := do
  assert_owned_by source_info program_id
  assert_writable source_info
  assert_data_length source_info Account.LEN
  assert_owned_by dest_info program_id
  assert_writable dest_info
  assert_data_length dest_info Account.LEN
  if source_info.key = dest_info.key then throw .SelfTransfer
  let source ← unpack_account_info source_info.data
  let dest ← unpack_account_info dest_info.data
  if !source.is_initialized then throw .UninitializedAccount
  if !dest.is_initialized then throw .UninitializedAccount
  if source.is_frozen then throw .AccountFrozen
  if dest.is_frozen then throw .AccountFrozen
  if source.mint ≠ dest.mint then throw .MintMismatch
  if source.amount < amount then throw .InsufficientFunds
  let used_delegate ← validate_owner_or_delegate program_id source.owner
    source.delegate authority_info signer_accounts
  let source ← handle_delegate_debit source amount used_delegate
  let new_source_amount ← checked_sub source.amount amount
  let new_dest_amount ← checked_add dest.amount amount
  pure ({ source with amount := new_source_amount },
    { dest with amount := new_dest_amount })

/-- `transfer::process`. -/
def transfer (program_id : Pubkey) (accounts : List RecordRef) (amount : Nat) :
    Except Err Unit × List WriteOp :=
  match accounts with
  | source_info :: dest_info :: authority_info :: signer_accounts =>
    match transfer_compute program_id source_info dest_info authority_info
        signer_accounts amount with
    | .error e => (.error e, [])
    | .ok (source, dest) =>
      match pack_account_info source_info.data source with
      | .error e => (.error e, [])
      | .ok d1 =>
        match pack_account_info dest_info.data dest with
        | .error e => (.error e, [.data source_info.key d1])
        | .ok d2 => (.ok (), [.data source_info.key d1, .data dest_info.key d2])
  | _ => (.error .NotEnoughAccountKeys, [])

/-- The check/compute phase of `approve::process`.  Note: no frozen check,
no comparison of `amount` with the balance, and no validation of the
delegate record itself. -/
def approve_compute (program_id : Pubkey)
    (source_info delegate_info owner_info : RecordRef)
    (signer_accounts : List RecordRef) (amount : Nat) : Except Err Account := do
  assert_owned_by source_info program_id
  assert_writable source_info
  assert_data_length source_info Account.LEN
  let source ← unpack_account_info source_info.data
  if !source.is_initialized then throw .UninitializedAccount
  validate_authority program_id source.owner owner_info signer_accounts
  pure { source with delegate := some delegate_info.key,
                     delegated_amount := amount }

/-- `approve::process`. -/
def approve (program_id : Pubkey) (accounts : List RecordRef) (amount : Nat) :
    Except Err Unit × List WriteOp :=
  match accounts with
  | source_info :: delegate_info :: owner_info :: signer_accounts =>
    match approve_compute program_id source_info delegate_info owner_info
        signer_accounts amount with
    | .error e => (.error e, [])
    | .ok source =>
      match pack_account_info source_info.data source with
      | .error e => (.error e, [])
      | .ok d1 => (.ok (), [.data source_info.key d1])
  | _ => (.error .NotEnoughAccountKeys, [])

/-- The check/compute phase of `revoke::process`. -/
def revoke_compute (program_id : Pubkey) (source_info owner_info : RecordRef)
    (signer_accounts : List RecordRef) : Except Err Account := do
  assert_owned_by source_info program_id
  assert_writable source_info
  assert_data_length source_info Account.LEN
  let source ← unpack_account_info source_info.data
  if !source.is_initialized then throw .UninitializedAccount
  validate_authority program_id source.owner owner_info signer_accounts
  pure { source with delegate := none, delegated_amount := 0 }

/-- `revoke::process`. -/
def revoke (program_id : Pubkey) (accounts : List RecordRef) :
    Except Err Unit × List WriteOp :=
  match accounts with
  | source_info :: owner_info :: signer_accounts =>
    match revoke_compute program_id source_info owner_info signer_accounts with
    | .error e => (.error e, [])
    | .ok source =>
      match pack_account_info source_info.data source with
      | .error e => (.error e, [])
      | .ok d1 => (.ok (), [.data source_info.key d1])
  | _ => (.error .NotEnoughAccountKeys, [])

/-- Rust's `Option::ok_or(err)?`: the value, or the given error. -/
def ok_or {α : Type} (o : Option α) (e : Err) : Except Err α :=
  match o with
  | some a => pure a
  | none => throw e

/-- The check/compute phase of `mint_to::process`. -/
def mint_to_compute (program_id : Pubkey)
    (mint_info dest_info authority_info : RecordRef)
    (signer_accounts : List RecordRef) (amount : Nat) :
    Except Err (Mint × Account) := do
  assert_owned_by mint_info program_id
  assert_writable mint_info
  assert_data_length mint_info Mint.LEN
  assert_owned_by dest_info program_id
  assert_writable dest_info
  assert_data_length dest_info Account.LEN
  let mint ← unpack_mint_info mint_info.data
  let dest_account ← unpack_account_info dest_info.data
  if !mint.is_initialized then throw .UninitializedAccount
  if !dest_account.is_initialized then throw .UninitializedAccount
  if dest_account.is_frozen then throw .AccountFrozen
  if dest_account.mint ≠ mint_info.key then throw .MintMismatch
  let mint_authority ← ok_or mint.mint_authority .MintAuthorityRequired
  validate_authority program_id mint_authority authority_info signer_accounts
  let new_supply ← checked_add mint.supply amount
  let new_amount ← checked_add dest_account.amount amount
  pure ({ mint with supply := new_supply },
    { dest_account with amount := new_amount })

/-- `mint_to::process`. -/
def mint_to (program_id : Pubkey) (accounts : List RecordRef) (amount : Nat) :
    Except Err Unit × List WriteOp :=
  match accounts with
  | mint_info :: dest_info :: authority_info :: signer_accounts =>
    match mint_to_compute program_id mint_info dest_info authority_info
        signer_accounts amount with
    | .error e => (.error e, [])
    | .ok (mint, dest_account) =>
      match pack_mint_info mint_info.data mint with
      | .error e => (.error e, [])
      | .ok d1 =>
        match pack_account_info dest_info.data dest_account with
        | .error e => (.error e, [.data mint_info.key d1])
        | .ok d2 => (.ok (), [.data mint_info.key d1, .data dest_info.key d2])
  | _ => (.error .NotEnoughAccountKeys, [])

/-- The check/compute phase of `burn::process`. -/
def burn_compute (program_id : Pubkey)
    (account_info mint_info authority_info : RecordRef)
    (signer_accounts : List RecordRef) (amount : Nat) :
    Except Err (Account × Mint) := do
  assert_owned_by account_info program_id
  assert_writable account_info
  assert_data_length account_info Account.LEN
  assert_owned_by mint_info program_id
  assert_writable mint_info
  assert_data_length mint_info Mint.LEN
  let account ← unpack_account_info account_info.data
  let mint ← unpack_mint_info mint_info.data
  if !account.is_initialized then throw .UninitializedAccount
  if !mint.is_initialized then throw .UninitializedAccount
  if account.is_frozen then throw .AccountFrozen
  if account.mint ≠ mint_info.key then throw .MintMismatch
  if account.amount < amount then throw .InsufficientFunds
  let used_delegate ← validate_owner_or_delegate program_id account.owner
    account.delegate authority_info signer_accounts
  let account ← handle_delegate_debit account amount used_delegate
  let new_amount ← checked_sub account.amount amount
  let new_supply ← checked_sub mint.supply amount
  pure ({ account with amount := new_amount }, { mint with supply := new_supply })

/-- `burn::process`. -/
def burn (program_id : Pubkey) (accounts : List RecordRef) (amount : Nat) :
    Except Err Unit × List WriteOp :=
  match accounts with
  | account_info :: mint_info :: authority_info :: signer_accounts =>
    match burn_compute program_id account_info mint_info authority_info
        signer_accounts amount with
    | .error e => (.error e, [])
    | .ok (account, mint) =>
      match pack_account_info account_info.data account with
      | .error e => (.error e, [])
      | .ok d1 =>
        match pack_mint_info mint_info.data mint with
        | .error e => (.error e, [.data account_info.key d1])
        | .ok d2 => (.ok (), [.data account_info.key d1, .data mint_info.key d2])
  | _ => (.error .NotEnoughAccountKeys, [])

/-- The check/compute phase of `close_account::process`: returns the new
destination lamport balance. -/
def close_account_compute (program_id : Pubkey)
    (account_info dest_info authority_info : RecordRef)
    (signer_accounts : List RecordRef) : Except Err Nat := do
  assert_owned_by account_info program_id
  assert_writable account_info
  assert_data_length account_info Account.LEN
  assert_writable dest_info
  if account_info.key = dest_info.key then throw .InvalidAuthority
  let account ← unpack_account_info account_info.data
  if !account.is_initialized then throw .UninitializedAccount
  if account.amount ≠ 0 then throw .NonZeroBalance
  let close_authority :=
    match account.close_authority with
    | some a => a
    | none => account.owner
  validate_authority program_id close_authority authority_info signer_accounts
  checked_add dest_info.lamports account_info.lamports

/-- The all-zero 165-byte buffer left by `account_data.fill(0)`: it parses
as the default (uninitialized) `Account`. -/
def zeroedAccountData : RecData :=
  .account { mint := zeroPubkey, owner := zeroPubkey, amount := 0,
             delegate := none, state := .Uninitialized, is_native := none,
             delegated_amount := 0, close_authority := none }

/-- `close_account::process`: moves the lamports, zeroes the account's
balance and data. -/
def close_account (program_id : Pubkey) (accounts : List RecordRef) :
    Except Err Unit × List WriteOp :=
  match accounts with
  | account_info :: dest_info :: authority_info :: signer_accounts =>
    match close_account_compute program_id account_info dest_info authority_info
        signer_accounts with
    | .error e => (.error e, [])
    | .ok dest_lamports =>
      (.ok (), [.lamports dest_info.key dest_lamports,
        .lamports account_info.key 0,
        .data account_info.key zeroedAccountData])
  | _ => (.error .NotEnoughAccountKeys, [])

/-- The shared check/compute phase of `freeze_account::process` and
`thaw_account::process`, which differ only in the state written. -/
def freeze_thaw_compute (program_id : Pubkey)
    (account_info mint_info authority_info : RecordRef)
    (signer_accounts : List RecordRef) (new_state : AccountState) :
    Except Err Account := do
  assert_owned_by account_info program_id
  assert_writable account_info
  assert_data_length account_info Account.LEN
  assert_owned_by mint_info program_id
  assert_data_length mint_info Mint.LEN
  let account ← unpack_account_info account_info.data
  let mint ← unpack_mint_info mint_info.data
  if !account.is_initialized then throw .UninitializedAccount
  if !mint.is_initialized then throw .UninitializedAccount
  if account.mint ≠ mint_info.key then throw .MintMismatch
  let freeze_authority ← ok_or mint.freeze_authority .FreezeAuthorityRequired
  validate_authority program_id freeze_authority authority_info signer_accounts
  pure { account with state := new_state }

/-- `freeze_account::process`. -/
def freeze_account (program_id : Pubkey) (accounts : List RecordRef) :
    Except Err Unit × List WriteOp :=
  match accounts with
  | account_info :: mint_info :: authority_info :: signer_accounts =>
    match freeze_thaw_compute program_id account_info mint_info authority_info
        signer_accounts .Frozen with
    | .error e => (.error e, [])
    | .ok account =>
      match pack_account_info account_info.data account with
      | .error e => (.error e, [])
      | .ok d1 => (.ok (), [.data account_info.key d1])
  | _ => (.error .NotEnoughAccountKeys, [])

/-- `thaw_account::process`. -/
def thaw_account (program_id : Pubkey) (accounts : List RecordRef) :
    Except Err Unit × List WriteOp :=
  match accounts with
  | account_info :: mint_info :: authority_info :: signer_accounts =>
    match freeze_thaw_compute program_id account_info mint_info authority_info
        signer_accounts .Initialized with
    | .error e => (.error e, [])
    | .ok account =>
      match pack_account_info account_info.data account with
      | .error e => (.error e, [])
      | .ok d1 => (.ok (), [.data account_info.key d1])
  | _ => (.error .NotEnoughAccountKeys, [])

/-- `set_authority::process_set_mint_authority`. -/
def process_set_mint_authority (program_id : Pubkey)
    (mint_info authority_info : RecordRef) (signer_accounts : List RecordRef)
    (new_authority : Option Pubkey) : Except Err RecData := do
  assert_data_length mint_info Mint.LEN
  let mint ← unpack_mint_info mint_info.data
  if !mint.is_initialized then throw .UninitializedAccount
  let current_authority ← ok_or mint.mint_authority .InvalidAuthority
  validate_authority program_id current_authority authority_info signer_accounts
  pack_mint_info mint_info.data { mint with mint_authority := new_authority }

/-- `set_authority::process_set_freeze_authority`. -/
def process_set_freeze_authority (program_id : Pubkey)
    (mint_info authority_info : RecordRef) (signer_accounts : List RecordRef)
    (new_authority : Option Pubkey) : Except Err RecData := do
  assert_data_length mint_info Mint.LEN
  let mint ← unpack_mint_info mint_info.data
  if !mint.is_initialized then throw .UninitializedAccount
  let current_authority ← ok_or mint.freeze_authority .FreezeAuthorityRequired
  validate_authority program_id current_authority authority_info signer_accounts
  pack_mint_info mint_info.data { mint with freeze_authority := new_authority }

/-- `set_authority::process_set_account_owner`: owner change clears any
delegation. -/
def process_set_account_owner (program_id : Pubkey)
    (account_info authority_info : RecordRef) (signer_accounts : List RecordRef)
    (new_authority : Option Pubkey) : Except Err RecData := do
  assert_data_length account_info Account.LEN
  let account ← unpack_account_info account_info.data
  if !account.is_initialized then throw .UninitializedAccount
  validate_authority program_id account.owner authority_info signer_accounts
  let new_owner ← ok_or new_authority .InvalidAuthority
  pack_account_info account_info.data
    { account with owner := new_owner, delegate := none, delegated_amount := 0 }

/-- `set_authority::process_set_close_authority`. -/
def process_set_close_authority (program_id : Pubkey)
    (account_info authority_info : RecordRef) (signer_accounts : List RecordRef)
    (new_authority : Option Pubkey) : Except Err RecData := do
  assert_data_length account_info Account.LEN
  let account ← unpack_account_info account_info.data
  if !account.is_initialized then throw .UninitializedAccount
  let current_authority :=
    match account.close_authority with
    | some a => a
    | none => account.owner
  validate_authority program_id current_authority authority_info signer_accounts
  pack_account_info account_info.data
    { account with close_authority := new_authority }

/-- The check/compute phase of `set_authority::process`: the common
preamble then the per-`AuthorityType` branch. -/
def set_authority_compute (program_id : Pubkey)
    (account_info authority_info : RecordRef) (signer_accounts : List RecordRef)
    (authority_type : AuthorityType) (new_authority : Option Pubkey) :
    Except Err RecData := do
  assert_owned_by account_info program_id
  assert_writable account_info
  match authority_type with
  | .MintTokens =>
    process_set_mint_authority program_id account_info authority_info
      signer_accounts new_authority
  | .FreezeAccount =>
    process_set_freeze_authority program_id account_info authority_info
      signer_accounts new_authority
  | .AccountOwner =>
    process_set_account_owner program_id account_info authority_info
      signer_accounts new_authority
  | .CloseAccount =>
    process_set_close_authority program_id account_info authority_info
      signer_accounts new_authority

/-- `set_authority::process`. -/
def set_authority (program_id : Pubkey) (accounts : List RecordRef)
    (authority_type : AuthorityType) (new_authority : Option Pubkey) :
    Except Err Unit × List WriteOp :=
  match accounts with
  | account_info :: authority_info :: signer_accounts =>
    match set_authority_compute program_id account_info authority_info
        signer_accounts authority_type new_authority with
    | .error e => (.error e, [])
    | .ok d1 => (.ok (), [.data account_info.key d1])
  | _ => (.error .NotEnoughAccountKeys, [])

/-- The check/compute phase of `initialize_mint::process`. -/
def initialize_mint_compute (program_id : Pubkey) (rent : RentOracle)
    (mint_info rent_info : RecordRef) (decimals : Nat) (mint_authority : Pubkey)
    (freeze_authority : Option Pubkey) : Except Err RecData := do
  rent_from_account_info rent_info
  assert_owned_by mint_info program_id
  assert_writable mint_info
  assert_data_length mint_info Mint.LEN
  assert_rent_exempt rent mint_info
  let mint ← unpack_mint_info mint_info.data
  if mint.is_initialized then throw .AlreadyInitialized
  pack_mint_info mint_info.data
    { mint_authority := some mint_authority, supply := 0, decimals := decimals,
      is_initialized := true, freeze_authority := freeze_authority }

/-- `initialize_mint::process`. -/
def initialize_mint (program_id : Pubkey) (rent : RentOracle)
    (accounts : List RecordRef) (decimals : Nat) (mint_authority : Pubkey)
    (freeze_authority : Option Pubkey) : Except Err Unit × List WriteOp :=
  match accounts with
  | mint_info :: rent_info :: _ =>
    match initialize_mint_compute program_id rent mint_info rent_info decimals
        mint_authority freeze_authority with
    | .error e => (.error e, [])
    | .ok d1 => (.ok (), [.data mint_info.key d1])
  | _ => (.error .NotEnoughAccountKeys, [])

/-- The check/compute phase of `initialize_account::process`. -/
def initialize_account_compute (program_id : Pubkey) (rent : RentOracle)
    (account_info mint_info owner_info rent_info : RecordRef) :
    Except Err RecData := do
  rent_from_account_info rent_info
  assert_owned_by account_info program_id
  assert_writable account_info
  assert_data_length account_info Account.LEN
  assert_rent_exempt rent account_info
  assert_owned_by mint_info program_id
  assert_data_length mint_info Mint.LEN
  let mint ← unpack_mint_info mint_info.data
  if !mint.is_initialized then throw .UninitializedAccount
  let account ← unpack_account_info account_info.data
  if account.is_initialized then throw .AlreadyInitialized
  pack_account_info account_info.data
    { mint := mint_info.key, owner := owner_info.key, amount := 0,
      delegate := none, state := .Initialized, is_native := none,
      delegated_amount := 0, close_authority := none }

/-- `initialize_account::process`. -/
def initialize_account (program_id : Pubkey) (rent : RentOracle)
    (accounts : List RecordRef) : Except Err Unit × List WriteOp :=
  match accounts with
  | account_info :: mint_info :: owner_info :: rent_info :: _ =>
    match initialize_account_compute program_id rent account_info mint_info
        owner_info rent_info with
    | .error e => (.error e, [])
    | .ok d1 => (.ok (), [.data account_info.key d1])
  | _ => (.error .NotEnoughAccountKeys, [])

/-- The check/compute phase of `initialize_multisig::process`; `n` is the
number of trailing signer records. -/
def initialize_multisig_compute (program_id : Pubkey) (rent : RentOracle)
    (multisig_info rent_info : RecordRef) (signer_infos : List RecordRef)
    (m : Nat) : Except Err RecData := do
  rent_from_account_info rent_info
  assert_owned_by multisig_info program_id
  assert_writable multisig_info
  assert_data_length multisig_info Multisig.LEN
  assert_rent_exempt rent multisig_info
  if signer_infos.length < 1 ∨ signer_infos.length > MAX_SIGNERS then
    throw .InvalidMultisigConfig
  if m < 1 ∨ m > signer_infos.length then throw .InvalidMultisigConfig
  let multisig ← unpack_multisig_info multisig_info.data
  if multisig.is_initialized then throw .AlreadyInitialized
  pack_multisig_info multisig_info.data
    { m := m, n := signer_infos.length, is_initialized := true,
      signers := signer_infos.map RecordRef.key ++
        List.replicate (MAX_SIGNERS - signer_infos.length) zeroPubkey }

/-- `initialize_multisig::process`. -/
def initialize_multisig (program_id : Pubkey) (rent : RentOracle)
    (accounts : List RecordRef) (m : Nat) : Except Err Unit × List WriteOp :=
  match accounts with
  | multisig_info :: rent_info :: signer_infos =>
    match initialize_multisig_compute program_id rent multisig_info rent_info
        signer_infos m with
    | .error e => (.error e, [])
    | .ok d1 => (.ok (), [.data multisig_info.key d1])
  | _ => (.error .NotEnoughAccountKeys, [])

/-- `Processor::process` after instruction decoding: the dispatcher from
`processor/mod.rs`. -/
def process_instruction (program_id : Pubkey) (rent : RentOracle)
    (accounts : List RecordRef) : TokenInstruction → Except Err Unit × List WriteOp
  | .InitializeMint decimals mint_authority freeze_authority =>
    initialize_mint program_id rent accounts decimals mint_authority
      freeze_authority
  | .InitializeAccount => initialize_account program_id rent accounts
  | .InitializeMultisig m => initialize_multisig program_id rent accounts m
  | .Transfer amount => transfer program_id accounts amount
  | .Approve amount => approve program_id accounts amount
  | .Revoke => revoke program_id accounts
  | .SetAuthority authority_type new_authority =>
    set_authority program_id accounts authority_type new_authority
  | .MintTo amount => mint_to program_id accounts amount
  | .Burn amount => burn program_id accounts amount
  | .CloseAccount => close_account program_id accounts
  | .FreezeAccount => freeze_account program_id accounts
  | .ThawAccount => thaw_account program_id accounts

/-- The full entry point `Processor::process`: decode the instruction bytes,
then dispatch. -/
def processor_process (program_id : Pubkey) (rent : RentOracle)
    (accounts : List RecordRef) (instruction_data : List Nat) :
    Except Err Unit × List WriteOp :=
  match TokenInstruction.unpack instruction_data with
  | .error e => (.error e, [])
  | .ok instruction => process_instruction program_id rent accounts instruction

/-! ## World semantics: records by key, views, writes, steps.

A world is the host's fixed set of records.  A handler call receives views
of some of those records (key, owning program, lamports and data agree with
the world; the signer/writable marks are per-transaction).  Its writes are
applied back to the world by key. -/

/-- Apply one write to every record with the written key. -/
def apply_write (w : List RecordRef) : WriteOp → List RecordRef
  | .data k d => w.map (fun r => if r.key = k then { r with data := d } else r)
  | .lamports k v =>
      w.map (fun r => if r.key = k then { r with lamports := v } else r)

/-- Apply a handler's writes in program order. -/
def apply_writes (w : List RecordRef) (ws : List WriteOp) : List RecordRef :=
  ws.foldl apply_write w

/-- `v` is a view of a record of world `w`: persistent fields agree. -/
def ViewOf (w : List RecordRef) (v : RecordRef) : Prop :=
  ∃ r ∈ w, v.key = r.key ∧ v.owner = r.owner ∧ v.lamports = r.lamports ∧
    v.data = r.data

/-- One successful engine invocation: some instruction, applied to views of
the world's records, succeeded, and its writes were committed. -/
def Step (pid : Pubkey) (rent : RentOracle) (w w' : List RecordRef) : Prop :=
  ∃ i accounts, (∀ v ∈ accounts, ViewOf w v) ∧
    (process_instruction pid rent accounts i).fst = .ok () ∧
    w' = apply_writes w (process_instruction pid rent accounts i).snd

/-- A sequence of successful instructions. -/
def Steps (pid : Pubkey) (rent : RentOracle) :
    List RecordRef → List RecordRef → Prop :=
  Relation.ReflTransGen (Step pid rent)

/-- The balance this record contributes to the supply of the mint at key
`mk`: its `amount` when it is a program-owned, initialized token account of
that mint. -/
def acct_contrib (pid mk : Pubkey) (r : RecordRef) : Nat :=
  match r.data with
  | .account a =>
    if r.owner = pid ∧ a.mint = mk ∧ a.is_initialized = true then a.amount else 0
  | _ => 0

/-- Sum of `amount` over the world's accounts bound to the mint at `mk`. -/
def amount_sum (pid mk : Pubkey) (w : List RecordRef) : Nat :=
  (w.map (acct_contrib pid mk)).sum

/-- Supply conservation: every program-owned initialized `Mint` record's
supply equals the sum of balances of the accounts bound to it. -/
def supply_ok (pid : Pubkey) (w : List RecordRef) : Prop :=
  ∀ r ∈ w, ∀ mt, r.data = RecData.mint mt → r.owner = pid →
    mt.is_initialized = true → mt.supply = amount_sum pid r.key w

/-- Mint-reference coherence: every program-owned initialized token account
points at a program-owned initialized `Mint` record present in the world. -/
def mint_ref_ok (pid : Pubkey) (w : List RecordRef) : Prop :=
  ∀ r ∈ w, ∀ a, r.data = RecData.account a → r.owner = pid →
    a.is_initialized = true →
    ∃ rm ∈ w, rm.key = a.mint ∧ rm.owner = pid ∧
      ∃ mt, rm.data = RecData.mint mt ∧ mt.is_initialized = true

/-- The host keys records uniquely. -/
def keys_nodup (w : List RecordRef) : Prop := (w.map RecordRef.key).Nodup

/-! ## Inversion helpers for the monadic handler computations -/

theorem except_bind_ok {α β : Type} {x : Except Err α} {f : α → Except Err β}
    {b : β} (h : x >>= f = .ok b) : ∃ a, x = .ok a ∧ f a = .ok b := by
  cases x with
  | error e => simp [Bind.bind, Except.bind] at h
  | ok a => exact ⟨a, rfl, by simpa [Bind.bind, Except.bind] using h⟩

theorem assert_owned_by_ok {r : RecordRef} {o : Pubkey} {u : Unit}
    (h : assert_owned_by r o = .ok u) : r.owner = o := by
  unfold assert_owned_by at h
  split at h
  · exact absurd h (by simp)
  · next hc => exact not_not.mp hc

theorem assert_writable_ok {r : RecordRef} {u : Unit}
    (h : assert_writable r = .ok u) : r.is_writable = true := by
  unfold assert_writable at h
  split at h
  · exact absurd h (by simp)
  · next hc => simpa using hc

theorem assert_data_length_ok {r : RecordRef} {n : Nat} {u : Unit}
    (h : assert_data_length r n = .ok u) : r.data.data_len = n := by
  unfold assert_data_length at h
  split at h
  · exact absurd h (by simp)
  · next hc => exact not_not.mp hc

theorem assert_rent_exempt_ok {rent : RentOracle} {r : RecordRef} {u : Unit}
    (h : assert_rent_exempt rent r = .ok u) :
    rent r.lamports r.data.data_len = true := by
  unfold assert_rent_exempt at h
  split at h
  · exact absurd h (by simp)
  · next hc => simpa using hc

theorem unpack_account_info_ok {d : RecData} {a : Account}
    (h : unpack_account_info d = .ok a) : d = .account a := by
  unfold unpack_account_info at h
  split at h
  · exact absurd h (by simp)
  · split at h
    · next => cases h; rfl
    · exact absurd h (by simp)

theorem unpack_mint_info_ok {d : RecData} {mt : Mint}
    (h : unpack_mint_info d = .ok mt) : d = .mint mt := by
  unfold unpack_mint_info at h
  split at h
  · exact absurd h (by simp)
  · split at h
    · next => cases h; rfl
    · exact absurd h (by simp)

theorem unpack_multisig_info_ok {d : RecData} {ms : Multisig}
    (h : unpack_multisig_info d = .ok ms) :
    d = .multisig ms ∧ ms.n ≤ MAX_SIGNERS ∧ ms.m ≤ ms.n ∧
      (ms.is_initialized = true → 1 ≤ ms.m) := by
  unfold unpack_multisig_info at h
  split at h
  · exact absurd h (by simp)
  · split at h
    · next ms' =>
      split at h
      · exact absurd h (by simp)
      · split at h
        · exact absurd h (by simp)
        · split at h
          · exact absurd h (by simp)
          · next h1 h2 h3 =>
            cases h
            refine ⟨rfl, by omega, by omega, fun hi => ?_⟩
            simp [hi] at h3
            omega
    · exact absurd h (by simp)

theorem pack_account_info_ok {d : RecData} {a : Account} {d' : RecData}
    (h : pack_account_info d a = .ok d') : d' = .account a ∧
      d.data_len = Account.LEN := by
  unfold pack_account_info at h
  split at h
  · exact absurd h (by simp)
  · next hc => exact ⟨by cases h; rfl, not_not.mp hc⟩

theorem pack_mint_info_ok {d : RecData} {mt : Mint} {d' : RecData}
    (h : pack_mint_info d mt = .ok d') : d' = .mint mt ∧
      d.data_len = Mint.LEN := by
  unfold pack_mint_info at h
  split at h
  · exact absurd h (by simp)
  · next hc => exact ⟨by cases h; rfl, not_not.mp hc⟩

theorem pack_multisig_info_ok {d : RecData} {ms : Multisig} {d' : RecData}
    (h : pack_multisig_info d ms = .ok d') : d' = .multisig ms ∧
      d.data_len = Multisig.LEN := by
  unfold pack_multisig_info at h
  split at h
  · exact absurd h (by simp)
  · next hc => exact ⟨by cases h; rfl, not_not.mp hc⟩

theorem pack_account_info_of_len {d : RecData} {a : Account}
    (h : d.data_len = Account.LEN) : pack_account_info d a = .ok (.account a) := by
  unfold pack_account_info
  rw [if_neg (by omega)]

theorem pack_mint_info_of_len {d : RecData} {mt : Mint}
    (h : d.data_len = Mint.LEN) : pack_mint_info d mt = .ok (.mint mt) := by
  unfold pack_mint_info
  rw [if_neg (by omega)]

theorem except_pure_ok {α : Type} {a b : α}
    (h : (pure a : Except Err α) = .ok b) : a = b := by
  simpa [pure, Except.pure] using h

theorem guardb_bind_ok {β : Type} {c : Bool} {e : Err} {k : PUnit → Except Err β}
    {b : β}
    (h : (if c = true then (throw e : Except Err PUnit) >>= k
          else (pure PUnit.unit : Except Err PUnit) >>= k) = .ok b) :
    c = false ∧ k PUnit.unit = .ok b := by
  cases c with
  | false =>
    refine ⟨rfl, ?_⟩
    simpa [Bind.bind, Except.bind, pure, Except.pure] using h
  | true =>
    simp [throw, throwThe, MonadExceptOf.throw, Bind.bind, Except.bind] at h

theorem guardp_bind_ok {β : Type} {c : Prop} [Decidable c] {e : Err}
    {k : PUnit → Except Err β} {b : β}
    (h : (if c then (throw e : Except Err PUnit) >>= k
          else (pure PUnit.unit : Except Err PUnit) >>= k) = .ok b) :
    ¬c ∧ k PUnit.unit = .ok b := by
  by_cases hc : c
  · rw [if_pos hc] at h
    simp [throw, throwThe, MonadExceptOf.throw, Bind.bind, Except.bind] at h
  · rw [if_neg hc] at h
    refine ⟨hc, ?_⟩
    simpa [Bind.bind, Except.bind, pure, Except.pure] using h

theorem approve_compute_ok {pid : Pubkey}
    {source_info delegate_info owner_info : RecordRef}
    {signer_accounts : List RecordRef} {amount : Nat} {src : Account}
    (h : approve_compute pid source_info delegate_info owner_info
      signer_accounts amount = .ok src) :
    ∃ a, source_info.owner = pid ∧ source_info.is_writable = true ∧
      source_info.data = .account a ∧ a.is_initialized = true ∧
      validate_authority pid a.owner owner_info signer_accounts = .ok () ∧
      src = { a with delegate := some delegate_info.key,
                     delegated_amount := amount } := by
  unfold approve_compute at h
  obtain ⟨u1, h1, h⟩ := except_bind_ok h
  obtain ⟨u2, h2, h⟩ := except_bind_ok h
  obtain ⟨u3, h3, h⟩ := except_bind_ok h
  obtain ⟨a, ha, h⟩ := except_bind_ok h
  obtain ⟨hini, h⟩ := guardb_bind_ok h
  obtain ⟨u5, h5, h⟩ := except_bind_ok h
  refine ⟨a, assert_owned_by_ok h1, assert_writable_ok h2,
    unpack_account_info_ok ha, by simpa using hini, ?_, ?_⟩
  · cases u5
    exact h5
  · exact (except_pure_ok h).symm

theorem match_some_ok {α : Type} {o : Option α} {e : Err} {x : α}
    (h : (match o with
          | some a => pure a
          | none => throw e : Except Err α) = .ok x) : o = some x := by
  cases o with
  | some a =>
    have : a = x := by simpa [pure, Except.pure] using h
    rw [this]
  | none => simp [throw, throwThe, MonadExceptOf.throw] at h

theorem ok_or_ok {α : Type} {o : Option α} {e : Err} {x : α}
    (h : ok_or o e = .ok x) : o = some x := by
  unfold ok_or at h
  exact match_some_ok h

theorem checked_add_ok {a b c : Nat} (h : checked_add a b = .ok c) :
    c = a + b ∧ a + b ≤ U64_MAX := by
  unfold checked_add at h
  split at h
  · next hc => exact ⟨by cases h; rfl, hc⟩
  · exact absurd h (by simp)

theorem checked_sub_ok {a b c : Nat} (h : checked_sub a b = .ok c) :
    c = a - b ∧ b ≤ a := by
  unfold checked_sub at h
  split at h
  · next hc => exact ⟨by cases h; rfl, hc⟩
  · exact absurd h (by simp)

/-- The delegate-allowance debit performed by `transfer`/`burn` when the
delegate authorized: decrement `delegated_amount`, clearing `delegate` when
it reaches zero (lines 96-104 of `transfer.rs`, 88-96 of `burn.rs`). -/
def delegate_debit (a : Account) (amount : Nat) : Account :=
  if a.delegated_amount - amount = 0 then
    { a with delegated_amount := a.delegated_amount - amount, delegate := none }
  else { a with delegated_amount := a.delegated_amount - amount }

theorem revoke_compute_ok {pid : Pubkey} {source_info owner_info : RecordRef}
    {signer_accounts : List RecordRef} {src : Account}
    (h : revoke_compute pid source_info owner_info signer_accounts = .ok src) :
    ∃ a, source_info.owner = pid ∧ source_info.is_writable = true ∧
      source_info.data = .account a ∧ a.is_initialized = true ∧
      validate_authority pid a.owner owner_info signer_accounts = .ok () ∧
      src = { a with delegate := none, delegated_amount := 0 } := by
  unfold revoke_compute at h
  obtain ⟨u1, h1, h⟩ := except_bind_ok h
  obtain ⟨u2, h2, h⟩ := except_bind_ok h
  obtain ⟨u3, h3, h⟩ := except_bind_ok h
  obtain ⟨a, ha, h⟩ := except_bind_ok h
  obtain ⟨hini, h⟩ := guardb_bind_ok h
  obtain ⟨u5, h5, h⟩ := except_bind_ok h
  refine ⟨a, assert_owned_by_ok h1, assert_writable_ok h2,
    unpack_account_info_ok ha, by simpa using hini, ?_, ?_⟩
  · cases u5
    exact h5
  · exact (except_pure_ok h).symm

theorem handle_delegate_debit_ok {source : Account} {amount : Nat} {ud : Bool}
    {out : Account} (h : handle_delegate_debit source amount ud = .ok out) :
    (ud = false ∧ out = source) ∨
      (ud = true ∧ amount ≤ source.delegated_amount ∧
        out = delegate_debit source amount) := by
  unfold handle_delegate_debit at h
  cases ud with
  | false =>
    rw [if_neg (by simp)] at h
    exact Or.inl ⟨rfl, (except_pure_ok h).symm⟩
  | true =>
    rw [if_pos rfl] at h
    obtain ⟨hlt, h⟩ := guardp_bind_ok h
    obtain ⟨da, hdeq, h⟩ := except_bind_ok h
    obtain ⟨hda1, hda2⟩ := checked_sub_ok hdeq
    right
    refine ⟨rfl, by omega, ?_⟩
    subst hda1
    unfold delegate_debit
    split at h
    · next hz =>
      rw [if_pos hz]
      exact (except_pure_ok h).symm
    · next hz =>
      rw [if_neg hz]
      exact (except_pure_ok h).symm

theorem transfer_compute_ok {pid : Pubkey}
    {source_info dest_info authority_info : RecordRef}
    {signer_accounts : List RecordRef} {amount : Nat} {res : Account × Account}
    (h : transfer_compute pid source_info dest_info authority_info
      signer_accounts amount = .ok res) :
    ∃ srcA destA used_delegate source2,
      source_info.owner = pid ∧ source_info.is_writable = true ∧
      dest_info.owner = pid ∧ dest_info.is_writable = true ∧
      source_info.key ≠ dest_info.key ∧
      source_info.data = .account srcA ∧ dest_info.data = .account destA ∧
      srcA.is_initialized = true ∧ destA.is_initialized = true ∧
      srcA.is_frozen = false ∧ destA.is_frozen = false ∧
      srcA.mint = destA.mint ∧
      amount ≤ srcA.amount ∧
      validate_owner_or_delegate pid srcA.owner srcA.delegate authority_info
        signer_accounts = .ok used_delegate ∧
      ((used_delegate = false ∧ source2 = srcA) ∨
        (used_delegate = true ∧ amount ≤ srcA.delegated_amount ∧
          source2 = delegate_debit srcA amount)) ∧
      destA.amount + amount ≤ U64_MAX ∧
      res = ({ source2 with amount := source2.amount - amount },
        { destA with amount := destA.amount + amount }) := by
  unfold transfer_compute at h
  obtain ⟨u1, h1, h⟩ := except_bind_ok h
  obtain ⟨u2, h2, h⟩ := except_bind_ok h
  obtain ⟨u3, h3, h⟩ := except_bind_ok h
  obtain ⟨u4, h4, h⟩ := except_bind_ok h
  obtain ⟨u5, h5, h⟩ := except_bind_ok h
  obtain ⟨u6, h6, h⟩ := except_bind_ok h
  obtain ⟨hself, h⟩ := guardp_bind_ok h
  obtain ⟨srcA, hsa, h⟩ := except_bind_ok h
  obtain ⟨destA, hda, h⟩ := except_bind_ok h
  obtain ⟨hsi, h⟩ := guardb_bind_ok h
  obtain ⟨hdi, h⟩ := guardb_bind_ok h
  obtain ⟨hsf, h⟩ := guardb_bind_ok h
  obtain ⟨hdf, h⟩ := guardb_bind_ok h
  obtain ⟨hmm, h⟩ := guardp_bind_ok h
  obtain ⟨hamt, h⟩ := guardp_bind_ok h
  obtain ⟨used_delegate, hvod, h⟩ := except_bind_ok h
  obtain ⟨source2, hdel, h⟩ := except_bind_ok h
  obtain ⟨nsa, hnsa, h⟩ := except_bind_ok h
  obtain ⟨nda, hnda, h⟩ := except_bind_ok h
  obtain ⟨hnsa1, _⟩ := checked_sub_ok hnsa
  obtain ⟨hnda1, hnda2⟩ := checked_add_ok hnda
  refine ⟨srcA, destA, used_delegate, source2, assert_owned_by_ok h1,
    assert_writable_ok h2, assert_owned_by_ok h4, assert_writable_ok h5, hself,
    unpack_account_info_ok hsa, unpack_account_info_ok hda,
    by simpa using hsi, by simpa using hdi, by simpa using hsf,
    by simpa using hdf, not_not.mp hmm, Nat.le_of_not_lt hamt, hvod,
    handle_delegate_debit_ok hdel, hnda2, ?_⟩
  have := except_pure_ok h
  rw [← this, hnsa1, hnda1]

theorem rent_from_account_info_ok {r : RecordRef} {u : Unit}
    (h : rent_from_account_info r = .ok u) : r.data = .sysvarRent := by
  unfold rent_from_account_info at h
  split at h
  · next heq => exact heq
  · exact absurd h (by simp)

theorem mint_to_compute_ok {pid : Pubkey}
    {mint_info dest_info authority_info : RecordRef}
    {signer_accounts : List RecordRef} {amount : Nat} {res : Mint × Account}
    (h : mint_to_compute pid mint_info dest_info authority_info
      signer_accounts amount = .ok res) :
    ∃ mt destA mint_authority,
      mint_info.owner = pid ∧ mint_info.is_writable = true ∧
      dest_info.owner = pid ∧ dest_info.is_writable = true ∧
      mint_info.data = .mint mt ∧ dest_info.data = .account destA ∧
      mt.is_initialized = true ∧ destA.is_initialized = true ∧
      destA.is_frozen = false ∧ destA.mint = mint_info.key ∧
      mt.mint_authority = some mint_authority ∧
      validate_authority pid mint_authority authority_info signer_accounts
        = .ok () ∧
      mt.supply + amount ≤ U64_MAX ∧ destA.amount + amount ≤ U64_MAX ∧
      res = ({ mt with supply := mt.supply + amount },
        { destA with amount := destA.amount + amount }) := by
  unfold mint_to_compute at h
  obtain ⟨u1, h1, h⟩ := except_bind_ok h
  obtain ⟨u2, h2, h⟩ := except_bind_ok h
  obtain ⟨u3, h3, h⟩ := except_bind_ok h
  obtain ⟨u4, h4, h⟩ := except_bind_ok h
  obtain ⟨u5, h5, h⟩ := except_bind_ok h
  obtain ⟨u6, h6, h⟩ := except_bind_ok h
  obtain ⟨mt, hmt, h⟩ := except_bind_ok h
  obtain ⟨destA, hdest, h⟩ := except_bind_ok h
  obtain ⟨hmi, h⟩ := guardb_bind_ok h
  obtain ⟨hdi, h⟩ := guardb_bind_ok h
  obtain ⟨hdf, h⟩ := guardb_bind_ok h
  obtain ⟨hmm, h⟩ := guardp_bind_ok h
  obtain ⟨ma, hma, h⟩ := except_bind_ok h
  obtain ⟨u7, h7, h⟩ := except_bind_ok h
  obtain ⟨ns, hns, h⟩ := except_bind_ok h
  obtain ⟨na, hna, h⟩ := except_bind_ok h
  obtain ⟨hns1, hns2⟩ := checked_add_ok hns
  obtain ⟨hna1, hna2⟩ := checked_add_ok hna
  refine ⟨mt, destA, ma, assert_owned_by_ok h1, assert_writable_ok h2,
    assert_owned_by_ok h4, assert_writable_ok h5, unpack_mint_info_ok hmt,
    unpack_account_info_ok hdest, by simpa using hmi, by simpa using hdi,
    by simpa using hdf, not_not.mp hmm, ok_or_ok hma, ?_, hns2, hna2, ?_⟩
  · cases u7
    exact h7
  · have := except_pure_ok h
    rw [← this, hns1, hna1]

theorem burn_compute_ok {pid : Pubkey}
    {account_info mint_info authority_info : RecordRef}
    {signer_accounts : List RecordRef} {amount : Nat} {res : Account × Mint}
    (h : burn_compute pid account_info mint_info authority_info
      signer_accounts amount = .ok res) :
    ∃ acctA mt used_delegate account2,
      account_info.owner = pid ∧ account_info.is_writable = true ∧
      mint_info.owner = pid ∧ mint_info.is_writable = true ∧
      account_info.data = .account acctA ∧ mint_info.data = .mint mt ∧
      acctA.is_initialized = true ∧ mt.is_initialized = true ∧
      acctA.is_frozen = false ∧ acctA.mint = mint_info.key ∧
      amount ≤ acctA.amount ∧
      validate_owner_or_delegate pid acctA.owner acctA.delegate authority_info
        signer_accounts = .ok used_delegate ∧
      ((used_delegate = false ∧ account2 = acctA) ∨
        (used_delegate = true ∧ amount ≤ acctA.delegated_amount ∧
          account2 = delegate_debit acctA amount)) ∧
      amount ≤ mt.supply ∧
      res = ({ account2 with amount := account2.amount - amount },
        { mt with supply := mt.supply - amount }) := by
  unfold burn_compute at h
  obtain ⟨u1, h1, h⟩ := except_bind_ok h
  obtain ⟨u2, h2, h⟩ := except_bind_ok h
  obtain ⟨u3, h3, h⟩ := except_bind_ok h
  obtain ⟨u4, h4, h⟩ := except_bind_ok h
  obtain ⟨u5, h5, h⟩ := except_bind_ok h
  obtain ⟨u6, h6, h⟩ := except_bind_ok h
  obtain ⟨acctA, hacct, h⟩ := except_bind_ok h
  obtain ⟨mt, hmt, h⟩ := except_bind_ok h
  obtain ⟨hai, h⟩ := guardb_bind_ok h
  obtain ⟨hmi, h⟩ := guardb_bind_ok h
  obtain ⟨haf, h⟩ := guardb_bind_ok h
  obtain ⟨hmm, h⟩ := guardp_bind_ok h
  obtain ⟨hamt, h⟩ := guardp_bind_ok h
  obtain ⟨used_delegate, hvod, h⟩ := except_bind_ok h
  obtain ⟨account2, hdel, h⟩ := except_bind_ok h
  obtain ⟨na, hna, h⟩ := except_bind_ok h
  obtain ⟨ns, hns, h⟩ := except_bind_ok h
  obtain ⟨hna1, _⟩ := checked_sub_ok hna
  obtain ⟨hns1, hns2⟩ := checked_sub_ok hns
  refine ⟨acctA, mt, used_delegate, account2, assert_owned_by_ok h1,
    assert_writable_ok h2, assert_owned_by_ok h4, assert_writable_ok h5,
    unpack_account_info_ok hacct, unpack_mint_info_ok hmt, by simpa using hai,
    by simpa using hmi, by simpa using haf, not_not.mp hmm,
    Nat.le_of_not_lt hamt, hvod, handle_delegate_debit_ok hdel, hns2, ?_⟩
  have := except_pure_ok h
  rw [← this, hna1, hns1]

theorem close_account_compute_ok {pid : Pubkey}
    {account_info dest_info authority_info : RecordRef}
    {signer_accounts : List RecordRef} {out : Nat}
    (h : close_account_compute pid account_info dest_info authority_info
      signer_accounts = .ok out) :
    ∃ acctA,
      account_info.owner = pid ∧ account_info.is_writable = true ∧
      dest_info.is_writable = true ∧
      account_info.key ≠ dest_info.key ∧
      account_info.data = .account acctA ∧
      acctA.is_initialized = true ∧ acctA.amount = 0 ∧
      validate_authority pid
        (match acctA.close_authority with
         | some a => a
         | none => acctA.owner) authority_info signer_accounts = .ok () ∧
      dest_info.lamports + account_info.lamports ≤ U64_MAX ∧
      out = dest_info.lamports + account_info.lamports := by
  unfold close_account_compute at h
  obtain ⟨u1, h1, h⟩ := except_bind_ok h
  obtain ⟨u2, h2, h⟩ := except_bind_ok h
  obtain ⟨u3, h3, h⟩ := except_bind_ok h
  obtain ⟨u4, h4, h⟩ := except_bind_ok h
  obtain ⟨hself, h⟩ := guardp_bind_ok h
  obtain ⟨acctA, hacct, h⟩ := except_bind_ok h
  obtain ⟨hai, h⟩ := guardb_bind_ok h
  obtain ⟨hz, h⟩ := guardp_bind_ok h
  obtain ⟨u5, h5, h⟩ := except_bind_ok h
  obtain ⟨hs1, hs2⟩ := checked_add_ok h
  refine ⟨acctA, assert_owned_by_ok h1, assert_writable_ok h2,
    assert_writable_ok h4, hself, unpack_account_info_ok hacct,
    by simpa using hai, not_not.mp hz, ?_, hs2, hs1⟩
  cases u5
  exact h5

theorem freeze_thaw_compute_ok {pid : Pubkey}
    {account_info mint_info authority_info : RecordRef}
    {signer_accounts : List RecordRef} {new_state : AccountState} {out : Account}
    (h : freeze_thaw_compute pid account_info mint_info authority_info
      signer_accounts new_state = .ok out) :
    ∃ acctA mt freeze_authority,
      account_info.owner = pid ∧ account_info.is_writable = true ∧
      mint_info.owner = pid ∧
      account_info.data = .account acctA ∧ mint_info.data = .mint mt ∧
      acctA.is_initialized = true ∧ mt.is_initialized = true ∧
      acctA.mint = mint_info.key ∧
      mt.freeze_authority = some freeze_authority ∧
      validate_authority pid freeze_authority authority_info signer_accounts
        = .ok () ∧
      out = { acctA with state := new_state } := by
  unfold freeze_thaw_compute at h
  obtain ⟨u1, h1, h⟩ := except_bind_ok h
  obtain ⟨u2, h2, h⟩ := except_bind_ok h
  obtain ⟨u3, h3, h⟩ := except_bind_ok h
  obtain ⟨u4, h4, h⟩ := except_bind_ok h
  obtain ⟨u5, h5, h⟩ := except_bind_ok h
  obtain ⟨acctA, hacct, h⟩ := except_bind_ok h
  obtain ⟨mt, hmt, h⟩ := except_bind_ok h
  obtain ⟨hai, h⟩ := guardb_bind_ok h
  obtain ⟨hmi, h⟩ := guardb_bind_ok h
  obtain ⟨hmm, h⟩ := guardp_bind_ok h
  obtain ⟨fa, hfa, h⟩ := except_bind_ok h
  obtain ⟨u6, h6, h⟩ := except_bind_ok h
  refine ⟨acctA, mt, fa, assert_owned_by_ok h1, assert_writable_ok h2,
    assert_owned_by_ok h4, unpack_account_info_ok hacct,
    unpack_mint_info_ok hmt, by simpa using hai, by simpa using hmi,
    not_not.mp hmm, ok_or_ok hfa, ?_, (except_pure_ok h).symm⟩
  cases u6
  exact h6

theorem process_set_mint_authority_ok {pid : Pubkey}
    {mint_info authority_info : RecordRef} {signer_accounts : List RecordRef}
    {new_authority : Option Pubkey} {out : RecData}
    (h : process_set_mint_authority pid mint_info authority_info
      signer_accounts new_authority = .ok out) :
    ∃ mt current,
      mint_info.data = .mint mt ∧ mt.is_initialized = true ∧
      mt.mint_authority = some current ∧
      validate_authority pid current authority_info signer_accounts = .ok () ∧
      out = .mint { mt with mint_authority := new_authority } := by
  unfold process_set_mint_authority at h
  obtain ⟨u1, h1, h⟩ := except_bind_ok h
  obtain ⟨mt, hmt, h⟩ := except_bind_ok h
  obtain ⟨hmi, h⟩ := guardb_bind_ok h
  obtain ⟨cur, hcur, h⟩ := except_bind_ok h
  obtain ⟨u2, h2, h⟩ := except_bind_ok h
  obtain ⟨hout, _⟩ := pack_mint_info_ok h
  exact ⟨mt, cur, unpack_mint_info_ok hmt, by simpa using hmi, ok_or_ok hcur,
    by cases u2; exact h2, hout⟩

theorem process_set_freeze_authority_ok {pid : Pubkey}
    {mint_info authority_info : RecordRef} {signer_accounts : List RecordRef}
    {new_authority : Option Pubkey} {out : RecData}
    (h : process_set_freeze_authority pid mint_info authority_info
      signer_accounts new_authority = .ok out) :
    ∃ mt current,
      mint_info.data = .mint mt ∧ mt.is_initialized = true ∧
      mt.freeze_authority = some current ∧
      validate_authority pid current authority_info signer_accounts = .ok () ∧
      out = .mint { mt with freeze_authority := new_authority } := by
  unfold process_set_freeze_authority at h
  obtain ⟨u1, h1, h⟩ := except_bind_ok h
  obtain ⟨mt, hmt, h⟩ := except_bind_ok h
  obtain ⟨hmi, h⟩ := guardb_bind_ok h
  obtain ⟨cur, hcur, h⟩ := except_bind_ok h
  obtain ⟨u2, h2, h⟩ := except_bind_ok h
  obtain ⟨hout, _⟩ := pack_mint_info_ok h
  exact ⟨mt, cur, unpack_mint_info_ok hmt, by simpa using hmi, ok_or_ok hcur,
    by cases u2; exact h2, hout⟩

theorem process_set_account_owner_ok {pid : Pubkey}
    {account_info authority_info : RecordRef} {signer_accounts : List RecordRef}
    {new_authority : Option Pubkey} {out : RecData}
    (h : process_set_account_owner pid account_info authority_info
      signer_accounts new_authority = .ok out) :
    ∃ a new_owner,
      account_info.data = .account a ∧ a.is_initialized = true ∧
      validate_authority pid a.owner authority_info signer_accounts = .ok () ∧
      new_authority = some new_owner ∧
      out = .account { a with owner := new_owner, delegate := none,
                              delegated_amount := 0 } := by
  unfold process_set_account_owner at h
  obtain ⟨u1, h1, h⟩ := except_bind_ok h
  obtain ⟨a, ha, h⟩ := except_bind_ok h
  obtain ⟨hai, h⟩ := guardb_bind_ok h
  obtain ⟨u2, h2, h⟩ := except_bind_ok h
  obtain ⟨nw, hnw, h⟩ := except_bind_ok h
  obtain ⟨hout, _⟩ := pack_account_info_ok h
  exact ⟨a, nw, unpack_account_info_ok ha, by simpa using hai,
    by cases u2; exact h2, ok_or_ok hnw, hout⟩

theorem process_set_close_authority_ok {pid : Pubkey}
    {account_info authority_info : RecordRef} {signer_accounts : List RecordRef}
    {new_authority : Option Pubkey} {out : RecData}
    (h : process_set_close_authority pid account_info authority_info
      signer_accounts new_authority = .ok out) :
    ∃ a,
      account_info.data = .account a ∧ a.is_initialized = true ∧
      validate_authority pid
        (match a.close_authority with
         | some x => x
         | none => a.owner) authority_info signer_accounts = .ok () ∧
      out = .account { a with close_authority := new_authority } := by
  unfold process_set_close_authority at h
  obtain ⟨u1, h1, h⟩ := except_bind_ok h
  obtain ⟨a, ha, h⟩ := except_bind_ok h
  obtain ⟨hai, h⟩ := guardb_bind_ok h
  obtain ⟨u2, h2, h⟩ := except_bind_ok h
  obtain ⟨hout, _⟩ := pack_account_info_ok h
  exact ⟨a, unpack_account_info_ok ha, by simpa using hai,
    by cases u2; exact h2, hout⟩

theorem set_authority_compute_ok {pid : Pubkey}
    {account_info authority_info : RecordRef} {signer_accounts : List RecordRef}
    {authority_type : AuthorityType} {new_authority : Option Pubkey}
    {out : RecData}
    (h : set_authority_compute pid account_info authority_info signer_accounts
      authority_type new_authority = .ok out) :
    account_info.owner = pid ∧ account_info.is_writable = true ∧
      ((∃ mt, account_info.data = .mint mt ∧ mt.is_initialized = true ∧
          ∃ mt', out = .mint mt' ∧ mt'.supply = mt.supply ∧
            mt'.is_initialized = true) ∨
        (∃ a, account_info.data = .account a ∧ a.is_initialized = true ∧
          ∃ a', out = .account a' ∧ a'.amount = a.amount ∧ a'.mint = a.mint ∧
            a'.state = a.state)) := by
  unfold set_authority_compute at h
  obtain ⟨u1, h1, h⟩ := except_bind_ok h
  obtain ⟨u2, h2, h⟩ := except_bind_ok h
  refine ⟨assert_owned_by_ok h1, assert_writable_ok h2, ?_⟩
  cases authority_type with
  | MintTokens =>
    obtain ⟨mt, cur, hd, hi, _, _, hout⟩ := process_set_mint_authority_ok h
    exact Or.inl ⟨mt, hd, hi, _, hout, rfl, hi⟩
  | FreezeAccount =>
    obtain ⟨mt, cur, hd, hi, _, _, hout⟩ := process_set_freeze_authority_ok h
    exact Or.inl ⟨mt, hd, hi, _, hout, rfl, hi⟩
  | AccountOwner =>
    obtain ⟨a, nw, hd, hi, _, _, hout⟩ := process_set_account_owner_ok h
    exact Or.inr ⟨a, hd, hi, _, hout, rfl, rfl, rfl⟩
  | CloseAccount =>
    obtain ⟨a, hd, hi, _, hout⟩ := process_set_close_authority_ok h
    exact Or.inr ⟨a, hd, hi, _, hout, rfl, rfl, rfl⟩

theorem initialize_mint_compute_ok {pid : Pubkey} {rent : RentOracle}
    {mint_info rent_info : RecordRef} {decimals : Nat} {mint_authority : Pubkey}
    {freeze_authority : Option Pubkey} {out : RecData}
    (h : initialize_mint_compute pid rent mint_info rent_info decimals
      mint_authority freeze_authority = .ok out) :
    ∃ mt0,
      rent_info.data = .sysvarRent ∧ mint_info.owner = pid ∧
      mint_info.is_writable = true ∧ mint_info.data = .mint mt0 ∧
      mt0.is_initialized = false ∧
      out = .mint { mint_authority := some mint_authority, supply := 0,
                    decimals := decimals, is_initialized := true,
                    freeze_authority := freeze_authority } := by
  unfold initialize_mint_compute at h
  obtain ⟨u1, h1, h⟩ := except_bind_ok h
  obtain ⟨u2, h2, h⟩ := except_bind_ok h
  obtain ⟨u3, h3, h⟩ := except_bind_ok h
  obtain ⟨u4, h4, h⟩ := except_bind_ok h
  obtain ⟨u5, h5, h⟩ := except_bind_ok h
  obtain ⟨mt0, hmt, h⟩ := except_bind_ok h
  obtain ⟨hni, h⟩ := guardb_bind_ok h
  obtain ⟨hout, _⟩ := pack_mint_info_ok h
  exact ⟨mt0, rent_from_account_info_ok h1, assert_owned_by_ok h2,
    assert_writable_ok h3, unpack_mint_info_ok hmt, hni, hout⟩

theorem initialize_account_compute_ok {pid : Pubkey} {rent : RentOracle}
    {account_info mint_info owner_info rent_info : RecordRef} {out : RecData}
    (h : initialize_account_compute pid rent account_info mint_info owner_info
      rent_info = .ok out) :
    ∃ mt a0,
      rent_info.data = .sysvarRent ∧ account_info.owner = pid ∧
      account_info.is_writable = true ∧ mint_info.owner = pid ∧
      mint_info.data = .mint mt ∧ mt.is_initialized = true ∧
      account_info.data = .account a0 ∧ a0.is_initialized = false ∧
      out = .account { mint := mint_info.key, owner := owner_info.key,
                       amount := 0, delegate := none, state := .Initialized,
                       is_native := none, delegated_amount := 0,
                       close_authority := none } := by
  unfold initialize_account_compute at h
  obtain ⟨u1, h1, h⟩ := except_bind_ok h
  obtain ⟨u2, h2, h⟩ := except_bind_ok h
  obtain ⟨u3, h3, h⟩ := except_bind_ok h
  obtain ⟨u4, h4, h⟩ := except_bind_ok h
  obtain ⟨u5, h5, h⟩ := except_bind_ok h
  obtain ⟨u6, h6, h⟩ := except_bind_ok h
  obtain ⟨u7, h7, h⟩ := except_bind_ok h
  obtain ⟨mt, hmt, h⟩ := except_bind_ok h
  obtain ⟨hmi, h⟩ := guardb_bind_ok h
  obtain ⟨a0, ha0, h⟩ := except_bind_ok h
  obtain ⟨hni, h⟩ := guardb_bind_ok h
  obtain ⟨hout, _⟩ := pack_account_info_ok h
  exact ⟨mt, a0, rent_from_account_info_ok h1, assert_owned_by_ok h2,
    assert_writable_ok h3, assert_owned_by_ok h6, unpack_mint_info_ok hmt,
    by simpa using hmi, unpack_account_info_ok ha0, by simpa using hni, hout⟩

theorem initialize_multisig_compute_ok {pid : Pubkey} {rent : RentOracle}
    {multisig_info rent_info : RecordRef} {signer_infos : List RecordRef}
    {m : Nat} {out : RecData}
    (h : initialize_multisig_compute pid rent multisig_info rent_info
      signer_infos m = .ok out) :
    ∃ ms0,
      rent_info.data = .sysvarRent ∧ multisig_info.owner = pid ∧
      multisig_info.is_writable = true ∧
      1 ≤ signer_infos.length ∧ signer_infos.length ≤ MAX_SIGNERS ∧
      1 ≤ m ∧ m ≤ signer_infos.length ∧
      multisig_info.data = .multisig ms0 ∧ ms0.is_initialized = false ∧
      out = .multisig { m := m, n := signer_infos.length,
                        is_initialized := true,
                        signers := signer_infos.map RecordRef.key ++
                          List.replicate (MAX_SIGNERS - signer_infos.length)
                            zeroPubkey } := by
  unfold initialize_multisig_compute at h
  obtain ⟨u1, h1, h⟩ := except_bind_ok h
  obtain ⟨u2, h2, h⟩ := except_bind_ok h
  obtain ⟨u3, h3, h⟩ := except_bind_ok h
  obtain ⟨u4, h4, h⟩ := except_bind_ok h
  obtain ⟨u5, h5, h⟩ := except_bind_ok h
  obtain ⟨hn, h⟩ := guardp_bind_ok h
  obtain ⟨hm, h⟩ := guardp_bind_ok h
  obtain ⟨ms0, hms, h⟩ := except_bind_ok h
  obtain ⟨hni, h⟩ := guardb_bind_ok h
  obtain ⟨hout, _⟩ := pack_multisig_info_ok h
  push_neg at hn hm
  exact ⟨ms0, rent_from_account_info_ok h1, assert_owned_by_ok h2,
    assert_writable_ok h3, hn.1, hn.2, hm.1, hm.2,
    (unpack_multisig_info_ok hms).1, hni, hout⟩

/-! ## Forward evaluation lemmas: a handler's exact result under its
preconditions. -/

theorem approve_compute_eval {pid : Pubkey}
    {source_info delegate_info owner_info : RecordRef}
    {signer_accounts : List RecordRef} {amount : Nat} {a : Account}
    (h1 : source_info.owner = pid) (h2 : source_info.is_writable = true)
    (h3 : source_info.data = .account a) (h4 : a.is_initialized = true)
    (h5 : validate_authority pid a.owner owner_info signer_accounts = .ok ()) :
    approve_compute pid source_info delegate_info owner_info signer_accounts
      amount =
      .ok { a with delegate := some delegate_info.key,
                   delegated_amount := amount } := by
  unfold approve_compute
  simp [assert_owned_by, assert_writable, assert_data_length,
    unpack_account_info, h1, h2, h3, h4, h5, Bind.bind, Except.bind,
    RecData.data_len, pure, Except.pure]

theorem approve_eval {pid : Pubkey}
    {source_info delegate_info owner_info : RecordRef}
    {signer_accounts : List RecordRef} {amount : Nat} {a : Account}
    (h1 : source_info.owner = pid) (h2 : source_info.is_writable = true)
    (h3 : source_info.data = .account a) (h4 : a.is_initialized = true)
    (h5 : validate_authority pid a.owner owner_info signer_accounts = .ok ()) :
    approve pid (source_info :: delegate_info :: owner_info :: signer_accounts)
      amount =
      (.ok (), [.data source_info.key
        (.account { a with delegate := some delegate_info.key,
                           delegated_amount := amount })]) := by
  simp only [approve]
  rw [approve_compute_eval h1 h2 h3 h4 h5]
  simp [pack_account_info, h3, RecData.data_len]

/-- C9: `Approve` never compares the requested amount with the source
balance: for every `amount` (no hypothesis relates it to `a.amount`), on a
program-owned, writable, initialized source whose owner authority validates,
it succeeds and sets `delegate = some(delegate record's key)` and
`delegated_amount = amount`; no hypothesis constrains the delegate record,
which is never validated, need not sign, and may equal the owner. -/
theorem approve_sets_unchecked_delegation (pid : Pubkey)
    (source_info delegate_info owner_info : RecordRef)
    (signer_accounts : List RecordRef) (amount : Nat) (a : Account)
    (h1 : source_info.owner = pid) (h2 : source_info.is_writable = true)
    (h3 : source_info.data = .account a) (h4 : a.is_initialized = true)
    (h5 : validate_authority pid a.owner owner_info signer_accounts = .ok ()) :
    approve pid (source_info :: delegate_info :: owner_info :: signer_accounts)
      amount =
      (.ok (), [.data source_info.key
        (.account { a with delegate := some delegate_info.key,
                           delegated_amount := amount })]) :=
  approve_eval h1 h2 h3 h4 h5

/-- A sample program id for concrete instances. -/
def samplePid : Pubkey := ⟨[0]⟩

/-- A sample initialized token account state (balance 5, no delegate). -/
def sampleAcct : Account :=
  { mint := ⟨[9]⟩, owner := ⟨[2]⟩, amount := 5, delegate := none,
    state := .Initialized, is_native := none, delegated_amount := 0,
    close_authority := none }

/-- The sample source record holding `sampleAcct`. -/
def sampleSourceInfo : RecordRef :=
  { key := ⟨[1]⟩, owner := samplePid, is_signer := false, is_writable := true,
    lamports := 0, data := .account sampleAcct }

/-- A sample unsigned delegate record whose key equals the owner's. -/
def sampleDelegateInfo : RecordRef :=
  { key := ⟨[2]⟩, owner := ⟨[7]⟩, is_signer := false, is_writable := false,
    lamports := 0, data := .raw 0 }

/-- The signed owner record for `sampleAcct`. -/
def sampleOwnerInfo : RecordRef :=
  { key := ⟨[2]⟩, owner := ⟨[7]⟩, is_signer := true, is_writable := false,
    lamports := 0, data := .raw 0 }

/-- Witness for C9 at a concrete input: the requested amount 1000 exceeds
the balance 5, the delegate record did not sign and its key equals the
owner's, and `Approve` still succeeds. -/
theorem approve_sets_unchecked_delegation_witness :
    approve samplePid
      (sampleSourceInfo :: sampleDelegateInfo :: sampleOwnerInfo :: []) 1000 =
      (.ok (), [.data sampleSourceInfo.key
        (.account { sampleAcct with delegate := some sampleDelegateInfo.key,
                                    delegated_amount := 1000 })]) :=
  approve_sets_unchecked_delegation samplePid sampleSourceInfo
    sampleDelegateInfo sampleOwnerInfo [] 1000 sampleAcct rfl rfl rfl rfl rfl

theorem mint_to_compute_overflow {pid : Pubkey}
    {mint_info dest_info authority_info : RecordRef}
    {signer_accounts : List RecordRef} {amount : Nat} {mt : Mint}
    {destA : Account} {ma : Pubkey}
    (h1 : mint_info.owner = pid) (h2 : mint_info.is_writable = true)
    (h3 : mint_info.data = .mint mt)
    (h4 : dest_info.owner = pid) (h5 : dest_info.is_writable = true)
    (h6 : dest_info.data = .account destA)
    (h7 : mt.is_initialized = true) (h8 : destA.is_initialized = true)
    (h9 : destA.is_frozen = false) (h10 : destA.mint = mint_info.key)
    (h11 : mt.mint_authority = some ma)
    (h12 : validate_authority pid ma authority_info signer_accounts = .ok ())
    (hov : U64_MAX < mt.supply + amount) :
    mint_to_compute pid mint_info dest_info authority_info signer_accounts
      amount = .error .Overflow := by
  have hno : ¬(mt.supply + amount ≤ U64_MAX) := by omega
  unfold mint_to_compute
  simp [assert_owned_by, assert_writable, assert_data_length,
    unpack_mint_info, unpack_account_info, ok_or, checked_add,
    h1, h2, h3, h4, h5, h6, h7, h8, h9, h10, h11, h12, hno,
    Bind.bind, Except.bind, RecData.data_len, pure, Except.pure,
    throw, throwThe, MonadExceptOf.throw]

/-- C8: no balance or supply field ever wraps.  `checked_add` yields the
exact 64-bit sum or fails with `Overflow`; `checked_sub` the exact
difference or `InsufficientFunds`; and a `MintTo` whose checks all pass but
whose supply would exceed `2^64 - 1` fails with `Overflow` and writes
nothing. -/
theorem checked_arithmetic_no_wraparound :
    (∀ a b : Nat,
      (a + b ≤ U64_MAX → checked_add a b = .ok (a + b)) ∧
      (U64_MAX < a + b → checked_add a b = .error .Overflow)) ∧
    (∀ a b : Nat,
      (b ≤ a → checked_sub a b = .ok (a - b)) ∧
      (a < b → checked_sub a b = .error .InsufficientFunds)) ∧
    (∀ (pid : Pubkey) (mint_info dest_info authority_info : RecordRef)
      (signer_accounts : List RecordRef) (amount : Nat) (mt : Mint)
      (destA : Account) (ma : Pubkey),
      mint_info.owner = pid → mint_info.is_writable = true →
      mint_info.data = .mint mt →
      dest_info.owner = pid → dest_info.is_writable = true →
      dest_info.data = .account destA →
      mt.is_initialized = true → destA.is_initialized = true →
      destA.is_frozen = false → destA.mint = mint_info.key →
      mt.mint_authority = some ma →
      validate_authority pid ma authority_info signer_accounts = .ok () →
      U64_MAX < mt.supply + amount →
      mint_to pid (mint_info :: dest_info :: authority_info :: signer_accounts)
        amount = (.error .Overflow, [])) := by
  refine ⟨?_, ?_, ?_⟩
  · intro a b
    constructor
    · intro h
      unfold checked_add
      rw [if_pos h]
    · intro h
      unfold checked_add
      rw [if_neg (by omega)]
  · intro a b
    constructor
    · intro h
      unfold checked_sub
      rw [if_pos h]
    · intro h
      unfold checked_sub
      rw [if_neg (by omega)]
  · intro pid mint_info dest_info authority_info signer_accounts amount mt destA
      ma h1 h2 h3 h4 h5 h6 h7 h8 h9 h10 h11 h12 hov
    simp only [mint_to]
    rw [mint_to_compute_overflow h1 h2 h3 h4 h5 h6 h7 h8 h9 h10 h11 h12 hov]

/-! ## C2 machinery: these handlers can never fail with `AccountFrozen`. -/

/-- Whether a result is the `AccountFrozen` error. -/
def is_frozen_err {α : Type} : Except Err α → Bool
  | .error .AccountFrozen => true
  | _ => false

theorem bind_no_frozen {α β : Type} {x : Except Err α} {f : α → Except Err β}
    (hx : is_frozen_err x = false) (hf : ∀ a, is_frozen_err (f a) = false) :
    is_frozen_err (x >>= f) = false := by
  cases x with
  | error e =>
    have hb : (Except.error e : Except Err α) >>= f = Except.error e := by
      simp [Bind.bind, Except.bind]
    rw [hb]
    cases e <;> simp_all [is_frozen_err]
  | ok a =>
    have hb : (Except.ok a : Except Err α) >>= f = f a := by
      simp [Bind.bind, Except.bind]
    rw [hb]
    exact hf a

theorem guardb_no_frozen {β : Type} {c : Bool} {e : Err}
    {k : PUnit → Except Err β} (he : e ≠ .AccountFrozen)
    (hk : ∀ u, is_frozen_err (k u) = false) :
    is_frozen_err (if c = true then (throw e : Except Err PUnit) >>= k
      else (pure PUnit.unit : Except Err PUnit) >>= k) = false := by
  cases c with
  | true =>
    rw [if_pos rfl]
    have hb : (throw e : Except Err PUnit) >>= k = Except.error e := by
      simp [throw, throwThe, MonadExceptOf.throw, Bind.bind, Except.bind]
    rw [hb]
    cases e <;> first | rfl | exact absurd rfl he
  | false =>
    rw [if_neg (by decide)]
    have hb : (pure PUnit.unit : Except Err PUnit) >>= k = k PUnit.unit := by
      simp [pure, Except.pure, Bind.bind, Except.bind]
    rw [hb]
    exact hk PUnit.unit

theorem guardp_no_frozen {β : Type} {c : Prop} [Decidable c] {e : Err}
    {k : PUnit → Except Err β} (he : e ≠ .AccountFrozen)
    (hk : ∀ u, is_frozen_err (k u) = false) :
    is_frozen_err (if c then (throw e : Except Err PUnit) >>= k
      else (pure PUnit.unit : Except Err PUnit) >>= k) = false := by
  by_cases hc : c
  · rw [if_pos hc]
    have hb : (throw e : Except Err PUnit) >>= k = Except.error e := by
      simp [throw, throwThe, MonadExceptOf.throw, Bind.bind, Except.bind]
    rw [hb]
    cases e <;> first | rfl | exact absurd rfl he
  · rw [if_neg hc]
    have hb : (pure PUnit.unit : Except Err PUnit) >>= k = k PUnit.unit := by
      simp [pure, Except.pure, Bind.bind, Except.bind]
    rw [hb]
    exact hk PUnit.unit

theorem pure_no_frozen {α : Type} (a : α) :
    is_frozen_err (pure a : Except Err α) = false := rfl

theorem assert_owned_by_no_frozen (r : RecordRef) (o : Pubkey) :
    is_frozen_err (assert_owned_by r o) = false := by
  unfold assert_owned_by
  split <;> rfl

theorem assert_writable_no_frozen (r : RecordRef) :
    is_frozen_err (assert_writable r) = false := by
  unfold assert_writable
  split <;> rfl

theorem assert_data_length_no_frozen (r : RecordRef) (n : Nat) :
    is_frozen_err (assert_data_length r n) = false := by
  unfold assert_data_length
  split <;> rfl

theorem assert_rent_exempt_no_frozen (rent : RentOracle) (r : RecordRef) :
    is_frozen_err (assert_rent_exempt rent r) = false := by
  unfold assert_rent_exempt
  split <;> rfl

theorem unpack_account_info_no_frozen (d : RecData) :
    is_frozen_err (unpack_account_info d) = false := by
  unfold unpack_account_info
  split
  · rfl
  · split <;> rfl

theorem unpack_mint_info_no_frozen (d : RecData) :
    is_frozen_err (unpack_mint_info d) = false := by
  unfold unpack_mint_info
  split
  · rfl
  · split <;> rfl

theorem unpack_multisig_info_no_frozen (d : RecData) :
    is_frozen_err (unpack_multisig_info d) = false := by
  unfold unpack_multisig_info
  split
  · rfl
  · split
    · split
      · rfl
      · split
        · rfl
        · split <;> rfl
    · rfl

theorem pack_account_info_no_frozen (d : RecData) (a : Account) :
    is_frozen_err (pack_account_info d a) = false := by
  unfold pack_account_info
  split <;> rfl

theorem pack_mint_info_no_frozen (d : RecData) (mt : Mint) :
    is_frozen_err (pack_mint_info d mt) = false := by
  unfold pack_mint_info
  split <;> rfl

theorem checked_add_no_frozen (a b : Nat) :
    is_frozen_err (checked_add a b) = false := by
  unfold checked_add
  split <;> rfl

theorem checked_sub_no_frozen (a b : Nat) :
    is_frozen_err (checked_sub a b) = false := by
  unfold checked_sub
  split <;> rfl

theorem ok_or_no_frozen {α : Type} (o : Option α) (e : Err)
    (he : e ≠ .AccountFrozen) : is_frozen_err (ok_or o e) = false := by
  unfold ok_or
  cases o with
  | some a => rfl
  | none =>
    have hb : (throw e : Except Err α) = Except.error e := by
      simp [throw, throwThe, MonadExceptOf.throw]
    rw [hb]
    cases e <;> first | rfl | exact absurd rfl he

theorem validate_single_signer_no_frozen (e : Pubkey) (r : RecordRef) :
    is_frozen_err (validate_single_signer e r) = false := by
  unfold validate_single_signer
  split
  · rfl
  · split <;> rfl

theorem foldlM_no_frozen {α β : Type} (f : β → α → Except Err β)
    (hf : ∀ c s, is_frozen_err (f c s) = false) :
    ∀ (l : List α) (acc : β), is_frozen_err (l.foldlM f acc) = false := by
  intro l
  induction l with
  | nil => intro acc; rfl
  | cons x xs ih =>
    intro acc
    rw [List.foldlM_cons]
    exact bind_no_frozen (hf acc x) ih

theorem count_valid_signers_no_frozen (ms : Multisig) (l : List RecordRef) :
    is_frozen_err (count_valid_signers ms l) = false := by
  unfold count_valid_signers
  apply foldlM_no_frozen
  intro c s
  split
  · rfl
  · split
    · split <;> rfl
    · rfl

theorem validate_multisig_no_frozen (pid e : Pubkey) (r : RecordRef)
    (l : List RecordRef) : is_frozen_err (validate_multisig pid e r l) = false := by
  unfold validate_multisig
  apply guardp_no_frozen (by simp)
  intro u1
  apply guardp_no_frozen (by simp)
  intro u2
  apply bind_no_frozen (unpack_multisig_info_no_frozen _)
  intro ms
  apply guardb_no_frozen (by simp)
  intro u3
  apply bind_no_frozen (count_valid_signers_no_frozen _ _)
  intro n
  apply guardp_no_frozen (by simp)
  intro u4
  rfl

theorem validate_authority_no_frozen (pid e : Pubkey) (r : RecordRef)
    (l : List RecordRef) : is_frozen_err (validate_authority pid e r l) = false := by
  unfold validate_authority
  split
  · exact validate_multisig_no_frozen pid e r l
  · exact validate_single_signer_no_frozen e r

theorem approve_compute_no_frozen (pid : Pubkey)
    (source_info delegate_info owner_info : RecordRef)
    (signer_accounts : List RecordRef) (amount : Nat) :
    is_frozen_err (approve_compute pid source_info delegate_info owner_info
      signer_accounts amount) = false := by
  unfold approve_compute
  apply bind_no_frozen (assert_owned_by_no_frozen _ _)
  intro u1
  apply bind_no_frozen (assert_writable_no_frozen _)
  intro u2
  apply bind_no_frozen (assert_data_length_no_frozen _ _)
  intro u3
  apply bind_no_frozen (unpack_account_info_no_frozen _)
  intro a
  apply guardb_no_frozen (by decide)
  intro u4
  apply bind_no_frozen (validate_authority_no_frozen _ _ _ _)
  intro u5
  exact pure_no_frozen _

theorem revoke_compute_no_frozen (pid : Pubkey)
    (source_info owner_info : RecordRef) (signer_accounts : List RecordRef) :
    is_frozen_err (revoke_compute pid source_info owner_info
      signer_accounts) = false := by
  unfold revoke_compute
  apply bind_no_frozen (assert_owned_by_no_frozen _ _)
  intro u1
  apply bind_no_frozen (assert_writable_no_frozen _)
  intro u2
  apply bind_no_frozen (assert_data_length_no_frozen _ _)
  intro u3
  apply bind_no_frozen (unpack_account_info_no_frozen _)
  intro a
  apply guardb_no_frozen (by decide)
  intro u4
  apply bind_no_frozen (validate_authority_no_frozen _ _ _ _)
  intro u5
  exact pure_no_frozen _

theorem close_account_compute_no_frozen (pid : Pubkey)
    (account_info dest_info authority_info : RecordRef)
    (signer_accounts : List RecordRef) :
    is_frozen_err (close_account_compute pid account_info dest_info
      authority_info signer_accounts) = false := by
  unfold close_account_compute
  apply bind_no_frozen (assert_owned_by_no_frozen _ _)
  intro u1
  apply bind_no_frozen (assert_writable_no_frozen _)
  intro u2
  apply bind_no_frozen (assert_data_length_no_frozen _ _)
  intro u3
  apply bind_no_frozen (assert_writable_no_frozen _)
  intro u4
  apply guardp_no_frozen (by decide)
  intro u5
  apply bind_no_frozen (unpack_account_info_no_frozen _)
  intro a
  apply guardb_no_frozen (by decide)
  intro u6
  apply guardp_no_frozen (by decide)
  intro u7
  apply bind_no_frozen (validate_authority_no_frozen _ _ _ _)
  intro u8
  exact checked_add_no_frozen _ _

theorem process_set_mint_authority_no_frozen (pid : Pubkey)
    (mint_info authority_info : RecordRef) (signer_accounts : List RecordRef)
    (new_authority : Option Pubkey) :
    is_frozen_err (process_set_mint_authority pid mint_info authority_info
      signer_accounts new_authority) = false := by
  unfold process_set_mint_authority
  apply bind_no_frozen (assert_data_length_no_frozen _ _)
  intro u1
  apply bind_no_frozen (unpack_mint_info_no_frozen _)
  intro mt
  apply guardb_no_frozen (by decide)
  intro u2
  apply bind_no_frozen (ok_or_no_frozen _ _ (by decide))
  intro cur
  apply bind_no_frozen (validate_authority_no_frozen _ _ _ _)
  intro u3
  exact pack_mint_info_no_frozen _ _

theorem process_set_freeze_authority_no_frozen (pid : Pubkey)
    (mint_info authority_info : RecordRef) (signer_accounts : List RecordRef)
    (new_authority : Option Pubkey) :
    is_frozen_err (process_set_freeze_authority pid mint_info authority_info
      signer_accounts new_authority) = false := by
  unfold process_set_freeze_authority
  apply bind_no_frozen (assert_data_length_no_frozen _ _)
  intro u1
  apply bind_no_frozen (unpack_mint_info_no_frozen _)
  intro mt
  apply guardb_no_frozen (by decide)
  intro u2
  apply bind_no_frozen (ok_or_no_frozen _ _ (by decide))
  intro cur
  apply bind_no_frozen (validate_authority_no_frozen _ _ _ _)
  intro u3
  exact pack_mint_info_no_frozen _ _

theorem process_set_account_owner_no_frozen (pid : Pubkey)
    (account_info authority_info : RecordRef) (signer_accounts : List RecordRef)
    (new_authority : Option Pubkey) :
    is_frozen_err (process_set_account_owner pid account_info authority_info
      signer_accounts new_authority) = false := by
  unfold process_set_account_owner
  apply bind_no_frozen (assert_data_length_no_frozen _ _)
  intro u1
  apply bind_no_frozen (unpack_account_info_no_frozen _)
  intro a
  apply guardb_no_frozen (by decide)
  intro u2
  apply bind_no_frozen (validate_authority_no_frozen _ _ _ _)
  intro u3
  apply bind_no_frozen (ok_or_no_frozen _ _ (by decide))
  intro nw
  exact pack_account_info_no_frozen _ _

theorem process_set_close_authority_no_frozen (pid : Pubkey)
    (account_info authority_info : RecordRef) (signer_accounts : List RecordRef)
    (new_authority : Option Pubkey) :
    is_frozen_err (process_set_close_authority pid account_info authority_info
      signer_accounts new_authority) = false := by
  unfold process_set_close_authority
  apply bind_no_frozen (assert_data_length_no_frozen _ _)
  intro u1
  apply bind_no_frozen (unpack_account_info_no_frozen _)
  intro a
  apply guardb_no_frozen (by decide)
  intro u2
  apply bind_no_frozen (validate_authority_no_frozen _ _ _ _)
  intro u3
  exact pack_account_info_no_frozen _ _

theorem set_authority_compute_no_frozen (pid : Pubkey)
    (account_info authority_info : RecordRef) (signer_accounts : List RecordRef)
    (authority_type : AuthorityType) (new_authority : Option Pubkey) :
    is_frozen_err (set_authority_compute pid account_info authority_info
      signer_accounts authority_type new_authority) = false := by
  unfold set_authority_compute
  apply bind_no_frozen (assert_owned_by_no_frozen _ _)
  intro u1
  apply bind_no_frozen (assert_writable_no_frozen _)
  intro u2
  cases authority_type with
  | MintTokens => exact process_set_mint_authority_no_frozen _ _ _ _ _
  | FreezeAccount => exact process_set_freeze_authority_no_frozen _ _ _ _ _
  | AccountOwner => exact process_set_account_owner_no_frozen _ _ _ _ _
  | CloseAccount => exact process_set_close_authority_no_frozen _ _ _ _ _

theorem is_frozen_err_error_cast {α β : Type} (e : Err) :
    is_frozen_err (.error e : Except Err α) =
      is_frozen_err (.error e : Except Err β) := by
  cases e <;> rfl

theorem approve_no_frozen (pid : Pubkey) (accounts : List RecordRef)
    (amount : Nat) : is_frozen_err (approve pid accounts amount).fst = false := by
  match accounts with
  | [] => rfl
  | [_] => rfl
  | [_, _] => rfl
  | s :: d :: o :: rest =>
    cases h : approve_compute pid s d o rest amount with
    | error e =>
      have hf := approve_compute_no_frozen pid s d o rest amount
      rw [h] at hf
      simp only [approve, h]
      rw [is_frozen_err_error_cast (β := Account)]
      exact hf
    | ok src =>
      cases h2 : pack_account_info s.data src with
      | error e =>
        have hf := pack_account_info_no_frozen s.data src
        rw [h2] at hf
        simp only [approve, h, h2]
        rw [is_frozen_err_error_cast (β := RecData)]
        exact hf
      | ok d1 => simp only [approve, h, h2]; rfl

theorem revoke_no_frozen (pid : Pubkey) (accounts : List RecordRef) :
    is_frozen_err (revoke pid accounts).fst = false := by
  match accounts with
  | [] => rfl
  | [_] => rfl
  | s :: o :: rest =>
    cases h : revoke_compute pid s o rest with
    | error e =>
      have hf := revoke_compute_no_frozen pid s o rest
      rw [h] at hf
      simp only [revoke, h]
      rw [is_frozen_err_error_cast (β := Account)]
      exact hf
    | ok src =>
      cases h2 : pack_account_info s.data src with
      | error e =>
        have hf := pack_account_info_no_frozen s.data src
        rw [h2] at hf
        simp only [revoke, h, h2]
        rw [is_frozen_err_error_cast (β := RecData)]
        exact hf
      | ok d1 => simp only [revoke, h, h2]; rfl

theorem close_account_no_frozen (pid : Pubkey) (accounts : List RecordRef) :
    is_frozen_err (close_account pid accounts).fst = false := by
  match accounts with
  | [] => rfl
  | [_] => rfl
  | [_, _] => rfl
  | a :: d :: au :: rest =>
    cases h : close_account_compute pid a d au rest with
    | error e =>
      have hf := close_account_compute_no_frozen pid a d au rest
      rw [h] at hf
      simp only [close_account, h]
      rw [is_frozen_err_error_cast (β := Nat)]
      exact hf
    | ok v => simp only [close_account, h]; rfl

theorem set_authority_no_frozen (pid : Pubkey) (accounts : List RecordRef)
    (authority_type : AuthorityType) (new_authority : Option Pubkey) :
    is_frozen_err (set_authority pid accounts authority_type
      new_authority).fst = false := by
  match accounts with
  | [] => rfl
  | [_] => rfl
  | a :: au :: rest =>
    cases h : set_authority_compute pid a au rest authority_type new_authority with
    | error e =>
      have hf := set_authority_compute_no_frozen pid a au rest authority_type
        new_authority
      rw [h] at hf
      simp only [set_authority, h]
      rw [is_frozen_err_error_cast (β := RecData)]
      exact hf
    | ok d1 => simp only [set_authority, h]; rfl

/-- A frozen initialized token account (balance 5, no delegate). -/
def frozenAcct : Account :=
  { mint := ⟨[9]⟩, owner := ⟨[4]⟩, amount := 5, delegate := none,
    state := .Frozen, is_native := none, delegated_amount := 0,
    close_authority := none }

/-- The program id used in the frozen-account scenario. -/
def frozenPid : Pubkey := ⟨[0]⟩

/-- The source record holding `frozenAcct`. -/
def frozenSourceInfo : RecordRef :=
  { key := ⟨[3]⟩, owner := frozenPid, is_signer := false, is_writable := true,
    lamports := 0, data := .account frozenAcct }

/-- An unsigned delegate record for the frozen-account scenario. -/
def frozenDelegateInfo : RecordRef :=
  { key := ⟨[5]⟩, owner := ⟨[7]⟩, is_signer := false, is_writable := false,
    lamports := 0, data := .raw 0 }

/-- The signed owner record for `frozenAcct`. -/
def frozenOwnerInfo : RecordRef :=
  { key := ⟨[4]⟩, owner := ⟨[7]⟩, is_signer := true, is_writable := false,
    lamports := 0, data := .raw 0 }

/-- Counterexample to C2: on a concrete account whose state is `Frozen`,
`Approve` succeeds and rewrites the account's delegation fields, so frozen
state does not forbid approve on this program. -/
theorem approve_succeeds_on_frozen_account_cex :
    frozenAcct.is_frozen = true ∧
    approve frozenPid
      (frozenSourceInfo :: frozenDelegateInfo :: frozenOwnerInfo :: []) 7 =
      (.ok (), [.data frozenSourceInfo.key
        (.account { frozenAcct with delegate := some frozenDelegateInfo.key,
                                    delegated_amount := 7 })]) :=
  ⟨rfl, approve_eval rfl rfl rfl rfl rfl⟩

/-- C2: none of `Approve`, `Revoke`, `CloseAccount`, `SetAuthority` contains
a frozen-state check: on every input each of the four handlers returns a
result whose error, if any, is never `AccountFrozen` (and, per the
counterexample, a frozen account is mutated rather than rejected). -/
theorem frozen_state_not_enforced_by_approve_revoke_close_set_authority :
    (∀ pid accounts amount,
      is_frozen_err (approve pid accounts amount).fst = false) ∧
    (∀ pid accounts, is_frozen_err (revoke pid accounts).fst = false) ∧
    (∀ pid accounts, is_frozen_err (close_account pid accounts).fst = false) ∧
    (∀ pid accounts authority_type new_authority,
      is_frozen_err (set_authority pid accounts authority_type
        new_authority).fst = false) :=
  ⟨approve_no_frozen, revoke_no_frozen, close_account_no_frozen,
    set_authority_no_frozen⟩

/-- Delegate coherence of a token account: the delegate field is populated
exactly when a positive amount is delegated. -/
def delegate_coherent (a : Account) : Prop :=
  (a.delegated_amount = 0 → a.delegate = none) ∧
  (0 < a.delegated_amount → a.delegate ≠ none)

theorem delegate_debit_coherent {a : Account} {amount : Nat}
    (hc : delegate_coherent a) (hle : amount ≤ a.delegated_amount) :
    delegate_coherent (delegate_debit a amount) := by
  unfold delegate_debit
  split
  · next hz =>
    exact ⟨fun _ => rfl, fun hp => by simp only [hz] at hp; omega⟩
  · next hz =>
    refine ⟨fun h0 => absurd h0 hz, fun _ => ?_⟩
    exact hc.2 (by omega)

theorem delegate_coherent_amount_update {a : Account} (v : Nat) :
    delegate_coherent { a with amount := v } ↔ delegate_coherent a :=
  Iff.rfl

theorem approve_compute_coherent {pid : Pubkey}
    {source_info delegate_info owner_info : RecordRef}
    {signer_accounts : List RecordRef} {amount : Nat} {src : Account}
    (hne : amount ≠ 0)
    (h : approve_compute pid source_info delegate_info owner_info
      signer_accounts amount = .ok src) : delegate_coherent src := by
  obtain ⟨a, _, _, _, _, _, heq⟩ := approve_compute_ok h
  subst heq
  exact ⟨fun h0 => absurd h0 hne, fun _ => by simp⟩

theorem revoke_compute_coherent {pid : Pubkey}
    {source_info owner_info : RecordRef} {signer_accounts : List RecordRef}
    {src : Account}
    (h : revoke_compute pid source_info owner_info signer_accounts = .ok src) :
    delegate_coherent src := by
  obtain ⟨a, _, _, _, _, _, heq⟩ := revoke_compute_ok h
  subst heq
  exact ⟨fun _ => rfl, fun hp => by simp at hp⟩

theorem transfer_compute_coherent {pid : Pubkey}
    {source_info dest_info authority_info : RecordRef}
    {signer_accounts : List RecordRef} {amount : Nat} {res : Account × Account}
    (h : transfer_compute pid source_info dest_info authority_info
      signer_accounts amount = .ok res)
    (hcs : ∀ a, source_info.data = .account a → delegate_coherent a)
    (hcd : ∀ a, dest_info.data = .account a → delegate_coherent a) :
    delegate_coherent res.1 ∧ delegate_coherent res.2 := by
  obtain ⟨srcA, destA, ud, source2, _, _, _, _, _, hsa, hda, _, _, _, _, _, _,
    _, hs2, _, heq⟩ := transfer_compute_ok h
  subst heq
  constructor
  · rw [delegate_coherent_amount_update]
    rcases hs2 with ⟨_, rfl⟩ | ⟨_, hle, rfl⟩
    · exact hcs _ hsa
    · exact delegate_debit_coherent (hcs _ hsa) hle
  · rw [delegate_coherent_amount_update]
    exact hcd destA hda

theorem burn_compute_coherent {pid : Pubkey}
    {account_info mint_info authority_info : RecordRef}
    {signer_accounts : List RecordRef} {amount : Nat} {res : Account × Mint}
    (h : burn_compute pid account_info mint_info authority_info
      signer_accounts amount = .ok res)
    (hca : ∀ a, account_info.data = .account a → delegate_coherent a) :
    delegate_coherent res.1 := by
  obtain ⟨acctA, mt, ud, account2, _, _, _, _, hacct, _, _, _, _, _, _, _,
    ha2, _, heq⟩ := burn_compute_ok h
  subst heq
  rw [delegate_coherent_amount_update]
  rcases ha2 with ⟨_, rfl⟩ | ⟨_, hle, rfl⟩
  · exact hca _ hacct
  · exact delegate_debit_coherent (hca _ hacct) hle

theorem process_set_account_owner_coherent {pid : Pubkey}
    {account_info authority_info : RecordRef} {signer_accounts : List RecordRef}
    {new_authority : Option Pubkey} {out : RecData} {a2 : Account}
    (h : process_set_account_owner pid account_info authority_info
      signer_accounts new_authority = .ok out) (hout : out = .account a2) :
    delegate_coherent a2 := by
  obtain ⟨a, nw, _, _, _, _, heq⟩ := process_set_account_owner_ok h
  subst heq
  cases hout
  exact ⟨fun _ => rfl, fun hp => by simp at hp⟩

/-- Counterexample to C3: `Approve` with amount 0 on a delegate-coherent
account succeeds and writes an account value with `delegate = some _` and
`delegated_amount = 0`, violating delegate coherence. -/
theorem approve_zero_breaks_delegate_coherence_cex :
    delegate_coherent sampleAcct ∧
    approve samplePid
      (sampleSourceInfo :: sampleDelegateInfo :: sampleOwnerInfo :: []) 0 =
      (.ok (), [.data sampleSourceInfo.key
        (.account { sampleAcct with delegate := some sampleDelegateInfo.key,
                                    delegated_amount := 0 })]) ∧
    ¬ delegate_coherent { sampleAcct with
        delegate := some sampleDelegateInfo.key, delegated_amount := 0 } :=
  ⟨⟨fun _ => rfl, fun hp => by simp [sampleAcct] at hp⟩,
    approve_eval rfl rfl rfl rfl rfl,
    fun hc => by
      have h := hc.1 rfl
      simp [sampleDelegateInfo] at h⟩

/-- C3 (amended): delegate coherence is established or preserved by the
delegation-touching operations, provided every `Approve` carries a positive
amount: `Approve` with nonzero amount and `Revoke` produce coherent source
accounts, `Transfer` and `Burn` (owner or delegate path) preserve coherence
of the accounts they rewrite, and `SetAuthority(AccountOwner)` clears the
delegation and so always writes a coherent account. -/
theorem delegate_coherence_of_delegation_operations :
    (∀ pid source_info delegate_info owner_info signer_accounts amount src,
      amount ≠ 0 →
      approve_compute pid source_info delegate_info owner_info signer_accounts
        amount = .ok src → delegate_coherent src) ∧
    (∀ pid source_info owner_info signer_accounts src,
      revoke_compute pid source_info owner_info signer_accounts = .ok src →
      delegate_coherent src) ∧
    (∀ pid source_info dest_info authority_info signer_accounts amount res,
      transfer_compute pid source_info dest_info authority_info signer_accounts
        amount = .ok res →
      (∀ a, source_info.data = .account a → delegate_coherent a) →
      (∀ a, dest_info.data = .account a → delegate_coherent a) →
      delegate_coherent res.1 ∧ delegate_coherent res.2) ∧
    (∀ pid account_info mint_info authority_info signer_accounts amount res,
      burn_compute pid account_info mint_info authority_info signer_accounts
        amount = .ok res →
      (∀ a, account_info.data = .account a → delegate_coherent a) →
      delegate_coherent res.1) ∧
    (∀ pid account_info authority_info signer_accounts new_authority out a2,
      process_set_account_owner pid account_info authority_info signer_accounts
        new_authority = .ok out → out = .account a2 → delegate_coherent a2) :=
  ⟨fun _ _ _ _ _ _ _ hne h => approve_compute_coherent hne h,
    fun _ _ _ _ _ h => revoke_compute_coherent h,
    fun _ _ _ _ _ _ _ h hcs hcd => transfer_compute_coherent h hcs hcd,
    fun _ _ _ _ _ _ _ h hca => burn_compute_coherent h hca,
    fun _ _ _ _ _ _ _ h hout => process_set_account_owner_coherent h hout⟩

/-! ## Multisig signer counting, characterised. -/

theorem except_ok_bind {α β : Type} (a : α) (f : α → Except Err β) :
    (Except.ok a : Except Err α) >>= f = f a := rfl

theorem except_error_bind {α β : Type} (e : Err) (f : α → Except Err β) :
    (Except.error e : Except Err α) >>= f = .error e := rfl

/-- Whether one trailing record is counted by the `validate_multisig` loop:
it is marked signed and its key appears among the first `n` enrolled
slots. -/
def signer_matches (ms : Multisig) (signer_account : RecordRef) : Bool :=
  signer_account.is_signer &&
    (ms.signers.take ms.n).any
      (fun stored_signer => stored_signer = signer_account.key)

/-- The number of trailing records counted by the loop (duplicates each
count). -/
def match_count (ms : Multisig) (signer_accounts : List RecordRef) : Nat :=
  (signer_accounts.filter (fun signer_account =>
    signer_matches ms signer_account)).length

theorem match_count_cons (ms : Multisig) (s : RecordRef) (rest : List RecordRef) :
    match_count ms (s :: rest) =
      (if signer_matches ms s then 1 else 0) + match_count ms rest := by
  unfold match_count
  rw [List.filter_cons]
  split
  · simp [List.length_cons, Nat.add_comm]
  · simp

theorem count_valid_signers_go (ms : Multisig) :
    ∀ (l : List RecordRef) (c : Nat), c ≤ 255 →
    (l.foldlM (fun valid_signer_count signer_account =>
      if !signer_account.is_signer then .ok valid_signer_count
      else if (ms.signers.take ms.n).any
          (fun stored_signer => stored_signer = signer_account.key) then
        if valid_signer_count + 1 ≤ 255 then .ok (valid_signer_count + 1)
        else .error .Overflow
      else .ok valid_signer_count) c : Except Err Nat) =
    (if c + match_count ms l ≤ 255 then .ok (c + match_count ms l)
     else .error .Overflow) := by
  intro l
  induction l with
  | nil =>
    intro c hc
    simp only [List.foldlM_nil, match_count, List.filter_nil, List.length_nil,
      Nat.add_zero]
    rw [if_pos hc]
    rfl
  | cons s rest ih =>
    intro c hc
    rw [List.foldlM_cons, match_count_cons]
    by_cases hs : s.is_signer
    · rw [if_neg (by simp [hs])]
      by_cases ha : (ms.signers.take ms.n).any
          (fun stored_signer => stored_signer = s.key)
      · rw [if_pos ha]
        have hm : signer_matches ms s = true := by
          simp [signer_matches, hs, ha]
        rw [hm, if_pos rfl]
        by_cases hcc : c + 1 ≤ 255
        · rw [if_pos hcc, except_ok_bind, ih (c + 1) hcc]
          have harith : c + 1 + match_count ms rest =
              c + (1 + match_count ms rest) := by omega
          rw [harith]
        · rw [if_neg hcc, except_error_bind,
            if_neg (by omega)]
      · rw [if_neg ha]
        have hm : signer_matches ms s = false := by
          simp [signer_matches, ha]
        rw [hm, except_ok_bind, ih c hc]
        simp
    · rw [if_pos (by simp [hs])]
      have hm : signer_matches ms s = false := by
        simp [signer_matches, hs]
      rw [hm, except_ok_bind, ih c hc]
      simp

theorem count_valid_signers_spec (ms : Multisig) (l : List RecordRef) :
    count_valid_signers ms l =
      (if match_count ms l ≤ 255 then .ok (match_count ms l)
       else .error .Overflow) := by
  unfold count_valid_signers
  have h := count_valid_signers_go ms l 0 (by omega)
  simpa using h

theorem validate_multisig_ok_iff (pid expected_authority : Pubkey)
    (multisig_info : RecordRef) (signer_accounts : List RecordRef) :
    validate_multisig pid expected_authority multisig_info signer_accounts =
        .ok () ↔
      multisig_info.key = expected_authority ∧
      multisig_info.owner = pid ∧
      ∃ ms, unpack_multisig_info multisig_info.data = .ok ms ∧
        ms.is_initialized = true ∧
        match_count ms signer_accounts ≤ 255 ∧
        ms.m ≤ match_count ms signer_accounts := by
  constructor
  · intro h
    unfold validate_multisig at h
    obtain ⟨hk, h⟩ := guardp_bind_ok h
    obtain ⟨ho, h⟩ := guardp_bind_ok h
    obtain ⟨ms, hms, h⟩ := except_bind_ok h
    obtain ⟨hini, h⟩ := guardb_bind_ok h
    obtain ⟨cnt, hcnt, h⟩ := except_bind_ok h
    obtain ⟨hm, h⟩ := guardp_bind_ok h
    rw [count_valid_signers_spec] at hcnt
    split at hcnt
    · next hle =>
      cases hcnt
      exact ⟨not_not.mp hk, not_not.mp ho, ms, hms, by simpa using hini,
        hle, by omega⟩
    · exact absurd hcnt (by simp)
  · rintro ⟨hk, ho, ms, hms, hini, hle, hm⟩
    unfold validate_multisig
    have hml : ¬ (match_count ms signer_accounts < ms.m) := by omega
    simp [hk, ho, hms, hini, count_valid_signers_spec, hle, hml,
      Bind.bind, Except.bind, pure, Except.pure]

theorem validate_multisig_not_enough {pid expected_authority : Pubkey}
    {multisig_info : RecordRef} {signer_accounts : List RecordRef}
    {ms : Multisig} (hk : multisig_info.key = expected_authority)
    (ho : multisig_info.owner = pid)
    (hms : unpack_multisig_info multisig_info.data = .ok ms)
    (hini : ms.is_initialized = true)
    (hle : match_count ms signer_accounts ≤ 255)
    (hlt : match_count ms signer_accounts < ms.m) :
    validate_multisig pid expected_authority multisig_info signer_accounts =
      .error .NotEnoughSigners := by
  unfold validate_multisig
  simp [hk, ho, hms, hini, count_valid_signers_spec, hle, hlt,
    Bind.bind, Except.bind, pure, Except.pure,
    throw, throwThe, MonadExceptOf.throw]

theorem validate_multisig_overflow {pid expected_authority : Pubkey}
    {multisig_info : RecordRef} {signer_accounts : List RecordRef}
    {ms : Multisig} (hk : multisig_info.key = expected_authority)
    (ho : multisig_info.owner = pid)
    (hms : unpack_multisig_info multisig_info.data = .ok ms)
    (hini : ms.is_initialized = true)
    (hgt : 255 < match_count ms signer_accounts) :
    validate_multisig pid expected_authority multisig_info signer_accounts =
      .error .Overflow := by
  unfold validate_multisig
  have hcnt : count_valid_signers ms signer_accounts = .error .Overflow := by
    rw [count_valid_signers_spec, if_neg (by omega)]
  simp [hk, ho, hms, hini, hcnt, Bind.bind, Except.bind,
    pure, Except.pure, throw, throwThe, MonadExceptOf.throw]

theorem match_count_replicate_matching (ms : Multisig) (s : RecordRef)
    (k : Nat) (hm : signer_matches ms s = true) :
    match_count ms (List.replicate k s) = k := by
  induction k with
  | zero => rfl
  | succ n ih =>
    rw [List.replicate_succ, match_count_cons, hm, if_pos rfl, ih]
    omega

/-- The program id of the multisig overflow scenario. -/
def msigPid : Pubkey := ⟨[6]⟩

/-- The key enrolled in slot 0 of the sample multisig. -/
def msigSignerKey : Pubkey := ⟨[1]⟩

/-- A 1-of-1 initialized multisig whose only enrolled signer is
`msigSignerKey`. -/
def msX : Multisig :=
  { m := 1, n := 1, is_initialized := true,
    signers := msigSignerKey :: List.replicate 10 zeroPubkey }

/-- The record holding `msX`, owned by the program. -/
def msigInfo : RecordRef :=
  { key := ⟨[8]⟩, owner := msigPid, is_signer := false, is_writable := false,
    lamports := 0, data := .multisig msX }

/-- A signed record whose key is the enrolled signer. -/
def msigSigner : RecordRef :=
  { key := msigSignerKey, owner := ⟨[7]⟩, is_signer := true,
    is_writable := false, lamports := 0, data := .raw 0 }

/-- Counterexample to C5: 256 copies of one enrolled, signed record give a
count far above `m = 1`, yet validation fails with `Overflow` (the `u8`
counter saturates), so "succeeds exactly when the count is at least m" is
wrong without the 255 cap. -/
theorem multisig_256_matching_signers_overflow_cex :
    msX.m ≤ match_count msX (List.replicate 256 msigSigner) ∧
    validate_multisig msigPid ⟨[8]⟩ msigInfo (List.replicate 256 msigSigner) =
      .error .Overflow := by
  have hmatch : signer_matches msX msigSigner = true := by decide
  have hmc : match_count msX (List.replicate 256 msigSigner) = 256 :=
    match_count_replicate_matching _ _ _ hmatch
  constructor
  · rw [hmc]
    decide
  · have hms : unpack_multisig_info msigInfo.data = .ok msX := by rfl
    exact validate_multisig_overflow rfl rfl hms rfl (by rw [hmc]; omega)

/-- C5 (amended): the counting loop counts exactly the trailing records that
signed and whose key appears among the first `n` enrolled slots (duplicates
each count), but through a `u8` counter: it yields the count when it is at
most 255 and fails with `Overflow` otherwise.  `validate_multisig` succeeds
exactly when the key matches, the record is program-owned, the decoded
multisig is initialized, and the count is defined (at most 255) and at
least `m`; a defined count below `m` yields `NotEnoughSigners`. -/
theorem multisig_validation_counts_matching_signers :
    (∀ ms signer_accounts, count_valid_signers ms signer_accounts =
      (if match_count ms signer_accounts ≤ 255
       then .ok (match_count ms signer_accounts)
       else .error .Overflow)) ∧
    (∀ pid expected_authority multisig_info signer_accounts,
      validate_multisig pid expected_authority multisig_info signer_accounts =
          .ok () ↔
        multisig_info.key = expected_authority ∧
        multisig_info.owner = pid ∧
        ∃ ms, unpack_multisig_info multisig_info.data = .ok ms ∧
          ms.is_initialized = true ∧
          match_count ms signer_accounts ≤ 255 ∧
          ms.m ≤ match_count ms signer_accounts) ∧
    (∀ pid expected_authority multisig_info signer_accounts ms,
      multisig_info.key = expected_authority →
      multisig_info.owner = pid →
      unpack_multisig_info multisig_info.data = .ok ms →
      ms.is_initialized = true →
      match_count ms signer_accounts ≤ 255 →
      match_count ms signer_accounts < ms.m →
      validate_multisig pid expected_authority multisig_info signer_accounts =
        .error .NotEnoughSigners) ∧
    (∀ ms s k, signer_matches ms s = true →
      match_count ms (List.replicate k s) = k) :=
  ⟨count_valid_signers_spec, validate_multisig_ok_iff,
    fun _ _ _ _ _ hk ho hms hini hle hlt =>
      validate_multisig_not_enough hk ho hms hini hle hlt,
    fun _ _ k hm => match_count_replicate_matching _ _ k hm⟩

/-! ## The owner-or-delegate chooser and single-signer errors. -/

theorem validate_single_signer_unsigned {expected_authority : Pubkey}
    {authority_info : RecordRef} (hk : authority_info.key = expected_authority)
    (hs : authority_info.is_signer = false) :
    validate_single_signer expected_authority authority_info =
      .error .MissingRequiredSignature := by
  unfold validate_single_signer
  rw [if_neg (by simp [hk]), if_pos (by simp [hs])]

theorem validate_authority_single {pid expected_authority : Pubkey}
    {authority_info : RecordRef} {signer_accounts : List RecordRef}
    (hns : ¬ (authority_info.data.data_len = Multisig.LEN ∧
      authority_info.owner = pid)) :
    validate_authority pid expected_authority authority_info signer_accounts =
      validate_single_signer expected_authority authority_info := by
  unfold validate_authority
  rw [if_neg hns]

theorem validate_owner_or_delegate_collapses {pid account_owner : Pubkey}
    {account_delegate : Option Pubkey} {authority_info : RecordRef}
    {signer_accounts : List RecordRef}
    (how : exceptIsOk (validate_authority pid account_owner authority_info
      signer_accounts) = false)
    (hdel : ∀ d, account_delegate = some d →
      exceptIsOk (validate_authority pid d authority_info signer_accounts) =
        false) :
    validate_owner_or_delegate pid account_owner account_delegate
      authority_info signer_accounts = .error .InvalidAuthority := by
  unfold validate_owner_or_delegate
  rw [how, if_neg (by simp)]
  match hde : account_delegate with
  | none => rfl
  | some d =>
    have h := hdel d rfl
    simp [h]

theorem validate_owner_or_delegate_unsigned_owner {pid : Pubkey}
    {account_owner : Pubkey} {authority_info : RecordRef}
    {signer_accounts : List RecordRef}
    (hns : ¬ (authority_info.data.data_len = Multisig.LEN ∧
      authority_info.owner = pid))
    (hk : authority_info.key = account_owner)
    (hs : authority_info.is_signer = false) :
    validate_owner_or_delegate pid account_owner none authority_info
      signer_accounts = .error .InvalidAuthority := by
  apply validate_owner_or_delegate_collapses
  · rw [validate_authority_single hns, validate_single_signer_unsigned hk hs]
    rfl
  · intro d hd
    cases hd

theorem transfer_compute_auth_eval {pid : Pubkey}
    {source_info dest_info authority_info : RecordRef}
    {signer_accounts : List RecordRef} {amount : Nat} {srcA destA : Account}
    {e : Err}
    (h1 : source_info.owner = pid) (h2 : source_info.is_writable = true)
    (h3 : dest_info.owner = pid) (h4 : dest_info.is_writable = true)
    (h5 : source_info.key ≠ dest_info.key)
    (h6 : source_info.data = .account srcA) (h7 : dest_info.data = .account destA)
    (h8 : srcA.is_initialized = true) (h9 : destA.is_initialized = true)
    (h10 : srcA.is_frozen = false) (h11 : destA.is_frozen = false)
    (h12 : srcA.mint = destA.mint) (h13 : ¬ srcA.amount < amount)
    (hval : validate_owner_or_delegate pid srcA.owner srcA.delegate
      authority_info signer_accounts = .error e) :
    transfer_compute pid source_info dest_info authority_info signer_accounts
      amount = .error e := by
  unfold transfer_compute
  simp [assert_owned_by, assert_writable, assert_data_length,
    unpack_account_info, h1, h2, h3, h4, h5, h6, h7, h8, h9, h10, h11, h12,
    h13, hval, Bind.bind, Except.bind, RecData.data_len, pure, Except.pure,
    throw, throwThe, MonadExceptOf.throw]

theorem mint_to_compute_auth_eval {pid : Pubkey}
    {mint_info dest_info authority_info : RecordRef}
    {signer_accounts : List RecordRef} {amount : Nat} {mt : Mint} {da : Account}
    {auth : Pubkey} {e : Err}
    (h1 : mint_info.owner = pid) (h2 : mint_info.is_writable = true)
    (h3 : dest_info.owner = pid) (h4 : dest_info.is_writable = true)
    (h5 : mint_info.data = .mint mt) (h6 : dest_info.data = .account da)
    (h7 : mt.is_initialized = true) (h8 : da.is_initialized = true)
    (h9 : da.is_frozen = false) (h10 : da.mint = mint_info.key)
    (h11 : mt.mint_authority = some auth)
    (hval : validate_authority pid auth authority_info signer_accounts =
      .error e) :
    mint_to_compute pid mint_info dest_info authority_info signer_accounts
      amount = .error e := by
  unfold mint_to_compute
  simp [assert_owned_by, assert_writable, assert_data_length,
    unpack_mint_info, unpack_account_info, ok_or, h1, h2, h3, h4, h5, h6,
    h7, h8, h9, h10, h11, hval, Bind.bind, Except.bind, RecData.data_len,
    pure, Except.pure, throw, throwThe, MonadExceptOf.throw]

theorem transfer_unsigned_owner_invalid_authority {pid : Pubkey}
    {source_info dest_info authority_info : RecordRef}
    {signer_accounts : List RecordRef} {amount : Nat} {srcA destA : Account}
    (h1 : source_info.owner = pid) (h2 : source_info.is_writable = true)
    (h3 : dest_info.owner = pid) (h4 : dest_info.is_writable = true)
    (h5 : source_info.key ≠ dest_info.key)
    (h6 : source_info.data = .account srcA) (h7 : dest_info.data = .account destA)
    (h8 : srcA.is_initialized = true) (h9 : destA.is_initialized = true)
    (h10 : srcA.is_frozen = false) (h11 : destA.is_frozen = false)
    (h12 : srcA.mint = destA.mint) (h13 : ¬ srcA.amount < amount)
    (h14 : srcA.delegate = none)
    (hns : ¬ (authority_info.data.data_len = Multisig.LEN ∧
      authority_info.owner = pid))
    (hk : authority_info.key = srcA.owner)
    (hs : authority_info.is_signer = false) :
    transfer pid (source_info :: dest_info :: authority_info :: signer_accounts)
      amount = (.error .InvalidAuthority, []) := by
  have hval : validate_owner_or_delegate pid srcA.owner srcA.delegate
      authority_info signer_accounts = .error .InvalidAuthority := by
    rw [h14]
    exact validate_owner_or_delegate_unsigned_owner hns hk hs
  simp only [transfer]
  rw [transfer_compute_auth_eval h1 h2 h3 h4 h5 h6 h7 h8 h9 h10 h11 h12 h13
    hval]

theorem mint_to_unsigned_authority_missing_signature {pid : Pubkey}
    {mint_info dest_info authority_info : RecordRef}
    {signer_accounts : List RecordRef} {amount : Nat} {mt : Mint} {da : Account}
    {auth : Pubkey}
    (h1 : mint_info.owner = pid) (h2 : mint_info.is_writable = true)
    (h3 : dest_info.owner = pid) (h4 : dest_info.is_writable = true)
    (h5 : mint_info.data = .mint mt) (h6 : dest_info.data = .account da)
    (h7 : mt.is_initialized = true) (h8 : da.is_initialized = true)
    (h9 : da.is_frozen = false) (h10 : da.mint = mint_info.key)
    (h11 : mt.mint_authority = some auth)
    (hns : ¬ (authority_info.data.data_len = Multisig.LEN ∧
      authority_info.owner = pid))
    (hk : authority_info.key = auth)
    (hs : authority_info.is_signer = false) :
    mint_to pid (mint_info :: dest_info :: authority_info :: signer_accounts)
      amount = (.error .MissingRequiredSignature, []) := by
  have hval : validate_authority pid auth authority_info signer_accounts =
      .error .MissingRequiredSignature := by
    rw [validate_authority_single hns]
    exact validate_single_signer_unsigned hk hs
  simp only [mint_to]
  rw [mint_to_compute_auth_eval h1 h2 h3 h4 h5 h6 h7 h8 h9 h10 h11 hval]

/-- C10: the owner-or-delegate chooser collapses every inner failure into
`InvalidAuthority`: with a matching-key, unsigned, non-multisig-shaped
authority record the single-signer validator returns
`MissingRequiredSignature`, yet `validate_owner_or_delegate` (and hence
`Transfer`) returns `InvalidAuthority`, whereas `MintTo`, which validates
the single expected authority directly, returns `MissingRequiredSignature`
in the same matching-key-unsigned case. -/
theorem owner_or_delegate_collapses_to_invalid_authority :
    (∀ expected_authority (authority_info : RecordRef),
      authority_info.key = expected_authority →
      authority_info.is_signer = false →
      validate_single_signer expected_authority authority_info =
        .error .MissingRequiredSignature) ∧
    (∀ pid account_owner account_delegate (authority_info : RecordRef)
        signer_accounts,
      exceptIsOk (validate_authority pid account_owner authority_info
        signer_accounts) = false →
      (∀ d, account_delegate = some d →
        exceptIsOk (validate_authority pid d authority_info signer_accounts) =
          false) →
      validate_owner_or_delegate pid account_owner account_delegate
        authority_info signer_accounts = .error .InvalidAuthority) ∧
    (∀ pid source_info dest_info authority_info signer_accounts amount
        srcA destA,
      source_info.owner = pid → source_info.is_writable = true →
      dest_info.owner = pid → dest_info.is_writable = true →
      source_info.key ≠ dest_info.key →
      source_info.data = .account srcA → dest_info.data = .account destA →
      srcA.is_initialized = true → destA.is_initialized = true →
      srcA.is_frozen = false → destA.is_frozen = false →
      srcA.mint = destA.mint → ¬ srcA.amount < amount →
      srcA.delegate = none →
      ¬ (authority_info.data.data_len = Multisig.LEN ∧
        authority_info.owner = pid) →
      authority_info.key = srcA.owner →
      authority_info.is_signer = false →
      transfer pid
        (source_info :: dest_info :: authority_info :: signer_accounts)
        amount = (.error .InvalidAuthority, [])) ∧
    (∀ pid mint_info dest_info authority_info signer_accounts amount mt da
        auth,
      mint_info.owner = pid → mint_info.is_writable = true →
      dest_info.owner = pid → dest_info.is_writable = true →
      mint_info.data = .mint mt → dest_info.data = .account da →
      mt.is_initialized = true → da.is_initialized = true →
      da.is_frozen = false → da.mint = mint_info.key →
      mt.mint_authority = some auth →
      ¬ (authority_info.data.data_len = Multisig.LEN ∧
        authority_info.owner = pid) →
      authority_info.key = auth →
      authority_info.is_signer = false →
      mint_to pid (mint_info :: dest_info :: authority_info :: signer_accounts)
        amount = (.error .MissingRequiredSignature, [])) :=
  ⟨fun _ _ hk hs => validate_single_signer_unsigned hk hs,
    fun _ _ _ _ _ how hdel =>
      validate_owner_or_delegate_collapses how hdel,
    fun _ _ _ _ _ _ _ _ h1 h2 h3 h4 h5 h6 h7 h8 h9 h10 h11 h12 h13 h14 hns
        hk hs =>
      transfer_unsigned_owner_invalid_authority h1 h2 h3 h4 h5 h6 h7 h8 h9
        h10 h11 h12 h13 h14 hns hk hs,
    fun _ _ _ _ _ _ _ _ _ h1 h2 h3 h4 h5 h6 h7 h8 h9 h10 h11 hns hk hs =>
      mint_to_unsigned_authority_missing_signature h1 h2 h3 h4 h5 h6 h7 h8
        h9 h10 h11 hns hk hs⟩

/-- Counterexample to C6's "fully symmetric" direction: the byte string
`[1, 0]` is accepted by the instruction decoder (trailing bytes are
ignored), but re-encoding the decoded instruction yields `[1]`, not
`[1, 0]`. -/
theorem instruction_codec_not_fully_symmetric_cex :
    TokenInstruction.unpack [1, 0] = .ok .InitializeAccount ∧
    TokenInstruction.pack .InitializeAccount ≠ [1, 0] :=
  ⟨rfl, by decide⟩

/-- C6 (amended): the codecs are round-trip correct on values —
`unpack (pack i) = i` for every well-formed instruction and
`unpack (pack r) = r` for every well-formed `Mint`, `Account` and
`Multisig` — and the instruction codec is symmetric only on exact-length
inputs: `pack (unpack x) = x` for byte strings of exactly the encoded
length (longer accepted inputs re-encode shorter, per the
counterexample). -/
theorem codec_round_trip_laws :
    (∀ i : TokenInstruction, i.wf →
      TokenInstruction.unpack (TokenInstruction.pack i) = .ok i) ∧
    (∀ mt : Mint, mt.wf → Mint.unpack (Mint.pack mt) = .ok mt) ∧
    (∀ a : Account, a.wf → Account.unpack (Account.pack a) = .ok a) ∧
    (∀ ms : Multisig, ms.wf → Multisig.unpack (Multisig.pack ms) = .ok ms) ∧
    (∀ (x : List Nat), ValidBytes x → ∀ i : TokenInstruction,
      TokenInstruction.unpack x = .ok i →
      x.length = (TokenInstruction.pack i).length →
      TokenInstruction.pack i = x) :=
  ⟨TokenInstruction.unpack_pack, Mint.unpack_pack_mint, Account.unpack_pack_account,
    Multisig.unpack_pack_multisig, TokenInstruction.pack_unpack_exact⟩

theorem delegate_debit_amount (a : Account) (amount : Nat) :
    (delegate_debit a amount).amount = a.amount := by
  unfold delegate_debit
  split <;> rfl

theorem handle_delegate_debit_eval {a : Account} {amount : Nat}
    (h : amount ≤ a.delegated_amount) :
    handle_delegate_debit a amount true = .ok (delegate_debit a amount) := by
  unfold handle_delegate_debit delegate_debit
  rw [if_pos rfl]
  have hnl : ¬ a.delegated_amount < amount := by omega
  simp [hnl, checked_sub, h, Bind.bind, Except.bind, pure, Except.pure,
    throw, throwThe, MonadExceptOf.throw]
  split <;> rfl

theorem transfer_compute_eval {pid : Pubkey}
    {source_info dest_info authority_info : RecordRef}
    {signer_accounts : List RecordRef} {amount : Nat} {srcA destA src2 : Account}
    {ud : Bool}
    (h1 : source_info.owner = pid) (h2 : source_info.is_writable = true)
    (h3 : dest_info.owner = pid) (h4 : dest_info.is_writable = true)
    (h5 : source_info.key ≠ dest_info.key)
    (h6 : source_info.data = .account srcA) (h7 : dest_info.data = .account destA)
    (h8 : srcA.is_initialized = true) (h9 : destA.is_initialized = true)
    (h10 : srcA.is_frozen = false) (h11 : destA.is_frozen = false)
    (h12 : srcA.mint = destA.mint) (h13 : ¬ srcA.amount < amount)
    (hval : validate_owner_or_delegate pid srcA.owner srcA.delegate
      authority_info signer_accounts = .ok ud)
    (hdd : handle_delegate_debit srcA amount ud = .ok src2)
    (hsub : amount ≤ src2.amount)
    (hovf : destA.amount + amount ≤ U64_MAX) :
    transfer_compute pid source_info dest_info authority_info signer_accounts
      amount =
      .ok ({ src2 with amount := src2.amount - amount },
        { destA with amount := destA.amount + amount }) := by
  unfold transfer_compute
  simp [assert_owned_by, assert_writable, assert_data_length,
    unpack_account_info, checked_sub, checked_add, h1, h2, h3, h4, h5, h6, h7,
    h8, h9, h10, h11, h12, h13, hval, hdd, hsub, hovf, Bind.bind, Except.bind,
    RecData.data_len, pure, Except.pure, throw, throwThe, MonadExceptOf.throw]

theorem transfer_eval {pid : Pubkey}
    {source_info dest_info authority_info : RecordRef}
    {signer_accounts : List RecordRef} {amount : Nat} {srcA destA src2 : Account}
    {ud : Bool}
    (h1 : source_info.owner = pid) (h2 : source_info.is_writable = true)
    (h3 : dest_info.owner = pid) (h4 : dest_info.is_writable = true)
    (h5 : source_info.key ≠ dest_info.key)
    (h6 : source_info.data = .account srcA) (h7 : dest_info.data = .account destA)
    (h8 : srcA.is_initialized = true) (h9 : destA.is_initialized = true)
    (h10 : srcA.is_frozen = false) (h11 : destA.is_frozen = false)
    (h12 : srcA.mint = destA.mint) (h13 : ¬ srcA.amount < amount)
    (hval : validate_owner_or_delegate pid srcA.owner srcA.delegate
      authority_info signer_accounts = .ok ud)
    (hdd : handle_delegate_debit srcA amount ud = .ok src2)
    (hsub : amount ≤ src2.amount)
    (hovf : destA.amount + amount ≤ U64_MAX) :
    transfer pid (source_info :: dest_info :: authority_info :: signer_accounts)
      amount =
      (.ok (), [.data source_info.key
          (.account { src2 with amount := src2.amount - amount }),
        .data dest_info.key
          (.account { destA with amount := destA.amount + amount })]) := by
  simp only [transfer]
  rw [transfer_compute_eval h1 h2 h3 h4 h5 h6 h7 h8 h9 h10 h11 h12 h13 hval
    hdd hsub hovf]
  simp [pack_account_info, h6, h7, RecData.data_len]

/-- The program id of the transfer-overflow scenario. -/
def ovfPid : Pubkey := ⟨[0]⟩

/-- Source account of the transfer-overflow scenario (balance 1). -/
def ovfSrcAcct : Account :=
  { mint := ⟨[9]⟩, owner := ⟨[2]⟩, amount := 1, delegate := none,
    state := .Initialized, is_native := none, delegated_amount := 0,
    close_authority := none }

/-- Destination account holding the maximal `u64` balance. -/
def ovfDstAcct : Account :=
  { mint := ⟨[9]⟩, owner := ⟨[3]⟩, amount := U64_MAX, delegate := none,
    state := .Initialized, is_native := none, delegated_amount := 0,
    close_authority := none }

/-- The source record of the transfer-overflow scenario. -/
def ovfSrcInfo : RecordRef :=
  { key := ⟨[1]⟩, owner := ovfPid, is_signer := false, is_writable := true,
    lamports := 0, data := .account ovfSrcAcct }

/-- The destination record of the transfer-overflow scenario. -/
def ovfDstInfo : RecordRef :=
  { key := ⟨[4]⟩, owner := ovfPid, is_signer := false, is_writable := true,
    lamports := 0, data := .account ovfDstAcct }

/-- The signed owner record of the transfer-overflow scenario. -/
def ovfOwnerInfo : RecordRef :=
  { key := ⟨[2]⟩, owner := ⟨[7]⟩, is_signer := true, is_writable := false,
    lamports := 0, data := .raw 0 }

/-- Counterexample to C7: every precondition listed by the claim holds
(program-owned, writable, distinct keys, initialized, unfrozen, equal
mints, sufficient balance, valid owner authority), yet the transfer of 1
token fails with `Overflow` because the destination balance is `u64::MAX`
— the claim omits the destination-overflow precondition. -/
theorem transfer_dest_overflow_cex :
    ovfSrcInfo.owner = ovfPid ∧ ovfSrcInfo.is_writable = true ∧
    ovfDstInfo.owner = ovfPid ∧ ovfDstInfo.is_writable = true ∧
    ovfSrcInfo.key ≠ ovfDstInfo.key ∧
    ovfSrcAcct.is_initialized = true ∧ ovfDstAcct.is_initialized = true ∧
    ovfSrcAcct.is_frozen = false ∧ ovfDstAcct.is_frozen = false ∧
    ovfSrcAcct.mint = ovfDstAcct.mint ∧
    ¬ ovfSrcAcct.amount < 1 ∧
    validate_owner_or_delegate ovfPid ovfSrcAcct.owner ovfSrcAcct.delegate
      ovfOwnerInfo [] = .ok false ∧
    transfer ovfPid [ovfSrcInfo, ovfDstInfo, ovfOwnerInfo] 1 =
      (.error .Overflow, []) :=
  ⟨rfl, rfl, rfl, rfl, by decide, rfl, rfl, rfl, rfl, rfl, by decide,
    rfl, rfl⟩

/-- C7 (amended): under the claim's preconditions plus the missing
destination-overflow bound `dest.amount + amount ≤ u64::MAX`, the effect of
`Transfer` is exactly `source.amount -= amount` and `dest.amount += amount`:
on the owner path the source's other fields are untouched, on the delegate
path `delegated_amount` is additionally debited (clearing the delegate when
it reaches 0) under the extra bound `amount ≤ delegated_amount`; and a
transfer of `amount = 0` succeeds and leaves both balances unchanged. -/
theorem transfer_moves_exactly_amount :
    (∀ pid source_info dest_info authority_info signer_accounts amount
        srcA destA,
      source_info.owner = pid → source_info.is_writable = true →
      dest_info.owner = pid → dest_info.is_writable = true →
      source_info.key ≠ dest_info.key →
      source_info.data = .account srcA → dest_info.data = .account destA →
      srcA.is_initialized = true → destA.is_initialized = true →
      srcA.is_frozen = false → destA.is_frozen = false →
      srcA.mint = destA.mint → ¬ srcA.amount < amount →
      validate_owner_or_delegate pid srcA.owner srcA.delegate authority_info
        signer_accounts = .ok false →
      destA.amount + amount ≤ U64_MAX →
      transfer pid
          (source_info :: dest_info :: authority_info :: signer_accounts)
          amount =
        (.ok (), [.data source_info.key
            (.account { srcA with amount := srcA.amount - amount }),
          .data dest_info.key
            (.account { destA with amount := destA.amount + amount })])) ∧
    (∀ pid source_info dest_info authority_info signer_accounts amount
        srcA destA,
      source_info.owner = pid → source_info.is_writable = true →
      dest_info.owner = pid → dest_info.is_writable = true →
      source_info.key ≠ dest_info.key →
      source_info.data = .account srcA → dest_info.data = .account destA →
      srcA.is_initialized = true → destA.is_initialized = true →
      srcA.is_frozen = false → destA.is_frozen = false →
      srcA.mint = destA.mint → ¬ srcA.amount < amount →
      validate_owner_or_delegate pid srcA.owner srcA.delegate authority_info
        signer_accounts = .ok true →
      amount ≤ srcA.delegated_amount →
      destA.amount + amount ≤ U64_MAX →
      transfer pid
          (source_info :: dest_info :: authority_info :: signer_accounts)
          amount =
        (.ok (), [.data source_info.key
            (.account { delegate_debit srcA amount with
              amount := srcA.amount - amount }),
          .data dest_info.key
            (.account { destA with amount := destA.amount + amount })])) ∧
    (∀ pid source_info dest_info authority_info signer_accounts srcA destA,
      source_info.owner = pid → source_info.is_writable = true →
      dest_info.owner = pid → dest_info.is_writable = true →
      source_info.key ≠ dest_info.key →
      source_info.data = .account srcA → dest_info.data = .account destA →
      srcA.is_initialized = true → destA.is_initialized = true →
      srcA.is_frozen = false → destA.is_frozen = false →
      srcA.mint = destA.mint →
      validate_owner_or_delegate pid srcA.owner srcA.delegate authority_info
        signer_accounts = .ok false →
      destA.amount ≤ U64_MAX →
      transfer pid
          (source_info :: dest_info :: authority_info :: signer_accounts) 0 =
        (.ok (), [.data source_info.key (.account srcA),
          .data dest_info.key (.account destA)])) := by
  refine ⟨?_, ?_, ?_⟩
  · intro pid source_info dest_info authority_info signer_accounts amount
      srcA destA h1 h2 h3 h4 h5 h6 h7 h8 h9 h10 h11 h12 h13 hval hovf
    exact transfer_eval h1 h2 h3 h4 h5 h6 h7 h8 h9 h10 h11 h12 h13 hval rfl
      (by omega) hovf
  · intro pid source_info dest_info authority_info signer_accounts amount
      srcA destA h1 h2 h3 h4 h5 h6 h7 h8 h9 h10 h11 h12 h13 hval hda hovf
    have h := transfer_eval h1 h2 h3 h4 h5 h6 h7 h8 h9 h10 h11 h12 h13 hval
      (handle_delegate_debit_eval hda)
      (by rw [delegate_debit_amount]; omega) hovf
    rwa [delegate_debit_amount] at h
  · intro pid source_info dest_info authority_info signer_accounts srcA destA
      h1 h2 h3 h4 h5 h6 h7 h8 h9 h10 h11 h12 hval hb
    have h := transfer_eval h1 h2 h3 h4 h5 h6 h7 h8 h9 h10 h11 h12
      (show ¬ srcA.amount < 0 by omega) hval rfl (Nat.zero_le _) (by omega)
    simpa using h

/-! ## Error atomicity: a failing handler commits no writes. -/

theorem transfer_err_no_writes {pid : Pubkey} {accounts : List RecordRef}
    {amount : Nat} {e : Err} (h : (transfer pid accounts amount).fst = .error e) :
    (transfer pid accounts amount).snd = [] := by
  match accounts with
  | [] => rfl
  | [_] => rfl
  | [_, _] => rfl
  | s :: d :: a :: rest =>
    cases hc : transfer_compute pid s d a rest amount with
    | error e2 => simp [transfer, hc]
    | ok res =>
      obtain ⟨src, dst⟩ := res
      obtain ⟨srcA, destA, ud, s2, _, _, _, _, _, hsa, hda, _⟩ :=
        transfer_compute_ok hc
      have hp1 : pack_account_info s.data src = .ok (.account src) :=
        pack_account_info_of_len (by rw [hsa]; rfl)
      have hp2 : pack_account_info d.data dst = .ok (.account dst) :=
        pack_account_info_of_len (by rw [hda]; rfl)
      have ht : transfer pid (s :: d :: a :: rest) amount =
          (.ok (), [.data s.key (.account src), .data d.key (.account dst)]) := by
        simp [transfer, hc, hp1, hp2]
      rw [ht] at h
      simp at h

theorem mint_to_err_no_writes {pid : Pubkey} {accounts : List RecordRef}
    {amount : Nat} {e : Err} (h : (mint_to pid accounts amount).fst = .error e) :
    (mint_to pid accounts amount).snd = [] := by
  match accounts with
  | [] => rfl
  | [_] => rfl
  | [_, _] => rfl
  | mi :: di :: ai :: rest =>
    cases hc : mint_to_compute pid mi di ai rest amount with
    | error e2 => simp [mint_to, hc]
    | ok res =>
      obtain ⟨mt2, da2⟩ := res
      obtain ⟨mt, da, _, _, _, _, _, hmt, hda, _⟩ := mint_to_compute_ok hc
      have hp1 : pack_mint_info mi.data mt2 = .ok (.mint mt2) :=
        pack_mint_info_of_len (by rw [hmt]; rfl)
      have hp2 : pack_account_info di.data da2 = .ok (.account da2) :=
        pack_account_info_of_len (by rw [hda]; rfl)
      have ht : mint_to pid (mi :: di :: ai :: rest) amount =
          (.ok (), [.data mi.key (.mint mt2), .data di.key (.account da2)]) := by
        simp [mint_to, hc, hp1, hp2]
      rw [ht] at h
      simp at h

theorem burn_err_no_writes {pid : Pubkey} {accounts : List RecordRef}
    {amount : Nat} {e : Err} (h : (burn pid accounts amount).fst = .error e) :
    (burn pid accounts amount).snd = [] := by
  match accounts with
  | [] => rfl
  | [_] => rfl
  | [_, _] => rfl
  | ai :: mi :: aui :: rest =>
    cases hc : burn_compute pid ai mi aui rest amount with
    | error e2 => simp [burn, hc]
    | ok res =>
      obtain ⟨a2, mt2⟩ := res
      obtain ⟨acctA, mt, _, _, _, _, _, _, hacct, hmt, _⟩ := burn_compute_ok hc
      have hp1 : pack_account_info ai.data a2 = .ok (.account a2) :=
        pack_account_info_of_len (by rw [hacct]; rfl)
      have hp2 : pack_mint_info mi.data mt2 = .ok (.mint mt2) :=
        pack_mint_info_of_len (by rw [hmt]; rfl)
      have ht : burn pid (ai :: mi :: aui :: rest) amount =
          (.ok (), [.data ai.key (.account a2), .data mi.key (.mint mt2)]) := by
        simp [burn, hc, hp1, hp2]
      rw [ht] at h
      simp at h

theorem approve_err_no_writes {pid : Pubkey} {accounts : List RecordRef}
    {amount : Nat} {e : Err} (h : (approve pid accounts amount).fst = .error e) :
    (approve pid accounts amount).snd = [] := by
  match accounts with
  | [] => rfl
  | [_] => rfl
  | [_, _] => rfl
  | s :: d :: o :: rest =>
    cases hc : approve_compute pid s d o rest amount with
    | error e2 => simp [approve, hc]
    | ok src =>
      cases hp : pack_account_info s.data src with
      | error e2 => simp [approve, hc, hp]
      | ok d1 =>
        have ht : approve pid (s :: d :: o :: rest) amount =
            (.ok (), [.data s.key d1]) := by simp [approve, hc, hp]
        rw [ht] at h
        simp at h

theorem revoke_err_no_writes {pid : Pubkey} {accounts : List RecordRef}
    {e : Err} (h : (revoke pid accounts).fst = .error e) :
    (revoke pid accounts).snd = [] := by
  match accounts with
  | [] => rfl
  | [_] => rfl
  | s :: o :: rest =>
    cases hc : revoke_compute pid s o rest with
    | error e2 => simp [revoke, hc]
    | ok src =>
      cases hp : pack_account_info s.data src with
      | error e2 => simp [revoke, hc, hp]
      | ok d1 =>
        have ht : revoke pid (s :: o :: rest) = (.ok (), [.data s.key d1]) := by
          simp [revoke, hc, hp]
        rw [ht] at h
        simp at h

theorem close_account_err_no_writes {pid : Pubkey} {accounts : List RecordRef}
    {e : Err} (h : (close_account pid accounts).fst = .error e) :
    (close_account pid accounts).snd = [] := by
  match accounts with
  | [] => rfl
  | [_] => rfl
  | [_, _] => rfl
  | a :: d :: au :: rest =>
    cases hc : close_account_compute pid a d au rest with
    | error e2 => simp [close_account, hc]
    | ok v =>
      have ht : close_account pid (a :: d :: au :: rest) =
          (.ok (), [.lamports d.key v, .lamports a.key 0,
            .data a.key zeroedAccountData]) := by simp [close_account, hc]
      rw [ht] at h
      simp at h

theorem set_authority_err_no_writes {pid : Pubkey} {accounts : List RecordRef}
    {authority_type : AuthorityType} {new_authority : Option Pubkey} {e : Err}
    (h : (set_authority pid accounts authority_type new_authority).fst =
      .error e) :
    (set_authority pid accounts authority_type new_authority).snd = [] := by
  match accounts with
  | [] => rfl
  | [_] => rfl
  | a :: au :: rest =>
    cases hc : set_authority_compute pid a au rest authority_type new_authority
        with
    | error e2 => simp [set_authority, hc]
    | ok d1 =>
      have ht : set_authority pid (a :: au :: rest) authority_type
          new_authority = (.ok (), [.data a.key d1]) := by
        simp [set_authority, hc]
      rw [ht] at h
      simp at h

theorem freeze_account_err_no_writes {pid : Pubkey} {accounts : List RecordRef}
    {e : Err} (h : (freeze_account pid accounts).fst = .error e) :
    (freeze_account pid accounts).snd = [] := by
  match accounts with
  | [] => rfl
  | [_] => rfl
  | [_, _] => rfl
  | a :: m :: au :: rest =>
    cases hc : freeze_thaw_compute pid a m au rest .Frozen with
    | error e2 => simp [freeze_account, hc]
    | ok acct =>
      cases hp : pack_account_info a.data acct with
      | error e2 => simp [freeze_account, hc, hp]
      | ok d1 =>
        have ht : freeze_account pid (a :: m :: au :: rest) =
            (.ok (), [.data a.key d1]) := by simp [freeze_account, hc, hp]
        rw [ht] at h
        simp at h

theorem thaw_account_err_no_writes {pid : Pubkey} {accounts : List RecordRef}
    {e : Err} (h : (thaw_account pid accounts).fst = .error e) :
    (thaw_account pid accounts).snd = [] := by
  match accounts with
  | [] => rfl
  | [_] => rfl
  | [_, _] => rfl
  | a :: m :: au :: rest =>
    cases hc : freeze_thaw_compute pid a m au rest .Initialized with
    | error e2 => simp [thaw_account, hc]
    | ok acct =>
      cases hp : pack_account_info a.data acct with
      | error e2 => simp [thaw_account, hc, hp]
      | ok d1 =>
        have ht : thaw_account pid (a :: m :: au :: rest) =
            (.ok (), [.data a.key d1]) := by simp [thaw_account, hc, hp]
        rw [ht] at h
        simp at h

theorem initialize_mint_err_no_writes {pid : Pubkey} {rent : RentOracle}
    {accounts : List RecordRef} {decimals : Nat} {mint_authority : Pubkey}
    {freeze_authority : Option Pubkey} {e : Err}
    (h : (initialize_mint pid rent accounts decimals mint_authority
      freeze_authority).fst = .error e) :
    (initialize_mint pid rent accounts decimals mint_authority
      freeze_authority).snd = [] := by
  match accounts with
  | [] => rfl
  | [_] => rfl
  | mi :: ri :: rest =>
    cases hc : initialize_mint_compute pid rent mi ri decimals mint_authority
        freeze_authority with
    | error e2 => simp [initialize_mint, hc]
    | ok d1 =>
      have ht : initialize_mint pid rent (mi :: ri :: rest) decimals
          mint_authority freeze_authority = (.ok (), [.data mi.key d1]) := by
        simp [initialize_mint, hc]
      rw [ht] at h
      simp at h

theorem initialize_account_err_no_writes {pid : Pubkey} {rent : RentOracle}
    {accounts : List RecordRef} {e : Err}
    (h : (initialize_account pid rent accounts).fst = .error e) :
    (initialize_account pid rent accounts).snd = [] := by
  match accounts with
  | [] => rfl
  | [_] => rfl
  | [_, _] => rfl
  | [_, _, _] => rfl
  | a :: m :: o :: r :: rest =>
    cases hc : initialize_account_compute pid rent a m o r with
    | error e2 => simp [initialize_account, hc]
    | ok d1 =>
      have ht : initialize_account pid rent (a :: m :: o :: r :: rest) =
          (.ok (), [.data a.key d1]) := by simp [initialize_account, hc]
      rw [ht] at h
      simp at h

theorem initialize_multisig_err_no_writes {pid : Pubkey} {rent : RentOracle}
    {accounts : List RecordRef} {m : Nat} {e : Err}
    (h : (initialize_multisig pid rent accounts m).fst = .error e) :
    (initialize_multisig pid rent accounts m).snd = [] := by
  match accounts with
  | [] => rfl
  | [_] => rfl
  | mi :: ri :: rest =>
    cases hc : initialize_multisig_compute pid rent mi ri rest m with
    | error e2 => simp [initialize_multisig, hc]
    | ok d1 =>
      have ht : initialize_multisig pid rent (mi :: ri :: rest) m =
          (.ok (), [.data mi.key d1]) := by simp [initialize_multisig, hc]
      rw [ht] at h
      simp at h

theorem process_instruction_err_no_writes {pid : Pubkey} {rent : RentOracle}
    {accounts : List RecordRef} {i : TokenInstruction} {e : Err}
    (h : (process_instruction pid rent accounts i).fst = .error e) :
    (process_instruction pid rent accounts i).snd = [] := by
  cases i with
  | InitializeMint decimals mint_authority freeze_authority =>
    exact initialize_mint_err_no_writes h
  | InitializeAccount => exact initialize_account_err_no_writes h
  | InitializeMultisig m => exact initialize_multisig_err_no_writes h
  | Transfer amount => exact transfer_err_no_writes h
  | Approve amount => exact approve_err_no_writes h
  | Revoke => exact revoke_err_no_writes h
  | SetAuthority authority_type new_authority =>
    exact set_authority_err_no_writes h
  | MintTo amount => exact mint_to_err_no_writes h
  | Burn amount => exact burn_err_no_writes h
  | CloseAccount => exact close_account_err_no_writes h
  | FreezeAccount => exact freeze_account_err_no_writes h
  | ThawAccount => exact thaw_account_err_no_writes h

theorem processor_process_err_no_writes {pid : Pubkey} {rent : RentOracle}
    {accounts : List RecordRef} {instruction_data : List Nat} {e : Err}
    (h : (processor_process pid rent accounts instruction_data).fst =
      .error e) :
    (processor_process pid rent accounts instruction_data).snd = [] := by
  unfold processor_process at h ⊢
  cases hu : TokenInstruction.unpack instruction_data with
  | error e2 => simp [hu]
  | ok i =>
    rw [hu] at h
    exact process_instruction_err_no_writes h

/-- C4: every handler is atomic in its error behaviour: whenever the
dispatcher (or the full entry point, decoding included) returns an error,
its list of committed writes is empty, so applying its writes to any world
leaves every record buffer and lamport balance at its pre-call value. -/
theorem handlers_atomic_on_error :
    (∀ pid rent accounts i e,
      (process_instruction pid rent accounts i).fst = .error e →
      (process_instruction pid rent accounts i).snd = []) ∧
    (∀ pid rent accounts instruction_data e,
      (processor_process pid rent accounts instruction_data).fst = .error e →
      (processor_process pid rent accounts instruction_data).snd = []) ∧
    (∀ pid rent accounts i e w,
      (process_instruction pid rent accounts i).fst = .error e →
      apply_writes w (process_instruction pid rent accounts i).snd = w) :=
  ⟨fun _ _ _ _ _ h => process_instruction_err_no_writes h,
    fun _ _ _ _ _ h => processor_process_err_no_writes h,
    fun _ _ _ _ _ w h => by
      rw [process_instruction_err_no_writes h]
      rfl⟩

/-! ## World-update helpers for the conservation invariant. -/

/-- The per-record effect of a data write. -/
def upd_data (k : Pubkey) (d : RecData) (r : RecordRef) : RecordRef :=
  if r.key = k then { r with data := d } else r

/-- The per-record effect of a lamports write. -/
def upd_lamports (k : Pubkey) (v : Nat) (r : RecordRef) : RecordRef :=
  if r.key = k then { r with lamports := v } else r

theorem apply_write_data (w : List RecordRef) (k : Pubkey) (d : RecData) :
    apply_write w (.data k d) = w.map (upd_data k d) := rfl

theorem apply_write_lamports (w : List RecordRef) (k : Pubkey) (v : Nat) :
    apply_write w (.lamports k v) = w.map (upd_lamports k v) := rfl

theorem upd_data_key (k : Pubkey) (d : RecData) (r : RecordRef) :
    (upd_data k d r).key = r.key := by
  unfold upd_data; split <;> rfl

theorem upd_data_owner (k : Pubkey) (d : RecData) (r : RecordRef) :
    (upd_data k d r).owner = r.owner := by
  unfold upd_data; split <;> rfl

theorem upd_lamports_key (k : Pubkey) (v : Nat) (r : RecordRef) :
    (upd_lamports k v r).key = r.key := by
  unfold upd_lamports; split <;> rfl

theorem upd_lamports_owner (k : Pubkey) (v : Nat) (r : RecordRef) :
    (upd_lamports k v r).owner = r.owner := by
  unfold upd_lamports; split <;> rfl

theorem upd_lamports_data (k : Pubkey) (v : Nat) (r : RecordRef) :
    (upd_lamports k v r).data = r.data := by
  unfold upd_lamports; split <;> rfl

theorem upd_data_of_ne {k : Pubkey} {r : RecordRef} (d : RecData)
    (h : r.key ≠ k) : upd_data k d r = r := if_neg h

theorem upd_data_of_eq {k : Pubkey} {r : RecordRef} (d : RecData)
    (h : r.key = k) : upd_data k d r = { r with data := d } := if_pos h

theorem map_key_apply_write (w : List RecordRef) (op : WriteOp) :
    (apply_write w op).map RecordRef.key = w.map RecordRef.key := by
  cases op with
  | data k d =>
    rw [apply_write_data, List.map_map]
    exact List.map_congr_left (fun r _ => upd_data_key k d r)
  | lamports k v =>
    rw [apply_write_lamports, List.map_map]
    exact List.map_congr_left (fun r _ => upd_lamports_key k v r)

theorem map_key_apply_writes (ws : List WriteOp) :
    ∀ w : List RecordRef,
    (apply_writes w ws).map RecordRef.key = w.map RecordRef.key := by
  induction ws with
  | nil => intro w; rfl
  | cons op rest ih =>
    intro w
    show (apply_writes (apply_write w op) rest).map RecordRef.key = _
    rw [ih, map_key_apply_write]

theorem keys_nodup_apply_writes {w : List RecordRef} (ws : List WriteOp)
    (h : keys_nodup w) : keys_nodup (apply_writes w ws) := by
  unfold keys_nodup at h ⊢
  rwa [map_key_apply_writes]

theorem keys_nodup_map_upd_data {w : List RecordRef} (k : Pubkey) (d : RecData)
    (h : keys_nodup w) : keys_nodup (w.map (upd_data k d)) := by
  unfold keys_nodup at h ⊢
  have he : (w.map (upd_data k d)).map RecordRef.key = w.map RecordRef.key := by
    rw [List.map_map]
    exact List.map_congr_left (fun r _ => upd_data_key k d r)
  rwa [he]

theorem key_unique {w : List RecordRef} (hnd : keys_nodup w) :
    ∀ {r1 r2 : RecordRef}, r1 ∈ w → r2 ∈ w → r1.key = r2.key → r1 = r2 := by
  induction w with
  | nil => intro r1 r2 h1; cases h1
  | cons a t ih =>
    intro r1 r2 h1 h2 hk
    unfold keys_nodup at hnd
    rw [List.map_cons, List.nodup_cons] at hnd
    obtain ⟨hna, hnt⟩ := hnd
    rcases List.mem_cons.mp h1 with rfl | h1t
    · rcases List.mem_cons.mp h2 with rfl | h2t
      · rfl
      · exact absurd (hk ▸ List.mem_map_of_mem RecordRef.key h2t) hna
    · rcases List.mem_cons.mp h2 with rfl | h2t
      · exact absurd (hk ▸ List.mem_map_of_mem RecordRef.key h1t) hna
      · exact ih hnt h1t h2t hk

theorem amount_sum_cons (pid mk : Pubkey) (r : RecordRef) (w : List RecordRef) :
    amount_sum pid mk (r :: w) = acct_contrib pid mk r + amount_sum pid mk w := by
  unfold amount_sum
  rw [List.map_cons, List.sum_cons]

theorem amount_sum_upd_data_not_mem (pid mk k : Pubkey) (d : RecData)
    {w : List RecordRef} (hnk : ∀ r ∈ w, r.key ≠ k) :
    amount_sum pid mk (w.map (upd_data k d)) = amount_sum pid mk w := by
  unfold amount_sum
  rw [List.map_map]
  congr 1
  exact List.map_congr_left (fun r hr => by
    show acct_contrib pid mk (upd_data k d r) = acct_contrib pid mk r
    rw [upd_data_of_ne d (hnk r hr)])

theorem amount_sum_upd_data_mem (pid mk k : Pubkey) (d : RecData)
    {w : List RecordRef} {r0 : RecordRef} (hnd : keys_nodup w)
    (hr0 : r0 ∈ w) (hk : r0.key = k) :
    amount_sum pid mk (w.map (upd_data k d)) + acct_contrib pid mk r0 =
      amount_sum pid mk w + acct_contrib pid mk { r0 with data := d } := by
  induction w with
  | nil => cases hr0
  | cons a t ih =>
    have hnd' : keys_nodup t := by
      unfold keys_nodup at hnd ⊢
      rw [List.map_cons, List.nodup_cons] at hnd
      exact hnd.2
    have hna : a.key ∉ t.map RecordRef.key := by
      unfold keys_nodup at hnd
      rw [List.map_cons, List.nodup_cons] at hnd
      exact hnd.1
    rcases List.mem_cons.mp hr0 with rfl | hmem
    · have ht : ∀ r ∈ t, r.key ≠ k := by
        intro r hr hreq
        exact hna (by rw [hk, ← hreq]; exact List.mem_map_of_mem _ hr)
      rw [List.map_cons, amount_sum_cons, amount_sum_cons,
        upd_data_of_eq d hk, amount_sum_upd_data_not_mem pid mk k d ht]
      omega
    · have hak : a.key ≠ k := by
        intro hreq
        exact hna (by rw [hreq, ← hk]; exact List.mem_map_of_mem _ hmem)
      rw [List.map_cons, amount_sum_cons, amount_sum_cons,
        upd_data_of_ne d hak]
      have := ih hnd' hmem
      omega

theorem acct_contrib_upd_lamports (pid mk k : Pubkey) (v : Nat) (r : RecordRef) :
    acct_contrib pid mk (upd_lamports k v r) = acct_contrib pid mk r := by
  unfold upd_lamports
  split <;> rfl

theorem amount_sum_upd_lamports (pid mk k : Pubkey) (v : Nat)
    (w : List RecordRef) :
    amount_sum pid mk (w.map (upd_lamports k v)) = amount_sum pid mk w := by
  unfold amount_sum
  rw [List.map_map]
  congr 1
  exact List.map_congr_left (fun r _ => acct_contrib_upd_lamports pid mk k v r)

theorem supply_ok_upd_lamports {pid : Pubkey} {w : List RecordRef}
    (k : Pubkey) (v : Nat) (h : supply_ok pid w) :
    supply_ok pid (w.map (upd_lamports k v)) := by
  intro r' hr' mt hd ho hinit
  obtain ⟨r, hr, rfl⟩ := List.mem_map.mp hr'
  rw [upd_lamports_data] at hd
  rw [upd_lamports_owner] at ho
  rw [upd_lamports_key, amount_sum_upd_lamports]
  exact h r hr mt hd ho hinit

theorem mint_ref_ok_upd_lamports {pid : Pubkey} {w : List RecordRef}
    (k : Pubkey) (v : Nat) (h : mint_ref_ok pid w) :
    mint_ref_ok pid (w.map (upd_lamports k v)) := by
  intro r' hr' a hd ho hinit
  obtain ⟨r, hr, rfl⟩ := List.mem_map.mp hr'
  rw [upd_lamports_data] at hd
  rw [upd_lamports_owner] at ho
  obtain ⟨rm, hrm, hkm, hom, mt, hdm, hmi⟩ := h r hr a hd ho hinit
  exact ⟨upd_lamports k v rm, List.mem_map_of_mem _ hrm,
    by rw [upd_lamports_key, hkm], by rw [upd_lamports_owner, hom],
    mt, by rw [upd_lamports_data, hdm], hmi⟩

theorem supply_ok_single_write {pid k : Pubkey} {d : RecData}
    {w : List RecordRef} {r0 : RecordRef}
    (hnd : keys_nodup w) (hr0 : r0 ∈ w) (hk : r0.key = k)
    (hsup : supply_ok pid w)
    (hcontrib : ∀ mk, acct_contrib pid mk { r0 with data := d } =
      acct_contrib pid mk r0)
    (hmint : ∀ mt, d = .mint mt → r0.owner = pid → mt.is_initialized = true →
      ∃ mt0, r0.data = .mint mt0 ∧ mt0.is_initialized = true ∧
        mt0.supply = mt.supply) :
    supply_ok pid (w.map (upd_data k d)) := by
  have hsum : ∀ mk, amount_sum pid mk (w.map (upd_data k d)) =
      amount_sum pid mk w := by
    intro mk
    have := amount_sum_upd_data_mem pid mk k d hnd hr0 hk
    rw [hcontrib mk] at this
    omega
  intro r' hr' mt hd ho hinit
  obtain ⟨r, hr, rfl⟩ := List.mem_map.mp hr'
  rw [upd_data_key, hsum]
  by_cases hrk : r.key = k
  · have hr0r : r = r0 := key_unique hnd hr hr0 (by rw [hrk, hk])
    subst hr0r
    rw [upd_data_of_eq d hrk] at hd ho
    obtain ⟨mt0, hd0, hi0, hs0⟩ := hmint mt hd ho hinit
    rw [← hs0]
    exact hsup r hr mt0 hd0 ho hi0
  · rw [upd_data_of_ne d hrk] at hd ho
    exact hsup r hr mt hd ho hinit

theorem mint_ref_ok_single_write {pid k : Pubkey} {d : RecData}
    {w : List RecordRef} {r0 : RecordRef}
    (hnd : keys_nodup w) (hr0 : r0 ∈ w) (hk : r0.key = k)
    (href : mint_ref_ok pid w)
    (hacc : ∀ a, d = .account a → r0.owner = pid → a.is_initialized = true →
      ∃ rm ∈ w, rm.key ≠ k ∧ rm.key = a.mint ∧ rm.owner = pid ∧
        ∃ mt, rm.data = .mint mt ∧ mt.is_initialized = true)
    (hmnt : ∀ mt, r0.data = .mint mt → mt.is_initialized = true →
      ∃ mt', d = .mint mt' ∧ mt'.is_initialized = true) :
    mint_ref_ok pid (w.map (upd_data k d)) := by
  intro r' hr' a hd ho hinit
  obtain ⟨r, hr, rfl⟩ := List.mem_map.mp hr'
  rw [upd_data_owner] at ho
  by_cases hrk : r.key = k
  · have hr0r : r = r0 := key_unique hnd hr hr0 (by rw [hrk, hk])
    subst hr0r
    rw [upd_data_of_eq d hrk] at hd
    obtain ⟨rm, hrm, hne, hkm, hom, mt, hdm, hmi⟩ := hacc a hd ho hinit
    refine ⟨upd_data k d rm, List.mem_map_of_mem _ hrm, ?_, ?_, mt, ?_, hmi⟩
    · rw [upd_data_of_ne d hne, hkm]
    · rw [upd_data_of_ne d hne, hom]
    · rw [upd_data_of_ne d hne, hdm]
  · rw [upd_data_of_ne d hrk] at hd
    obtain ⟨rm, hrm, hkm, hom, mt, hdm, hmi⟩ := href r hr a hd ho hinit
    by_cases hmk : rm.key = k
    · have hrm0 : rm = r0 := key_unique hnd hrm hr0 (by rw [hmk, hk])
      subst hrm0
      obtain ⟨mt', hd', hi'⟩ := hmnt mt hdm hmi
      refine ⟨upd_data k d rm, List.mem_map_of_mem _ hrm, ?_, ?_, mt', ?_, hi'⟩
      · rw [upd_data_of_eq d hmk]
        exact hkm
      · rw [upd_data_of_eq d hmk]
        exact hom
      · rw [upd_data_of_eq d hmk, hd']
    · refine ⟨upd_data k d rm, List.mem_map_of_mem _ hrm, ?_, ?_, mt, ?_, hmi⟩
      · rw [upd_data_of_ne d hmk, hkm]
      · rw [upd_data_of_ne d hmk, hom]
      · rw [upd_data_of_ne d hmk, hdm]

/-! ## Success-shape inversions for the handler shells. -/

theorem approve_ok_inv {pid : Pubkey} {accounts : List RecordRef} {amount : Nat}
    (h : (approve pid accounts amount).fst = .ok ()) :
    ∃ s d o rest src, accounts = s :: d :: o :: rest ∧
      approve_compute pid s d o rest amount = .ok src ∧
      (approve pid accounts amount).snd = [.data s.key (.account src)] := by
  match accounts with
  | [] => simp [approve] at h
  | [_] => simp [approve] at h
  | [_, _] => simp [approve] at h
  | s :: d :: o :: rest =>
    cases hc : approve_compute pid s d o rest amount with
    | error e => rw [show (approve pid (s :: d :: o :: rest) amount) =
        (.error e, []) from by simp [approve, hc]] at h; simp at h
    | ok src =>
      obtain ⟨a, _, _, hsa, _⟩ := approve_compute_ok hc
      have hp : pack_account_info s.data src = .ok (.account src) :=
        pack_account_info_of_len (by rw [hsa]; rfl)
      exact ⟨s, d, o, rest, src, rfl, hc, by simp [approve, hc, hp]⟩

theorem revoke_ok_inv {pid : Pubkey} {accounts : List RecordRef}
    (h : (revoke pid accounts).fst = .ok ()) :
    ∃ s o rest src, accounts = s :: o :: rest ∧
      revoke_compute pid s o rest = .ok src ∧
      (revoke pid accounts).snd = [.data s.key (.account src)] := by
  match accounts with
  | [] => simp [revoke] at h
  | [_] => simp [revoke] at h
  | s :: o :: rest =>
    cases hc : revoke_compute pid s o rest with
    | error e => rw [show (revoke pid (s :: o :: rest)) =
        (.error e, []) from by simp [revoke, hc]] at h; simp at h
    | ok src =>
      obtain ⟨a, _, _, hsa, _⟩ := revoke_compute_ok hc
      have hp : pack_account_info s.data src = .ok (.account src) :=
        pack_account_info_of_len (by rw [hsa]; rfl)
      exact ⟨s, o, rest, src, rfl, hc, by simp [revoke, hc, hp]⟩

theorem transfer_ok_inv {pid : Pubkey} {accounts : List RecordRef} {amount : Nat}
    (h : (transfer pid accounts amount).fst = .ok ()) :
    ∃ s d a rest src dst, accounts = s :: d :: a :: rest ∧
      transfer_compute pid s d a rest amount = .ok (src, dst) ∧
      (transfer pid accounts amount).snd =
        [.data s.key (.account src), .data d.key (.account dst)] := by
  match accounts with
  | [] => simp [transfer] at h
  | [_] => simp [transfer] at h
  | [_, _] => simp [transfer] at h
  | s :: d :: a :: rest =>
    cases hc : transfer_compute pid s d a rest amount with
    | error e => rw [show (transfer pid (s :: d :: a :: rest) amount) =
        (.error e, []) from by simp [transfer, hc]] at h; simp at h
    | ok res =>
      obtain ⟨src, dst⟩ := res
      obtain ⟨srcA, destA, ud, s2, _, _, _, _, _, hsa, hda, _⟩ :=
        transfer_compute_ok hc
      have hp1 : pack_account_info s.data src = .ok (.account src) :=
        pack_account_info_of_len (by rw [hsa]; rfl)
      have hp2 : pack_account_info d.data dst = .ok (.account dst) :=
        pack_account_info_of_len (by rw [hda]; rfl)
      exact ⟨s, d, a, rest, src, dst, rfl, hc, by simp [transfer, hc, hp1, hp2]⟩

theorem mint_to_ok_inv {pid : Pubkey} {accounts : List RecordRef} {amount : Nat}
    (h : (mint_to pid accounts amount).fst = .ok ()) :
    ∃ mi di ai rest mt2 da2, accounts = mi :: di :: ai :: rest ∧
      mint_to_compute pid mi di ai rest amount = .ok (mt2, da2) ∧
      (mint_to pid accounts amount).snd =
        [.data mi.key (.mint mt2), .data di.key (.account da2)] := by
  match accounts with
  | [] => simp [mint_to] at h
  | [_] => simp [mint_to] at h
  | [_, _] => simp [mint_to] at h
  | mi :: di :: ai :: rest =>
    cases hc : mint_to_compute pid mi di ai rest amount with
    | error e => rw [show (mint_to pid (mi :: di :: ai :: rest) amount) =
        (.error e, []) from by simp [mint_to, hc]] at h; simp at h
    | ok res =>
      obtain ⟨mt2, da2⟩ := res
      obtain ⟨mt, da, _, _, _, _, _, hmt, hda, _⟩ := mint_to_compute_ok hc
      have hp1 : pack_mint_info mi.data mt2 = .ok (.mint mt2) :=
        pack_mint_info_of_len (by rw [hmt]; rfl)
      have hp2 : pack_account_info di.data da2 = .ok (.account da2) :=
        pack_account_info_of_len (by rw [hda]; rfl)
      exact ⟨mi, di, ai, rest, mt2, da2, rfl, hc,
        by simp [mint_to, hc, hp1, hp2]⟩

theorem burn_ok_inv {pid : Pubkey} {accounts : List RecordRef} {amount : Nat}
    (h : (burn pid accounts amount).fst = .ok ()) :
    ∃ ai mi aui rest a2 mt2, accounts = ai :: mi :: aui :: rest ∧
      burn_compute pid ai mi aui rest amount = .ok (a2, mt2) ∧
      (burn pid accounts amount).snd =
        [.data ai.key (.account a2), .data mi.key (.mint mt2)] := by
  match accounts with
  | [] => simp [burn] at h
  | [_] => simp [burn] at h
  | [_, _] => simp [burn] at h
  | ai :: mi :: aui :: rest =>
    cases hc : burn_compute pid ai mi aui rest amount with
    | error e => rw [show (burn pid (ai :: mi :: aui :: rest) amount) =
        (.error e, []) from by simp [burn, hc]] at h; simp at h
    | ok res =>
      obtain ⟨a2, mt2⟩ := res
      obtain ⟨acctA, mt, _, _, _, _, _, _, hacct, hmt, _⟩ := burn_compute_ok hc
      have hp1 : pack_account_info ai.data a2 = .ok (.account a2) :=
        pack_account_info_of_len (by rw [hacct]; rfl)
      have hp2 : pack_mint_info mi.data mt2 = .ok (.mint mt2) :=
        pack_mint_info_of_len (by rw [hmt]; rfl)
      exact ⟨ai, mi, aui, rest, a2, mt2, rfl, hc,
        by simp [burn, hc, hp1, hp2]⟩

theorem close_account_ok_inv {pid : Pubkey} {accounts : List RecordRef}
    (h : (close_account pid accounts).fst = .ok ()) :
    ∃ a d au rest v, accounts = a :: d :: au :: rest ∧
      close_account_compute pid a d au rest = .ok v ∧
      (close_account pid accounts).snd =
        [.lamports d.key v, .lamports a.key 0,
          .data a.key zeroedAccountData] := by
  match accounts with
  | [] => simp [close_account] at h
  | [_] => simp [close_account] at h
  | [_, _] => simp [close_account] at h
  | a :: d :: au :: rest =>
    cases hc : close_account_compute pid a d au rest with
    | error e => rw [show (close_account pid (a :: d :: au :: rest)) =
        (.error e, []) from by simp [close_account, hc]] at h; simp at h
    | ok v => exact ⟨a, d, au, rest, v, rfl, hc, by simp [close_account, hc]⟩

theorem set_authority_ok_inv {pid : Pubkey} {accounts : List RecordRef}
    {authority_type : AuthorityType} {new_authority : Option Pubkey}
    (h : (set_authority pid accounts authority_type new_authority).fst =
      .ok ()) :
    ∃ a au rest d1, accounts = a :: au :: rest ∧
      set_authority_compute pid a au rest authority_type new_authority =
        .ok d1 ∧
      (set_authority pid accounts authority_type new_authority).snd =
        [.data a.key d1] := by
  match accounts with
  | [] => simp [set_authority] at h
  | [_] => simp [set_authority] at h
  | a :: au :: rest =>
    cases hc : set_authority_compute pid a au rest authority_type new_authority
        with
    | error e =>
      rw [show (set_authority pid (a :: au :: rest) authority_type
        new_authority) = (.error e, []) from by simp [set_authority, hc]] at h
      simp at h
    | ok d1 => exact ⟨a, au, rest, d1, rfl, hc, by simp [set_authority, hc]⟩

theorem freeze_account_ok_inv {pid : Pubkey} {accounts : List RecordRef}
    (h : (freeze_account pid accounts).fst = .ok ()) :
    ∃ a m au rest acct, accounts = a :: m :: au :: rest ∧
      freeze_thaw_compute pid a m au rest .Frozen = .ok acct ∧
      (freeze_account pid accounts).snd = [.data a.key (.account acct)] := by
  match accounts with
  | [] => simp [freeze_account] at h
  | [_] => simp [freeze_account] at h
  | [_, _] => simp [freeze_account] at h
  | a :: m :: au :: rest =>
    cases hc : freeze_thaw_compute pid a m au rest .Frozen with
    | error e => rw [show (freeze_account pid (a :: m :: au :: rest)) =
        (.error e, []) from by simp [freeze_account, hc]] at h; simp at h
    | ok acct =>
      obtain ⟨acctA, _, _, _, _, _, hsa, _⟩ := freeze_thaw_compute_ok hc
      have hp : pack_account_info a.data acct = .ok (.account acct) :=
        pack_account_info_of_len (by rw [hsa]; rfl)
      exact ⟨a, m, au, rest, acct, rfl, hc, by simp [freeze_account, hc, hp]⟩

theorem thaw_account_ok_inv {pid : Pubkey} {accounts : List RecordRef}
    (h : (thaw_account pid accounts).fst = .ok ()) :
    ∃ a m au rest acct, accounts = a :: m :: au :: rest ∧
      freeze_thaw_compute pid a m au rest .Initialized = .ok acct ∧
      (thaw_account pid accounts).snd = [.data a.key (.account acct)] := by
  match accounts with
  | [] => simp [thaw_account] at h
  | [_] => simp [thaw_account] at h
  | [_, _] => simp [thaw_account] at h
  | a :: m :: au :: rest =>
    cases hc : freeze_thaw_compute pid a m au rest .Initialized with
    | error e => rw [show (thaw_account pid (a :: m :: au :: rest)) =
        (.error e, []) from by simp [thaw_account, hc]] at h; simp at h
    | ok acct =>
      obtain ⟨acctA, _, _, _, _, _, hsa, _⟩ := freeze_thaw_compute_ok hc
      have hp : pack_account_info a.data acct = .ok (.account acct) :=
        pack_account_info_of_len (by rw [hsa]; rfl)
      exact ⟨a, m, au, rest, acct, rfl, hc, by simp [thaw_account, hc, hp]⟩

theorem initialize_mint_ok_inv {pid : Pubkey} {rent : RentOracle}
    {accounts : List RecordRef} {decimals : Nat} {mint_authority : Pubkey}
    {freeze_authority : Option Pubkey}
    (h : (initialize_mint pid rent accounts decimals mint_authority
      freeze_authority).fst = .ok ()) :
    ∃ mi ri rest d1, accounts = mi :: ri :: rest ∧
      initialize_mint_compute pid rent mi ri decimals mint_authority
        freeze_authority = .ok d1 ∧
      (initialize_mint pid rent accounts decimals mint_authority
        freeze_authority).snd = [.data mi.key d1] := by
  match accounts with
  | [] => simp [initialize_mint] at h
  | [_] => simp [initialize_mint] at h
  | mi :: ri :: rest =>
    cases hc : initialize_mint_compute pid rent mi ri decimals mint_authority
        freeze_authority with
    | error e =>
      rw [show (initialize_mint pid rent (mi :: ri :: rest) decimals
        mint_authority freeze_authority) = (.error e, []) from by
          simp [initialize_mint, hc]] at h
      simp at h
    | ok d1 =>
      exact ⟨mi, ri, rest, d1, rfl, hc, by simp [initialize_mint, hc]⟩

theorem initialize_account_ok_inv {pid : Pubkey} {rent : RentOracle}
    {accounts : List RecordRef}
    (h : (initialize_account pid rent accounts).fst = .ok ()) :
    ∃ a m o r rest d1, accounts = a :: m :: o :: r :: rest ∧
      initialize_account_compute pid rent a m o r = .ok d1 ∧
      (initialize_account pid rent accounts).snd = [.data a.key d1] := by
  match accounts with
  | [] => simp [initialize_account] at h
  | [_] => simp [initialize_account] at h
  | [_, _] => simp [initialize_account] at h
  | [_, _, _] => simp [initialize_account] at h
  | a :: m :: o :: r :: rest =>
    cases hc : initialize_account_compute pid rent a m o r with
    | error e =>
      rw [show (initialize_account pid rent (a :: m :: o :: r :: rest)) =
        (.error e, []) from by simp [initialize_account, hc]] at h
      simp at h
    | ok d1 =>
      exact ⟨a, m, o, r, rest, d1, rfl, hc, by simp [initialize_account, hc]⟩

theorem initialize_multisig_ok_inv {pid : Pubkey} {rent : RentOracle}
    {accounts : List RecordRef} {m : Nat}
    (h : (initialize_multisig pid rent accounts m).fst = .ok ()) :
    ∃ mi ri rest d1, accounts = mi :: ri :: rest ∧
      initialize_multisig_compute pid rent mi ri rest m = .ok d1 ∧
      (initialize_multisig pid rent accounts m).snd = [.data mi.key d1] := by
  match accounts with
  | [] => simp [initialize_multisig] at h
  | [_] => simp [initialize_multisig] at h
  | mi :: ri :: rest =>
    cases hc : initialize_multisig_compute pid rent mi ri rest m with
    | error e =>
      rw [show (initialize_multisig pid rent (mi :: ri :: rest) m) =
        (.error e, []) from by simp [initialize_multisig, hc]] at h
      simp at h
    | ok d1 =>
      exact ⟨mi, ri, rest, d1, rfl, hc, by simp [initialize_multisig, hc]⟩

theorem acct_contrib_of_account {pid mk : Pubkey} {r : RecordRef} {a : Account}
    (hd : r.data = .account a) :
    acct_contrib pid mk r =
      if r.owner = pid ∧ a.mint = mk ∧ a.is_initialized = true then a.amount
      else 0 := by
  unfold acct_contrib
  rw [hd]

theorem acct_contrib_of_mint {pid mk : Pubkey} {r : RecordRef} {mt : Mint}
    (hd : r.data = .mint mt) : acct_contrib pid mk r = 0 := by
  unfold acct_contrib
  rw [hd]

theorem acct_contrib_of_multisig {pid mk : Pubkey} {r : RecordRef}
    {ms : Multisig} (hd : r.data = .multisig ms) : acct_contrib pid mk r = 0 := by
  unfold acct_contrib
  rw [hd]

theorem acct_contrib_congr {pid mk : Pubkey} {r : RecordRef} {a a' : Account}
    (hd : r.data = .account a) (hm : a'.mint = a.mint)
    (hi : a'.is_initialized = a.is_initialized) (ham : a'.amount = a.amount) :
    acct_contrib pid mk { r with data := .account a' } =
      acct_contrib pid mk r := by
  rw [acct_contrib_of_account (r := { r with data := .account a' }) rfl,
    acct_contrib_of_account hd]
  simp only [hm, hi, ham]

theorem data_clash_ne {w : List RecordRef} (hnd : keys_nodup w)
    {r1 r2 : RecordRef} {a : Account} {mt : Mint}
    (h1 : r1 ∈ w) (h2 : r2 ∈ w) (hd1 : r1.data = .account a)
    (hd2 : r2.data = .mint mt) : r2.key ≠ r1.key := by
  intro hk
  have he := key_unique hnd h2 h1 hk
  subst he
  rw [hd1] at hd2
  simp at hd2

theorem inv_preserved_neutral_account_write {pid : Pubkey} {w : List RecordRef}
    {v : RecordRef} {a a' : Account}
    (hnd : keys_nodup w) (hview : ViewOf w v)
    (hvd : v.data = .account a) (hvo : v.owner = pid)
    (hai : a.is_initialized = true)
    (hm : a'.mint = a.mint) (hi : a'.is_initialized = a.is_initialized)
    (ham : a'.amount = a.amount)
    (hsup : supply_ok pid w) (href : mint_ref_ok pid w) :
    supply_ok pid (w.map (upd_data v.key (.account a'))) ∧
    mint_ref_ok pid (w.map (upd_data v.key (.account a'))) := by
  obtain ⟨rv, hrv, hk, ho, _, hd⟩ := hview
  have hrd : rv.data = .account a := by rw [← hd, hvd]
  have hro : rv.owner = pid := by rw [← ho, hvo]
  constructor
  · refine supply_ok_single_write hnd hrv hk.symm hsup ?_ ?_
    · intro mk
      exact acct_contrib_congr hrd hm hi ham
    · intro mt hmt
      exact absurd hmt (by simp)
  · refine mint_ref_ok_single_write hnd hrv hk.symm href ?_ ?_
    · intro a2 hd2 ho2 hi2
      have ha2 : a2 = a' := by
        cases hd2
        rfl
      subst ha2
      obtain ⟨rm, hrm, hkm, hom, mt, hdm, hmi⟩ :=
        href rv hrv a hrd hro hai
      refine ⟨rm, hrm, ?_, by rw [hkm, hm], hom, mt, hdm, hmi⟩
      rw [hk]
      exact data_clash_ne hnd hrv hrm hrd hdm
    · intro mt hmt
      rw [hrd] at hmt
      simp at hmt

theorem inv_preserved_mint_write {pid : Pubkey} {w : List RecordRef}
    {v : RecordRef} {mt mt' : Mint}
    (hnd : keys_nodup w) (hview : ViewOf w v) (hvd : v.data = .mint mt)
    (hs : mt'.supply = mt.supply) (hm0 : mt.is_initialized = true)
    (hm1 : mt'.is_initialized = true)
    (hsup : supply_ok pid w) (href : mint_ref_ok pid w) :
    supply_ok pid (w.map (upd_data v.key (.mint mt'))) ∧
    mint_ref_ok pid (w.map (upd_data v.key (.mint mt'))) := by
  obtain ⟨rv, hrv, hk, ho, _, hd⟩ := hview
  have hrd : rv.data = .mint mt := by rw [← hd, hvd]
  constructor
  · refine supply_ok_single_write hnd hrv hk.symm hsup ?_ ?_
    · intro mk
      rw [acct_contrib_of_mint (r := { rv with data := .mint mt' }) rfl,
        acct_contrib_of_mint hrd]
    · intro mtx hmtx _ _
      have hx : mtx = mt' := by cases hmtx; rfl
      subst hx
      exact ⟨mt, hrd, hm0, hs.symm⟩
  · refine mint_ref_ok_single_write hnd hrv hk.symm href ?_ ?_
    · intro a2 hd2
      exact absurd hd2 (by simp)
    · intro mtx hmtx _
      have hx : mtx = mt := by rw [hrd] at hmtx; cases hmtx; rfl
      subst hx
      exact ⟨mt', rfl, hm1⟩

theorem inv_preserved_multisig_write {pid : Pubkey} {w : List RecordRef}
    {v : RecordRef} {ms0 ms' : Multisig}
    (hnd : keys_nodup w) (hview : ViewOf w v) (hvd : v.data = .multisig ms0)
    (hsup : supply_ok pid w) (href : mint_ref_ok pid w) :
    supply_ok pid (w.map (upd_data v.key (.multisig ms'))) ∧
    mint_ref_ok pid (w.map (upd_data v.key (.multisig ms'))) := by
  obtain ⟨rv, hrv, hk, ho, _, hd⟩ := hview
  have hrd : rv.data = .multisig ms0 := by rw [← hd, hvd]
  constructor
  · refine supply_ok_single_write hnd hrv hk.symm hsup ?_ ?_
    · intro mk
      rw [acct_contrib_of_multisig (r := { rv with data := .multisig ms' }) rfl,
        acct_contrib_of_multisig hrd]
    · intro mtx hmtx
      exact absurd hmtx (by simp)
  · refine mint_ref_ok_single_write hnd hrv hk.symm href ?_ ?_
    · intro a2 hd2
      exact absurd hd2 (by simp)
    · intro mtx hmtx
      rw [hrd] at hmtx
      exact absurd hmtx (by simp)

theorem amount_sum_two_upd (pid mk : Pubkey) {w : List RecordRef}
    {r1 r2 : RecordRef} {k1 k2 : Pubkey} (d1 d2 : RecData)
    (hnd : keys_nodup w) (h1 : r1 ∈ w) (hk1 : r1.key = k1)
    (h2 : r2 ∈ w) (hk2 : r2.key = k2) (hne : k1 ≠ k2) :
    amount_sum pid mk ((w.map (upd_data k1 d1)).map (upd_data k2 d2)) +
      (acct_contrib pid mk r1 + acct_contrib pid mk r2) =
    amount_sum pid mk w +
      (acct_contrib pid mk { r1 with data := d1 } +
       acct_contrib pid mk { r2 with data := d2 }) := by
  have hnd1 : keys_nodup (w.map (upd_data k1 d1)) :=
    keys_nodup_map_upd_data k1 d1 hnd
  have hr2ne : r2.key ≠ k1 := by
    rw [hk2]
    exact fun h => hne h.symm
  have h2m : r2 ∈ w.map (upd_data k1 d1) := by
    have hmm := List.mem_map_of_mem (upd_data k1 d1) h2
    rwa [upd_data_of_ne d1 hr2ne] at hmm
  have e2 := amount_sum_upd_data_mem pid mk k2 d2 hnd1 h2m hk2
  have e1 := amount_sum_upd_data_mem pid mk k1 d1 hnd h1 hk1
  omega

theorem amount_sum_eq_zero {pid mk : Pubkey} {w : List RecordRef}
    (h : ∀ r ∈ w, acct_contrib pid mk r = 0) : amount_sum pid mk w = 0 := by
  unfold amount_sum
  apply List.sum_eq_zero
  intro x hx
  obtain ⟨r, hr, rfl⟩ := List.mem_map.mp hx
  exact h r hr

theorem approve_inv {pid : Pubkey} {accounts : List RecordRef} {amount : Nat}
    {w : List RecordRef} (hnd : keys_nodup w)
    (hview : ∀ v ∈ accounts, ViewOf w v)
    (hok : (approve pid accounts amount).fst = .ok ())
    (hsup : supply_ok pid w) (href : mint_ref_ok pid w) :
    supply_ok pid (apply_writes w (approve pid accounts amount).snd) ∧
    mint_ref_ok pid (apply_writes w (approve pid accounts amount).snd) := by
  obtain ⟨s, d, o, rest, src, haccs, hc, hw⟩ := approve_ok_inv hok
  rw [hw]
  obtain ⟨a, hso, hsw, hsd, hai, hva, hsrc⟩ := approve_compute_ok hc
  subst hsrc
  have hvs : ViewOf w s := hview s (by rw [haccs]; simp)
  exact inv_preserved_neutral_account_write hnd hvs hsd hso hai rfl rfl rfl
    hsup href

theorem revoke_inv {pid : Pubkey} {accounts : List RecordRef}
    {w : List RecordRef} (hnd : keys_nodup w)
    (hview : ∀ v ∈ accounts, ViewOf w v)
    (hok : (revoke pid accounts).fst = .ok ())
    (hsup : supply_ok pid w) (href : mint_ref_ok pid w) :
    supply_ok pid (apply_writes w (revoke pid accounts).snd) ∧
    mint_ref_ok pid (apply_writes w (revoke pid accounts).snd) := by
  obtain ⟨s, o, rest, src, haccs, hc, hw⟩ := revoke_ok_inv hok
  rw [hw]
  obtain ⟨a, hso, hsw, hsd, hai, hva, hsrc⟩ := revoke_compute_ok hc
  subst hsrc
  have hvs : ViewOf w s := hview s (by rw [haccs]; simp)
  exact inv_preserved_neutral_account_write hnd hvs hsd hso hai rfl rfl rfl
    hsup href

theorem freeze_account_inv {pid : Pubkey} {accounts : List RecordRef}
    {w : List RecordRef} (hnd : keys_nodup w)
    (hview : ∀ v ∈ accounts, ViewOf w v)
    (hok : (freeze_account pid accounts).fst = .ok ())
    (hsup : supply_ok pid w) (href : mint_ref_ok pid w) :
    supply_ok pid (apply_writes w (freeze_account pid accounts).snd) ∧
    mint_ref_ok pid (apply_writes w (freeze_account pid accounts).snd) := by
  obtain ⟨a, m, au, rest, acct, haccs, hc, hw⟩ := freeze_account_ok_inv hok
  rw [hw]
  obtain ⟨acctA, mt, fa, hao, haw, hmo, had, hmd, hai, hmi, hamt, hfa, hva,
    hout⟩ := freeze_thaw_compute_ok hc
  subst hout
  have hvs : ViewOf w a := hview a (by rw [haccs]; simp)
  refine inv_preserved_neutral_account_write hnd hvs had hao hai rfl ?_ rfl
    hsup href
  rw [hai]
  rfl

theorem thaw_account_inv {pid : Pubkey} {accounts : List RecordRef}
    {w : List RecordRef} (hnd : keys_nodup w)
    (hview : ∀ v ∈ accounts, ViewOf w v)
    (hok : (thaw_account pid accounts).fst = .ok ())
    (hsup : supply_ok pid w) (href : mint_ref_ok pid w) :
    supply_ok pid (apply_writes w (thaw_account pid accounts).snd) ∧
    mint_ref_ok pid (apply_writes w (thaw_account pid accounts).snd) := by
  obtain ⟨a, m, au, rest, acct, haccs, hc, hw⟩ := thaw_account_ok_inv hok
  rw [hw]
  obtain ⟨acctA, mt, fa, hao, haw, hmo, had, hmd, hai, hmi, hamt, hfa, hva,
    hout⟩ := freeze_thaw_compute_ok hc
  subst hout
  have hvs : ViewOf w a := hview a (by rw [haccs]; simp)
  refine inv_preserved_neutral_account_write hnd hvs had hao hai rfl ?_ rfl
    hsup href
  rw [hai]
  rfl

theorem set_authority_inv {pid : Pubkey} {accounts : List RecordRef}
    {authority_type : AuthorityType} {new_authority : Option Pubkey}
    {w : List RecordRef} (hnd : keys_nodup w)
    (hview : ∀ v ∈ accounts, ViewOf w v)
    (hok : (set_authority pid accounts authority_type new_authority).fst =
      .ok ())
    (hsup : supply_ok pid w) (href : mint_ref_ok pid w) :
    supply_ok pid (apply_writes w
      (set_authority pid accounts authority_type new_authority).snd) ∧
    mint_ref_ok pid (apply_writes w
      (set_authority pid accounts authority_type new_authority).snd) := by
  obtain ⟨a, au, rest, d1, haccs, hc, hw⟩ := set_authority_ok_inv hok
  rw [hw]
  obtain ⟨hao, haw, hbr⟩ := set_authority_compute_ok hc
  have hvs : ViewOf w a := hview a (by rw [haccs]; simp)
  rcases hbr with ⟨mt, hd, hi, mt', hout, hsupeq, hi'⟩ |
    ⟨a0, hd, hi0, a', hout, ham, hm, hst⟩
  · subst hout
    exact inv_preserved_mint_write hnd hvs hd hsupeq hi hi' hsup href
  · subst hout
    refine inv_preserved_neutral_account_write hnd hvs hd hao hi0 hm ?_ ham
      hsup href
    simp [Account.is_initialized, hst]

theorem initialize_multisig_inv {pid : Pubkey} {rent : RentOracle}
    {accounts : List RecordRef} {m : Nat}
    {w : List RecordRef} (hnd : keys_nodup w)
    (hview : ∀ v ∈ accounts, ViewOf w v)
    (hok : (initialize_multisig pid rent accounts m).fst = .ok ())
    (hsup : supply_ok pid w) (href : mint_ref_ok pid w) :
    supply_ok pid (apply_writes w
      (initialize_multisig pid rent accounts m).snd) ∧
    mint_ref_ok pid (apply_writes w
      (initialize_multisig pid rent accounts m).snd) := by
  obtain ⟨mi, ri, rest, d1, haccs, hc, hw⟩ := initialize_multisig_ok_inv hok
  rw [hw]
  obtain ⟨ms0, hrent, hmo, hmw, hn1, hn2, hm1, hm2, hmd, hni, hout⟩ :=
    initialize_multisig_compute_ok hc
  subst hout
  have hvs : ViewOf w mi := hview mi (by rw [haccs]; simp)
  exact inv_preserved_multisig_write hnd hvs hmd hsup href

theorem acct_contrib_fresh_zero (pid mk : Pubkey) (r : RecordRef)
    (a : Account) (hz : a.amount = 0) :
    acct_contrib pid mk { r with data := .account a } = 0 := by
  rw [acct_contrib_of_account (a := a) rfl, hz]
  simp

theorem initialize_account_inv {pid : Pubkey} {rent : RentOracle}
    {accounts : List RecordRef} {w : List RecordRef} (hnd : keys_nodup w)
    (hview : ∀ v ∈ accounts, ViewOf w v)
    (hok : (initialize_account pid rent accounts).fst = .ok ())
    (hsup : supply_ok pid w) (href : mint_ref_ok pid w) :
    supply_ok pid (apply_writes w (initialize_account pid rent accounts).snd) ∧
    mint_ref_ok pid (apply_writes w
      (initialize_account pid rent accounts).snd) := by
  obtain ⟨ai, mi, oi, ri, rest, d1, haccs, hc, hw⟩ :=
    initialize_account_ok_inv hok
  rw [hw]
  obtain ⟨mt, a0, hrent, hao, haw, hmo, hmd, hmi, had, hni, hout⟩ :=
    initialize_account_compute_ok hc
  subst hout
  obtain ⟨ra, hra, hka, hoa, _, hda⟩ := hview ai (by rw [haccs]; simp)
  obtain ⟨rm, hrm, hkm, homi, _, hdmi⟩ := hview mi (by rw [haccs]; simp)
  have hrad : ra.data = .account a0 := by rw [← hda, had]
  have hrao : ra.owner = pid := by rw [← hoa, hao]
  have hrmd : rm.data = .mint mt := by rw [← hdmi, hmd]
  have hrmo : rm.owner = pid := by rw [← homi, hmo]
  constructor
  · refine supply_ok_single_write hnd hra hka.symm hsup ?_ ?_
    · intro mk
      rw [acct_contrib_fresh_zero pid mk ra _ rfl,
        acct_contrib_of_account hrad]
      simp [hni]
    · intro mtx hmtx
      exact absurd hmtx (by simp)
  · refine mint_ref_ok_single_write hnd hra hka.symm href ?_ ?_
    · intro a2 hd2 ho2 hi2
      cases hd2
      refine ⟨rm, hrm, ?_, hkm.symm, hrmo, mt, hrmd, hmi⟩
      rw [hka]
      exact data_clash_ne hnd hra hrm hrad hrmd
    · intro mtx hmtx
      rw [hrad] at hmtx
      exact absurd hmtx (by simp)

theorem initialize_mint_inv {pid : Pubkey} {rent : RentOracle}
    {accounts : List RecordRef} {decimals : Nat} {mint_authority : Pubkey}
    {freeze_authority : Option Pubkey}
    {w : List RecordRef} (hnd : keys_nodup w)
    (hview : ∀ v ∈ accounts, ViewOf w v)
    (hok : (initialize_mint pid rent accounts decimals mint_authority
      freeze_authority).fst = .ok ())
    (hsup : supply_ok pid w) (href : mint_ref_ok pid w) :
    supply_ok pid (apply_writes w (initialize_mint pid rent accounts decimals
      mint_authority freeze_authority).snd) ∧
    mint_ref_ok pid (apply_writes w (initialize_mint pid rent accounts decimals
      mint_authority freeze_authority).snd) := by
  obtain ⟨mi, ri, rest, d1, haccs, hc, hw⟩ := initialize_mint_ok_inv hok
  rw [hw]
  obtain ⟨mt0, hrent, hmo, hmw, hmd, hni, hout⟩ := initialize_mint_compute_ok hc
  obtain ⟨rm, hrm, hkm, hom, _, hdm⟩ := hview mi (by rw [haccs]; simp)
  have hrmd : rm.data = .mint mt0 := by rw [← hdm, hmd]
  have hrmo : rm.owner = pid := by rw [← hom, hmo]
  have hMx : ∃ M : Mint, d1 = .mint M ∧ M.supply = 0 ∧
      M.is_initialized = true := by
    rw [hout]
    exact ⟨_, rfl, rfl, rfl⟩
  obtain ⟨M, hMe, hMs, hMi⟩ := hMx
  subst hMe
  have hzero : ∀ r ∈ w, acct_contrib pid mi.key r = 0 := by
    intro r hr
    cases hdr : r.data with
    | account a2 =>
      rw [acct_contrib_of_account hdr]
      by_cases hcond : r.owner = pid ∧ a2.mint = mi.key ∧
          a2.is_initialized = true
      · exfalso
        obtain ⟨ho2, hm2, hi2⟩ := hcond
        obtain ⟨rmx, hrmx, hkx, hox, mtx, hdx, hix⟩ := href r hr a2 hdr ho2 hi2
        have hxe : rmx = rm := key_unique hnd hrmx hrm (by rw [hkx, hm2, hkm])
        subst hxe
        rw [hrmd] at hdx
        cases hdx
        rw [hni] at hix
        simp at hix
      · rw [if_neg hcond]
    | mint m2 => rw [acct_contrib_of_mint hdr]
    | multisig m2 => rw [acct_contrib_of_multisig hdr]
    | sysvarRent => unfold acct_contrib; rw [hdr]
    | raw n => unfold acct_contrib; rw [hdr]
  constructor
  · show supply_ok pid (w.map (upd_data mi.key (.mint M)))
    intro r' hr' mtx hdx hox hix
    obtain ⟨r, hr, rfl⟩ := List.mem_map.mp hr'
    rw [upd_data_key]
    by_cases hrk : r.key = mi.key
    · have hre : r = rm := key_unique hnd hr hrm (by rw [hrk, hkm])
      subst hre
      rw [upd_data_of_eq _ hrk] at hdx
      have hmx : mtx = M := by cases hdx; rfl
      rw [hrk, hmx, hMs]
      have hz' : ∀ r2 ∈ w.map (upd_data mi.key (.mint M)),
          acct_contrib pid mi.key r2 = 0 := by
        intro r2 hr2
        obtain ⟨r3, hr3, rfl⟩ := List.mem_map.mp hr2
        by_cases h3 : r3.key = mi.key
        · rw [upd_data_of_eq _ h3]
          exact acct_contrib_of_mint (r := { r3 with data := .mint M }) rfl
        · rw [upd_data_of_ne _ h3]
          exact hzero r3 hr3
      rw [amount_sum_eq_zero hz']
    · rw [upd_data_of_ne _ hrk] at hdx hox
      have he := amount_sum_upd_data_mem pid r.key mi.key (.mint M) hnd hrm
        hkm.symm
      rw [acct_contrib_of_mint hrmd,
        acct_contrib_of_mint (r := { rm with data := .mint M }) rfl] at he
      have hs := hsup r hr mtx hdx hox hix
      omega
  · refine mint_ref_ok_single_write hnd hrm hkm.symm href ?_ ?_
    · intro a2 hd2
      exact absurd hd2 (by simp)
    · intro mtx hmtx hix
      rw [hrmd] at hmtx
      cases hmtx
      rw [hni] at hix
      simp at hix

theorem acct_contrib_zeroed (pid mk : Pubkey) (r : RecordRef) :
    acct_contrib pid mk { r with data := zeroedAccountData } = 0 := by
  unfold acct_contrib zeroedAccountData
  simp [Account.is_initialized]

theorem close_account_inv {pid : Pubkey} {accounts : List RecordRef}
    {w : List RecordRef} (hnd : keys_nodup w)
    (hview : ∀ v ∈ accounts, ViewOf w v)
    (hok : (close_account pid accounts).fst = .ok ())
    (hsup : supply_ok pid w) (href : mint_ref_ok pid w) :
    supply_ok pid (apply_writes w (close_account pid accounts).snd) ∧
    mint_ref_ok pid (apply_writes w (close_account pid accounts).snd) := by
  obtain ⟨a, d, au, rest, v, haccs, hc, hw⟩ := close_account_ok_inv hok
  rw [hw]
  obtain ⟨acctA, hao, haw, hdw, hkne, had, hai, hz, hva, hovf, hveq⟩ :=
    close_account_compute_ok hc
  obtain ⟨ra, hra, hka, hoa, _, hda⟩ := hview a (by rw [haccs]; simp)
  have hrad : ra.data = .account acctA := by rw [← hda, had]
  have hrao : ra.owner = pid := by rw [← hoa, hao]
  have hnd2 : keys_nodup ((w.map (upd_lamports d.key v)).map
      (upd_lamports a.key 0)) := by
    unfold keys_nodup at hnd ⊢
    rw [show ((w.map (upd_lamports d.key v)).map
        (upd_lamports a.key 0)).map RecordRef.key =
        (w.map (upd_lamports d.key v)).map RecordRef.key from by
      rw [List.map_map]
      exact List.map_congr_left (fun r _ => upd_lamports_key _ _ _)]
    rw [show (w.map (upd_lamports d.key v)).map RecordRef.key =
        w.map RecordRef.key from by
      rw [List.map_map]
      exact List.map_congr_left (fun r _ => upd_lamports_key _ _ _)]
    exact hnd
  have hsup2 : supply_ok pid ((w.map (upd_lamports d.key v)).map
      (upd_lamports a.key 0)) :=
    supply_ok_upd_lamports _ _ (supply_ok_upd_lamports _ _ hsup)
  have href2 : mint_ref_ok pid ((w.map (upd_lamports d.key v)).map
      (upd_lamports a.key 0)) :=
    mint_ref_ok_upd_lamports _ _ (mint_ref_ok_upd_lamports _ _ href)
  have hra2 : upd_lamports a.key 0 (upd_lamports d.key v ra) ∈
      (w.map (upd_lamports d.key v)).map (upd_lamports a.key 0) :=
    List.mem_map_of_mem _ (List.mem_map_of_mem _ hra)
  have hr2key : (upd_lamports a.key 0 (upd_lamports d.key v ra)).key = a.key := by
    rw [upd_lamports_key, upd_lamports_key, hka]
  have hr2d : (upd_lamports a.key 0 (upd_lamports d.key v ra)).data =
      .account acctA := by
    rw [upd_lamports_data, upd_lamports_data, hrad]
  have hr2o : (upd_lamports a.key 0 (upd_lamports d.key v ra)).owner = pid := by
    rw [upd_lamports_owner, upd_lamports_owner, hrao]
  constructor
  · refine supply_ok_single_write hnd2 hra2 hr2key hsup2 ?_ ?_
    · intro mk
      rw [acct_contrib_zeroed, acct_contrib_of_account hr2d, hz]
      simp
    · intro mtx hmtx
      exact absurd hmtx (by simp [zeroedAccountData])
  · refine mint_ref_ok_single_write hnd2 hra2 hr2key href2 ?_ ?_
    · intro a2 hd2 ho2 hi2
      exfalso
      unfold zeroedAccountData at hd2
      cases hd2
      simp [Account.is_initialized] at hi2
    · intro mtx hmtx
      rw [hr2d] at hmtx
      exact absurd hmtx (by simp)

theorem mint_to_inv {pid : Pubkey} {accounts : List RecordRef} {amount : Nat}
    {w : List RecordRef} (hnd : keys_nodup w)
    (hview : ∀ v ∈ accounts, ViewOf w v)
    (hok : (mint_to pid accounts amount).fst = .ok ())
    (hsup : supply_ok pid w) (href : mint_ref_ok pid w) :
    supply_ok pid (apply_writes w (mint_to pid accounts amount).snd) ∧
    mint_ref_ok pid (apply_writes w (mint_to pid accounts amount).snd) := by
  obtain ⟨mi, di, ai, rest, mt2, da2, haccs, hc, hw⟩ := mint_to_ok_inv hok
  rw [hw]
  obtain ⟨mt, da, auth, hmo, hmw, hdo, hdw, hmd, hdd, hmi, hdi, hdf, hdam,
    hma, hva, hsb, hdb, hpair⟩ := mint_to_compute_ok hc
  have hmt2 : mt2 = { mt with supply := mt.supply + amount } := by
    have hfst := congrArg Prod.fst hpair
    simpa using hfst
  have hda2 : da2 = { da with amount := da.amount + amount } := by
    have hsnd := congrArg Prod.snd hpair
    simpa using hsnd
  subst hmt2
  subst hda2
  obtain ⟨rm, hrm, hkm, hom, _, hdm⟩ := hview mi (by rw [haccs]; simp)
  obtain ⟨rd, hrd, hkd, hod, _, hdid⟩ := hview di (by rw [haccs]; simp)
  have hrmd : rm.data = .mint mt := by rw [← hdm, hmd]
  have hrmo : rm.owner = pid := by rw [← hom, hmo]
  have hrdd : rd.data = .account da := by rw [← hdid, hdd]
  have hrdo : rd.owner = pid := by rw [← hod, hdo]
  have hkne : mi.key ≠ di.key := by
    rw [hkm, hkd]
    exact data_clash_ne hnd hrd hrm hrdd hrmd
  have hcrm : ∀ mk, acct_contrib pid mk rm = 0 :=
    fun mk => acct_contrib_of_mint hrmd
  have hcrm' : ∀ mk, acct_contrib pid mk
      { rm with data := .mint { mt with supply := mt.supply + amount } } = 0 :=
    fun mk => acct_contrib_of_mint rfl
  have hcrd : acct_contrib pid mi.key rd = da.amount := by
    rw [acct_contrib_of_account hrdd, if_pos ⟨hrdo, hdam, hdi⟩]
  have hcrd' : acct_contrib pid mi.key
      { rd with data := .account { da with amount := da.amount + amount } } =
      da.amount + amount := by
    rw [acct_contrib_of_account (a := { da with amount := da.amount + amount })
      rfl]
    exact if_pos ⟨hrdo, hdam, hdi⟩
  have hcrdz : ∀ mk, mk ≠ mi.key → acct_contrib pid mk rd = 0 := by
    intro mk hne
    rw [acct_contrib_of_account hrdd, if_neg]
    rintro ⟨_, hmm, _⟩
    exact hne (by rw [← hmm, hdam])
  have hcrdz' : ∀ mk, mk ≠ mi.key → acct_contrib pid mk
      { rd with data := .account { da with amount := da.amount + amount } } =
      0 := by
    intro mk hne
    rw [acct_contrib_of_account (a := { da with amount := da.amount + amount })
      rfl, if_neg]
    rintro ⟨_, hmm, _⟩
    exact hne (by rw [← hmm, hdam])
  constructor
  · show supply_ok pid ((w.map (upd_data mi.key
      (.mint { mt with supply := mt.supply + amount }))).map (upd_data di.key
      (.account { da with amount := da.amount + amount })))
    intro r' hr' mtx hdx hox hix
    obtain ⟨r1', hr1', rfl⟩ := List.mem_map.mp hr'
    obtain ⟨r, hr, rfl⟩ := List.mem_map.mp hr1'
    rw [upd_data_key, upd_data_key]
    by_cases hk2 : (upd_data mi.key
        (.mint { mt with supply := mt.supply + amount }) r).key = di.key
    · exfalso
      rw [upd_data_of_eq _ hk2] at hdx
      simp at hdx
    · rw [upd_data_of_ne _ hk2] at hdx
      by_cases hk1 : r.key = mi.key
      · have hre : r = rm := key_unique hnd hr hrm (by rw [hk1, hkm])
        subst hre
        rw [upd_data_of_eq _ hk1] at hdx hox
        have hmx : mtx = { mt with supply := mt.supply + amount } := by
          cases hdx
          rfl
        have hsum := amount_sum_two_upd pid mi.key
          (.mint { mt with supply := mt.supply + amount })
          (.account { da with amount := da.amount + amount })
          hnd hrm hkm.symm hrd hkd.symm hkne
        rw [hcrm mi.key, hcrm' mi.key, hcrd, hcrd'] at hsum
        have hs0 := hsup r hrm mt hrmd hrmo hmi
        rw [show r.key = mi.key from hkm.symm] at hs0
        rw [hmx, hk1]
        have hred : ({ mt with supply := mt.supply + amount } : Mint).supply =
            mt.supply + amount := rfl
        rw [hred]
        omega
      · rw [upd_data_of_ne _ hk2] at hox
        rw [upd_data_of_ne _ hk1] at hdx hox hk2
        have hsum := amount_sum_two_upd pid r.key
          (.mint { mt with supply := mt.supply + amount })
          (.account { da with amount := da.amount + amount })
          hnd hrm hkm.symm hrd hkd.symm hkne
        rw [hcrm r.key, hcrm' r.key, hcrdz r.key hk1,
          hcrdz' r.key hk1] at hsum
        have hs0 := hsup r hr mtx hdx hox hix
        omega
  · have href1 : mint_ref_ok pid (w.map (upd_data mi.key
        (.mint { mt with supply := mt.supply + amount }))) := by
      refine mint_ref_ok_single_write hnd hrm hkm.symm href ?_ ?_
      · intro a2 hd2
        exact absurd hd2 (by simp)
      · intro mtx hmtx hix
        exact ⟨({ mt with supply := mt.supply + amount } : Mint), rfl, hmi⟩
    have hnd1 : keys_nodup (w.map (upd_data mi.key
        (.mint { mt with supply := mt.supply + amount }))) :=
      keys_nodup_map_upd_data _ _ hnd
    have hrdne : rd.key ≠ mi.key := by
      intro h
      exact hkne (by rw [hkd, h])
    have hrd1 : rd ∈ w.map (upd_data mi.key
        (.mint { mt with supply := mt.supply + amount })) := by
      have hmm := List.mem_map_of_mem (upd_data mi.key
        (.mint { mt with supply := mt.supply + amount })) hrd
      rwa [upd_data_of_ne _ hrdne] at hmm
    refine mint_ref_ok_single_write hnd1 hrd1 hkd.symm href1 ?_ ?_
    · intro a2 hd2 ho2 hi2
      cases hd2
      refine ⟨upd_data mi.key
        (.mint { mt with supply := mt.supply + amount }) rm,
        List.mem_map_of_mem _ hrm, ?_, ?_, ?_,
        { mt with supply := mt.supply + amount }, ?_, hmi⟩
      · rw [upd_data_key, hkd]
        exact data_clash_ne hnd hrd hrm hrdd hrmd
      · rw [upd_data_key]
        show rm.key = da.mint
        rw [hdam]
        exact hkm.symm
      · rw [upd_data_owner]
        exact hrmo
      · rw [upd_data_of_eq _ hkm.symm]
    · intro mtx hmtx
      rw [hrdd] at hmtx
      exact absurd hmtx (by simp)

theorem delegate_debit_mint (a : Account) (amount : Nat) :
    (delegate_debit a amount).mint = a.mint := by
  unfold delegate_debit
  split <;> rfl

theorem delegate_debit_state (a : Account) (amount : Nat) :
    (delegate_debit a amount).state = a.state := by
  unfold delegate_debit
  split <;> rfl

theorem delegate_debit_is_initialized (a : Account) (amount : Nat) :
    (delegate_debit a amount).is_initialized = a.is_initialized := by
  simp [Account.is_initialized, delegate_debit_state]

theorem burn_inv {pid : Pubkey} {accounts : List RecordRef} {amount : Nat}
    {w : List RecordRef} (hnd : keys_nodup w)
    (hview : ∀ v ∈ accounts, ViewOf w v)
    (hok : (burn pid accounts amount).fst = .ok ())
    (hsup : supply_ok pid w) (href : mint_ref_ok pid w) :
    supply_ok pid (apply_writes w (burn pid accounts amount).snd) ∧
    mint_ref_ok pid (apply_writes w (burn pid accounts amount).snd) := by
  obtain ⟨ai, mi, aui, rest, a2, mt2, haccs, hc, hw⟩ := burn_ok_inv hok
  rw [hw]
  obtain ⟨acctA, mt, ud, account2, hao, haw, hmo, hmw, had, hmd, hai, hmi,
    hfr, ham, hle, hva, hdis, hms, hpair⟩ := burn_compute_ok hc
  have ha2 : a2 = { account2 with amount := account2.amount - amount } := by
    have hfst := congrArg Prod.fst hpair
    simpa using hfst
  have hmt2 : mt2 = { mt with supply := mt.supply - amount } := by
    have hsnd := congrArg Prod.snd hpair
    simpa using hsnd
  subst ha2
  subst hmt2
  have hc2m : account2.mint = acctA.mint := by
    rcases hdis with ⟨_, rfl⟩ | ⟨_, _, rfl⟩
    · rfl
    · exact delegate_debit_mint _ _
  have hc2i : account2.is_initialized = acctA.is_initialized := by
    rcases hdis with ⟨_, rfl⟩ | ⟨_, _, rfl⟩
    · rfl
    · exact delegate_debit_is_initialized _ _
  have hc2a : account2.amount = acctA.amount := by
    rcases hdis with ⟨_, rfl⟩ | ⟨_, _, rfl⟩
    · rfl
    · exact delegate_debit_amount _ _
  obtain ⟨ra, hra, hka, hoa, _, hdaa⟩ := hview ai (by rw [haccs]; simp)
  obtain ⟨rm, hrm, hkm, hom, _, hdm⟩ := hview mi (by rw [haccs]; simp)
  have hrad : ra.data = .account acctA := by rw [← hdaa, had]
  have hrao : ra.owner = pid := by rw [← hoa, hao]
  have hrmd : rm.data = .mint mt := by rw [← hdm, hmd]
  have hrmo : rm.owner = pid := by rw [← hom, hmo]
  have hkne : ai.key ≠ mi.key := by
    rw [hka, hkm]
    exact fun h => data_clash_ne hnd hra hrm hrad hrmd h.symm
  have hcra : acct_contrib pid mi.key ra = acctA.amount := by
    rw [acct_contrib_of_account hrad, if_pos ⟨hrao, ham, hai⟩]
  have hcra' : acct_contrib pid mi.key
      { ra with data := .account { account2 with
        amount := account2.amount - amount } } = acctA.amount - amount := by
    rw [acct_contrib_of_account (a := { account2 with
      amount := account2.amount - amount }) rfl]
    rw [if_pos ⟨hrao, by rw [show ({ account2 with
      amount := account2.amount - amount } : Account).mint = account2.mint
      from rfl, hc2m, ham], by rw [show ({ account2 with
      amount := account2.amount - amount } : Account).is_initialized =
      account2.is_initialized from rfl, hc2i, hai]⟩]
    rw [show ({ account2 with amount := account2.amount - amount } :
      Account).amount = account2.amount - amount from rfl, hc2a]
  have hcraz : ∀ mk, mk ≠ mi.key → acct_contrib pid mk ra = 0 := by
    intro mk hne
    rw [acct_contrib_of_account hrad, if_neg]
    rintro ⟨_, hmm, _⟩
    exact hne (by rw [← hmm, ham])
  have hcraz' : ∀ mk, mk ≠ mi.key → acct_contrib pid mk
      { ra with data := .account { account2 with
        amount := account2.amount - amount } } = 0 := by
    intro mk hne
    rw [acct_contrib_of_account (a := { account2 with
      amount := account2.amount - amount }) rfl, if_neg]
    rintro ⟨_, hmm, _⟩
    rw [show ({ account2 with amount := account2.amount - amount } :
      Account).mint = account2.mint from rfl, hc2m, ham] at hmm
    exact hne hmm.symm
  have hcrm : ∀ mk, acct_contrib pid mk rm = 0 :=
    fun mk => acct_contrib_of_mint hrmd
  have hcrm' : ∀ mk, acct_contrib pid mk
      { rm with data := .mint { mt with supply := mt.supply - amount } } = 0 :=
    fun mk => acct_contrib_of_mint rfl
  constructor
  · show supply_ok pid ((w.map (upd_data ai.key (.account { account2 with
      amount := account2.amount - amount }))).map (upd_data mi.key
      (.mint { mt with supply := mt.supply - amount })))
    intro r' hr' mtx hdx hox hix
    obtain ⟨r1', hr1', rfl⟩ := List.mem_map.mp hr'
    obtain ⟨r, hr, rfl⟩ := List.mem_map.mp hr1'
    rw [upd_data_key, upd_data_key]
    by_cases hk2 : (upd_data ai.key (.account { account2 with
        amount := account2.amount - amount }) r).key = mi.key
    · rw [upd_data_of_eq _ hk2] at hdx
      rw [upd_data_key] at hk2
      have hre : r = rm := key_unique hnd hr hrm (by rw [hk2, hkm])
      subst hre
      have hmx : mtx = { mt with supply := mt.supply - amount } := by
        cases hdx
        rfl
      have hsum := amount_sum_two_upd pid mi.key
        (.account { account2 with amount := account2.amount - amount })
        (.mint { mt with supply := mt.supply - amount })
        hnd hra hka.symm hrm hkm.symm hkne
      rw [hcra, hcra', hcrm mi.key, hcrm' mi.key] at hsum
      have hs0 := hsup r hrm mt hrmd hrmo hmi
      rw [show r.key = mi.key from hkm.symm] at hs0
      rw [hmx, hk2]
      rw [show ({ mt with supply := mt.supply - amount } : Mint).supply =
        mt.supply - amount from rfl]
      omega
    · rw [upd_data_of_ne _ hk2] at hdx hox
      rw [upd_data_key] at hk2
      by_cases hk1 : r.key = ai.key
      · exfalso
        have hre : r = ra := key_unique hnd hr hra (by rw [hk1, hka])
        subst hre
        rw [upd_data_of_eq _ hk1] at hdx
        simp at hdx
      · rw [upd_data_of_ne _ hk1] at hdx hox
        have hsum := amount_sum_two_upd pid r.key
          (.account { account2 with amount := account2.amount - amount })
          (.mint { mt with supply := mt.supply - amount })
          hnd hra hka.symm hrm hkm.symm hkne
        rw [hcraz r.key ?_, hcraz' r.key ?_, hcrm r.key, hcrm' r.key] at hsum
        rotate_left
        · exact hk2
        · exact hk2
        have hs0 := hsup r hr mtx hdx hox hix
        omega
  · have hrane : ra.key ≠ mi.key := by
      rw [← hka]
      exact hkne
    have href1 : mint_ref_ok pid (w.map (upd_data ai.key
        (.account { account2 with amount := account2.amount - amount }))) := by
      refine mint_ref_ok_single_write hnd hra hka.symm href ?_ ?_
      · intro ax hdax hoax hiax
        cases hdax
        obtain ⟨rmx, hrmx, hkmx, homx, mtx, hdmx, hmix⟩ :=
          href ra hra acctA hrad hrao hai
        refine ⟨rmx, hrmx, ?_, ?_, homx, mtx, hdmx, hmix⟩
        · rw [hka]
          exact data_clash_ne hnd hra hrmx hrad hdmx
        · rw [hkmx, show ({ account2 with amount := account2.amount - amount } :
            Account).mint = account2.mint from rfl, hc2m]
      · intro mtx hmtx
        rw [hrad] at hmtx
        exact absurd hmtx (by simp)
    have hnd1 : keys_nodup (w.map (upd_data ai.key
        (.account { account2 with amount := account2.amount - amount }))) :=
      keys_nodup_map_upd_data _ _ hnd
    have hrmne : rm.key ≠ ai.key := by
      rw [← hkm]
      exact fun h => hkne h.symm
    have hrm1 : rm ∈ w.map (upd_data ai.key
        (.account { account2 with amount := account2.amount - amount })) := by
      have hmm := List.mem_map_of_mem (upd_data ai.key
        (.account { account2 with amount := account2.amount - amount })) hrm
      rwa [upd_data_of_ne _ hrmne] at hmm
    refine mint_ref_ok_single_write hnd1 hrm1 hkm.symm href1 ?_ ?_
    · intro ax hdax
      exact absurd hdax (by simp)
    · intro mtx hmtx hix
      exact ⟨({ mt with supply := mt.supply - amount } : Mint), rfl, hmi⟩

theorem transfer_inv {pid : Pubkey} {accounts : List RecordRef} {amount : Nat}
    {w : List RecordRef} (hnd : keys_nodup w)
    (hview : ∀ v ∈ accounts, ViewOf w v)
    (hok : (transfer pid accounts amount).fst = .ok ())
    (hsup : supply_ok pid w) (href : mint_ref_ok pid w) :
    supply_ok pid (apply_writes w (transfer pid accounts amount).snd) ∧
    mint_ref_ok pid (apply_writes w (transfer pid accounts amount).snd) := by
  obtain ⟨s, d, au, rest, src, dst, haccs, hc, hw⟩ := transfer_ok_inv hok
  rw [hw]
  obtain ⟨srcA, destA, ud, source2, hso, hsw, hdo, hdw, hsd, hsa, hda, hsi,
    hdi, hsf, hdf, hm12, hle, hva, hdis, hdb, hpair⟩ := transfer_compute_ok hc
  have hsrc : src = { source2 with amount := source2.amount - amount } := by
    have hfst := congrArg Prod.fst hpair
    simpa using hfst
  have hdst : dst = { destA with amount := destA.amount + amount } := by
    have hsnd := congrArg Prod.snd hpair
    simpa using hsnd
  subst hsrc
  subst hdst
  have hc2m : source2.mint = srcA.mint := by
    rcases hdis with ⟨_, rfl⟩ | ⟨_, _, rfl⟩
    · rfl
    · exact delegate_debit_mint _ _
  have hc2i : source2.is_initialized = srcA.is_initialized := by
    rcases hdis with ⟨_, rfl⟩ | ⟨_, _, rfl⟩
    · rfl
    · exact delegate_debit_is_initialized _ _
  have hc2a : source2.amount = srcA.amount := by
    rcases hdis with ⟨_, rfl⟩ | ⟨_, _, rfl⟩
    · rfl
    · exact delegate_debit_amount _ _
  obtain ⟨ra, hra, hka, hoa, _, hdaa⟩ := hview s (by rw [haccs]; simp)
  obtain ⟨rd, hrd, hkd, hod, _, hdad⟩ := hview d (by rw [haccs]; simp)
  have hrad : ra.data = .account srcA := by rw [← hdaa, hsa]
  have hrao : ra.owner = pid := by rw [← hoa, hso]
  have hrdd : rd.data = .account destA := by rw [← hdad, hda]
  have hrdo : rd.owner = pid := by rw [← hod, hdo]
  have hcs : ∀ mk, acct_contrib pid mk ra =
      (if srcA.mint = mk then srcA.amount else 0) := by
    intro mk
    rw [acct_contrib_of_account hrad]
    by_cases hmm : srcA.mint = mk
    · rw [if_pos hmm, if_pos ⟨hrao, hmm, hsi⟩]
    · rw [if_neg hmm, if_neg (fun hcon => hmm hcon.2.1)]
  have hcs' : ∀ mk, acct_contrib pid mk
      { ra with data := .account { source2 with
        amount := source2.amount - amount } } =
      (if srcA.mint = mk then srcA.amount - amount else 0) := by
    intro mk
    rw [acct_contrib_of_account (a := { source2 with
      amount := source2.amount - amount }) rfl]
    by_cases hmm : srcA.mint = mk
    · have hsm2 : source2.mint = mk := by rw [hc2m]; exact hmm
      have hsi2 : source2.is_initialized = true := by rw [hc2i]; exact hsi
      rw [if_pos hmm, if_pos ⟨hrao, hsm2, hsi2⟩]
      rw [show ({ source2 with amount := source2.amount - amount } :
        Account).amount = source2.amount - amount from rfl, hc2a]
    · rw [if_neg hmm, if_neg]
      rintro ⟨_, hcon, _⟩
      rw [show ({ source2 with amount := source2.amount - amount } :
        Account).mint = source2.mint from rfl, hc2m] at hcon
      exact hmm hcon
  have hcd : ∀ mk, acct_contrib pid mk rd =
      (if srcA.mint = mk then destA.amount else 0) := by
    intro mk
    rw [acct_contrib_of_account hrdd]
    by_cases hmm : srcA.mint = mk
    · rw [if_pos hmm, if_pos ⟨hrdo, by rw [← hm12, hmm], hdi⟩]
    · rw [if_neg hmm, if_neg]
      rintro ⟨_, hcon, _⟩
      exact hmm (by rw [hm12, hcon])
  have hcd' : ∀ mk, acct_contrib pid mk
      { rd with data := .account { destA with
        amount := destA.amount + amount } } =
      (if srcA.mint = mk then destA.amount + amount else 0) := by
    intro mk
    rw [acct_contrib_of_account (a := { destA with
      amount := destA.amount + amount }) rfl]
    by_cases hmm : srcA.mint = mk
    · have hdm2 : destA.mint = mk := by rw [← hm12]; exact hmm
      rw [if_pos hmm, if_pos ⟨hrdo, hdm2, hdi⟩]
    · rw [if_neg hmm, if_neg]
      rintro ⟨_, hcon, _⟩
      rw [show ({ destA with amount := destA.amount + amount } :
        Account).mint = destA.mint from rfl, ← hm12] at hcon
      exact hmm hcon
  have hsum : ∀ mk, amount_sum pid mk ((w.map (upd_data s.key (.account
      { source2 with amount := source2.amount - amount }))).map
      (upd_data d.key (.account { destA with
        amount := destA.amount + amount }))) = amount_sum pid mk w := by
    intro mk
    have he := amount_sum_two_upd pid mk
      (.account { source2 with amount := source2.amount - amount })
      (.account { destA with amount := destA.amount + amount })
      hnd hra hka.symm hrd hkd.symm hsd
    rw [hcs mk, hcs' mk, hcd mk, hcd' mk] at he
    by_cases hmm : srcA.mint = mk
    · simp only [if_pos hmm] at he
      omega
    · simp only [if_neg hmm] at he
      omega
  constructor
  · show supply_ok pid ((w.map (upd_data s.key (.account
      { source2 with amount := source2.amount - amount }))).map
      (upd_data d.key (.account { destA with
        amount := destA.amount + amount })))
    intro r' hr' mtx hdx hox hix
    obtain ⟨r1', hr1', rfl⟩ := List.mem_map.mp hr'
    obtain ⟨r, hr, rfl⟩ := List.mem_map.mp hr1'
    rw [upd_data_key, upd_data_key, hsum]
    by_cases hk2 : (upd_data s.key (.account { source2 with
        amount := source2.amount - amount }) r).key = d.key
    · exfalso
      rw [upd_data_of_eq _ hk2] at hdx
      simp at hdx
    · rw [upd_data_of_ne _ hk2] at hdx hox
      by_cases hk1 : r.key = s.key
      · exfalso
        rw [upd_data_of_eq _ hk1] at hdx
        simp at hdx
      · rw [upd_data_of_ne _ hk1] at hdx hox
        exact hsup r hr mtx hdx hox hix
  · have href1 : mint_ref_ok pid (w.map (upd_data s.key (.account
        { source2 with amount := source2.amount - amount }))) := by
      refine mint_ref_ok_single_write hnd hra hka.symm href ?_ ?_
      · intro ax hdax hoax hiax
        cases hdax
        obtain ⟨rmx, hrmx, hkmx, homx, mtx, hdmx, hmix⟩ :=
          href ra hra srcA hrad hrao hsi
        refine ⟨rmx, hrmx, ?_, ?_, homx, mtx, hdmx, hmix⟩
        · rw [hka]
          exact data_clash_ne hnd hra hrmx hrad hdmx
        · rw [hkmx, show ({ source2 with
            amount := source2.amount - amount } : Account).mint =
            source2.mint from rfl, hc2m]
      · intro mtx hmtx
        rw [hrad] at hmtx
        exact absurd hmtx (by simp)
    have hnd1 : keys_nodup (w.map (upd_data s.key (.account
        { source2 with amount := source2.amount - amount }))) :=
      keys_nodup_map_upd_data _ _ hnd
    have hrdne : rd.key ≠ s.key := by
      rw [← hkd]
      exact fun h => hsd h.symm
    have hrd1 : rd ∈ w.map (upd_data s.key (.account
        { source2 with amount := source2.amount - amount })) := by
      have hmm := List.mem_map_of_mem (upd_data s.key (.account
        { source2 with amount := source2.amount - amount })) hrd
      rwa [upd_data_of_ne _ hrdne] at hmm
    refine mint_ref_ok_single_write hnd1 hrd1 hkd.symm href1 ?_ ?_
    · intro ax hdax hoax hiax
      cases hdax
      obtain ⟨rmx, hrmx, hkmx, homx, mtx, hdmx, hmix⟩ :=
        href rd hrd destA hrdd hrdo hdi
      have hrmxne : rmx.key ≠ s.key := by
        rw [hka]
        exact data_clash_ne hnd hra hrmx hrad hdmx
      have hrmx1 : rmx ∈ w.map (upd_data s.key (.account
          { source2 with amount := source2.amount - amount })) := by
        have hmm := List.mem_map_of_mem (upd_data s.key (.account
          { source2 with amount := source2.amount - amount })) hrmx
        rwa [upd_data_of_ne _ hrmxne] at hmm
      refine ⟨rmx, hrmx1, ?_, ?_, homx, mtx, hdmx, hmix⟩
      · rw [hkd]
        exact data_clash_ne hnd hrd hrmx hrdd hdmx
      · exact hkmx
    · intro mtx hmtx
      rw [hrdd] at hmtx
      exact absurd hmtx (by simp)

theorem step_inv {pid : Pubkey} {rent : RentOracle} {w w' : List RecordRef}
    (h : Step pid rent w w') (hnd : keys_nodup w) (hsup : supply_ok pid w)
    (href : mint_ref_ok pid w) :
    keys_nodup w' ∧ supply_ok pid w' ∧ mint_ref_ok pid w' := by
  obtain ⟨i, accounts, hview, hok, rfl⟩ := h
  refine ⟨keys_nodup_apply_writes _ hnd, ?_⟩
  cases i with
  | InitializeMint decimals mint_authority freeze_authority =>
    exact initialize_mint_inv hnd hview hok hsup href
  | InitializeAccount => exact initialize_account_inv hnd hview hok hsup href
  | InitializeMultisig m => exact initialize_multisig_inv hnd hview hok hsup href
  | Transfer amount => exact transfer_inv hnd hview hok hsup href
  | Approve amount => exact approve_inv hnd hview hok hsup href
  | Revoke => exact revoke_inv hnd hview hok hsup href
  | SetAuthority authority_type new_authority =>
    exact set_authority_inv hnd hview hok hsup href
  | MintTo amount => exact mint_to_inv hnd hview hok hsup href
  | Burn amount => exact burn_inv hnd hview hok hsup href
  | CloseAccount => exact close_account_inv hnd hview hok hsup href
  | FreezeAccount => exact freeze_account_inv hnd hview hok hsup href
  | ThawAccount => exact thaw_account_inv hnd hview hok hsup href

theorem steps_inv {pid : Pubkey} {rent : RentOracle} {w w' : List RecordRef}
    (h : Steps pid rent w w') (hnd : keys_nodup w) (hsup : supply_ok pid w)
    (href : mint_ref_ok pid w) :
    keys_nodup w' ∧ supply_ok pid w' ∧ mint_ref_ok pid w' := by
  induction h with
  | refl => exact ⟨hnd, hsup, href⟩
  | tail hsteps hstep ih =>
    obtain ⟨hnd1, hsup1, href1⟩ := ih
    exact step_inv hstep hnd1 hsup1 href1

/-- C1 (amended): supply conservation is preserved by every sequence of
successful instructions provided the initial world also satisfies
mint-reference coherence (every initialized account points at an existing
initialized mint record) and has uniquely keyed records; all three
properties are preserved together.  Without the coherence assumption the
property fails (see the counterexample). -/
theorem supply_conservation (pid : Pubkey) (rent : RentOracle)
    (w w' : List RecordRef) (hs : Steps pid rent w w')
    (hnd : keys_nodup w) (hsup : supply_ok pid w) (href : mint_ref_ok pid w) :
    keys_nodup w' ∧ supply_ok pid w' ∧ mint_ref_ok pid w' :=
  steps_inv hs hnd hsup href

/-- Witness for C1 at a concrete input: the empty world trivially satisfies
the three invariants and steps to itself. -/
theorem supply_conservation_witness :
    Steps ⟨[0]⟩ (fun _ _ => true) [] [] ∧
    keys_nodup ([] : List RecordRef) ∧ supply_ok ⟨[0]⟩ [] ∧
    mint_ref_ok ⟨[0]⟩ [] ∧
    (keys_nodup ([] : List RecordRef) ∧ supply_ok ⟨[0]⟩ [] ∧
      mint_ref_ok ⟨[0]⟩ []) :=
  ⟨Relation.ReflTransGen.refl, List.nodup_nil,
    fun r hr => absurd hr (List.not_mem_nil r),
    fun r hr => absurd hr (List.not_mem_nil r),
    supply_conservation ⟨[0]⟩ (fun _ _ => true) [] []
      Relation.ReflTransGen.refl List.nodup_nil
      (fun r hr => absurd hr (List.not_mem_nil r))
      (fun r hr => absurd hr (List.not_mem_nil r))⟩

/-- Program id of the conservation counterexample. -/
def cexPid : Pubkey := ⟨[0]⟩

/-- Key of the not-yet-initialized mint record. -/
def cexMintKey : Pubkey := ⟨[10]⟩

/-- The uninitialized mint originally stored at `cexMintKey`. -/
def cexMint0 : Mint :=
  { mint_authority := none, supply := 0, decimals := 0,
    is_initialized := false, freeze_authority := none }

/-- The mint value written by `InitializeMint`. -/
def cexMint1 : Mint :=
  { mint_authority := some ⟨[3]⟩, supply := 0, decimals := 0,
    is_initialized := true, freeze_authority := none }

/-- An initialized account bound to `cexMintKey` with balance 5. -/
def cexAcct : Account :=
  { mint := cexMintKey, owner := ⟨[2]⟩, amount := 5, delegate := none,
    state := .Initialized, is_native := none, delegated_amount := 0,
    close_authority := none }

/-- The world record holding `cexMint0`. -/
def cexMintRec : RecordRef :=
  { key := cexMintKey, owner := cexPid, is_signer := false,
    is_writable := true, lamports := 1, data := .mint cexMint0 }

/-- The world record holding `cexAcct`. -/
def cexAcctRec : RecordRef :=
  { key := ⟨[11]⟩, owner := cexPid, is_signer := false, is_writable := false,
    lamports := 1, data := .account cexAcct }

/-- The rent sysvar record. -/
def cexRentRec : RecordRef :=
  { key := ⟨[12]⟩, owner := ⟨[7]⟩, is_signer := false, is_writable := false,
    lamports := 1, data := .sysvarRent }

/-- A rent oracle that treats every record as rent-exempt. -/
def cexRent : RentOracle := fun _ _ => true

/-- The initial world of the conservation counterexample. -/
def cexW0 : List RecordRef := [cexMintRec, cexAcctRec, cexRentRec]

/-- The world after the `InitializeMint` step. -/
def cexW1 : List RecordRef :=
  [{ cexMintRec with data := .mint cexMint1 }, cexAcctRec, cexRentRec]

/-- Counterexample to C1: the initial world has unique keys and satisfies
supply conservation (vacuously: its only mint record is uninitialized), a
successful `InitializeMint` steps it to `cexW1`, and conservation fails
there: the fresh mint has supply 0 while an already-initialized account of
that mint holds 5 tokens.  The claim's stated assumption does not carry an
inductive invariant; mint-reference coherence is also needed. -/
theorem initialize_mint_breaks_supply_conservation_cex :
    keys_nodup cexW0 ∧ supply_ok cexPid cexW0 ∧
    Step cexPid cexRent cexW0 cexW1 ∧
    ¬ supply_ok cexPid cexW1 := by
  refine ⟨show (cexW0.map RecordRef.key).Nodup by decide, ?_, ?_, ?_⟩
  · intro r hr mt hd ho hinit
    simp only [cexW0, List.mem_cons, List.not_mem_nil, or_false] at hr
    rcases hr with rfl | rfl | rfl
    · have hmt : mt = cexMint0 := by
        have hx : cexMintRec.data = .mint cexMint0 := rfl
        rw [hx] at hd
        cases hd
        rfl
      rw [hmt] at hinit
      exact absurd hinit (by decide)
    · exact absurd hd (by simp [cexAcctRec, cexAcct])
    · exact absurd hd (by simp [cexRentRec])
  · refine ⟨.InitializeMint 0 ⟨[3]⟩ none, [cexMintRec, cexRentRec], ?_, ?_, ?_⟩
    · intro v hv
      simp only [List.mem_cons, List.not_mem_nil, or_false] at hv
      rcases hv with rfl | rfl
      · exact ⟨cexMintRec, by simp [cexW0], rfl, rfl, rfl, rfl⟩
      · exact ⟨cexRentRec, by simp [cexW0], rfl, rfl, rfl, rfl⟩
    · rfl
    · decide
  · intro h
    have hx := h { cexMintRec with data := .mint cexMint1 }
      (by simp [cexW1]) cexMint1 rfl rfl rfl
    have hy : amount_sum cexPid
        ({ cexMintRec with data := .mint cexMint1 } : RecordRef).key cexW1 =
        5 := by decide
    rw [hy] at hx
    exact absurd hx (by decide)
